import Mathlib

/-!
BloodStainSystem (GhostReplay plugin): the recording and playback core

A shallow embedding of the plugin's data model (`GhostData.h`), the playback interval
tree and playback clock (`PlayComponent.cpp`), the clip cooker
(`BloodStainRecordDataUtils.cpp`), the lifecycle tracker and the capture buffer of the
recorder (`RecordComponent.cpp`), the collection of clips when a recording stops
(`BloodStainSubsystem.cpp`), the body serializer (`QuantizationHelper.cpp`) and the
recording files (`BloodStainFileUtils.cpp`), followed by theorems about them.

Conventions of the embedding:
* `float` and `double` values are rationals; arithmetic on them is exact, except in the
  playback clock and in the capacity of the capture buffer, where the rounding of the
  `float` operations decides the outcome and is part of the embedding;
* `int32` values are integers, and an `int32` subtraction is wrapped by `wrap32`;
* `TArray` is `List`, `TMap` is an association list in insertion order whose keys are
  expected to be pairwise distinct;
* a nullable `TUniquePtr` is an inductive type with a `null` constructor.
-/

namespace BloodStain

/-! ## Data model (`GhostData.h`) -/

/-- The engine vector `FVector`: three scalar components. -/
structure FVector where
  X : ℚ
  Y : ℚ
  Z : ℚ
  deriving DecidableEq

/-- The engine quaternion `FQuat`. -/
structure FQuat where
  X : ℚ
  Y : ℚ
  Z : ℚ
  W : ℚ
  deriving DecidableEq

/-- The engine transform `FTransform`, with the field order of its serializer. -/
structure FTransform where
  Rotation : FQuat
  Translation : FVector
  Scale3D : FVector
  deriving DecidableEq

/-- The engine colour `FLinearColor`. -/
structure FLinearColor where
  R : ℚ
  G : ℚ
  B : ℚ
  A : ℚ
  deriving DecidableEq

/-- Material parameters of one slot (`FMaterialParameters`). -/
structure FMaterialParameters where
  VectorParams : List (String × FLinearColor)
  ScalarParams : List (String × ℚ)
  deriving DecidableEq

/-- Metadata of a recorded sub-part (`FComponentRecord`). -/
structure FComponentRecord where
  ComponentName : String
  ComponentClassPath : String
  AssetPath : String
  MaterialPaths : List String
  MaterialParameters : List (Int × FMaterialParameters)
  LeaderPoseComponentName : String
  deriving DecidableEq

/-- The value `INT32_MAX`, the end frame of an interval that is still open. -/
def INT32_MAX : Int := 2147483647

/-- Lifecycle interval `[StartFrame, EndFrame)` of a sub-part (`FComponentActiveInterval`). -/
structure FComponentActiveInterval where
  Meta : FComponentRecord
  StartFrame : Int
  EndFrame : Int
  deriving DecidableEq

/-- Bone transforms of one skeletal sub-part (`FBoneComponentSpace`). -/
structure FBoneComponentSpace where
  BoneTransforms : List FTransform
  deriving DecidableEq

/-- One recorded sample (`FRecordFrame`). -/
structure FRecordFrame where
  TimeStamp : ℚ
  ComponentTransforms : List (String × FTransform)
  SkeletalMeshBoneTransforms : List (String × FBoneComponentSpace)
  FrameIndex : Int
  deriving DecidableEq

/-- Position range (`FLocRange`). -/
structure FLocRange where
  PosMin : FVector
  PosMax : FVector
  deriving DecidableEq

/-- Scale range (`FScaleRange`). -/
structure FScaleRange where
  ScaleMin : FVector
  ScaleMax : FVector
  deriving DecidableEq

/-- Recording of one entity (`FRecordActorSaveData`). -/
structure FRecordActorSaveData where
  PrimaryComponentName : String
  ComponentIntervals : List FComponentActiveInterval
  ComponentRanges : FLocRange
  ComponentScaleRanges : FScaleRange
  BoneRanges : List (String × FLocRange)
  BoneScaleRanges : List (String × FScaleRange)
  RecordedFrames : List FRecordFrame
  deriving DecidableEq

/-! ## Engine primitives used by the plugin

These belong to the engine, not to the plugin; they are written out here from the
engine's headers so that the plugin code over them can be evaluated. -/

/-- Wrap-around of a 32-bit signed integer, applied to the result of an `int32`
addition or subtraction. -/
def wrap32 (x : Int) : Int := (x + 2147483648) % 4294967296 - 2147483648

/-- The constant `FLT_MAX`. -/
def FLT_MAX : ℚ := 340282346638528859811704183484516925440

/-- The constant `KINDA_SMALL_NUMBER` (1e-4). -/
def KINDA_SMALL_NUMBER : ℚ := 1 / 10000

/-- The engine's `FMath::Clamp(X, Min, Max)`, which is `Max(Min(X, Max), Min)`. -/
def Clamp {κ : Type} [LinearOrder κ] (X Min Max : κ) : κ := max (min X Max) Min

/-- The loop of the engine's `Algo::UpperBoundBy` (binary search): `Start` and `Size`
are the loop variables; the first argument bounds the number of iterations and is at
least `Size` at every call. The element compared is `Range[Start + Size / 2]`. -/
def UpperBoundLoop {α κ : Type} [LinearOrder κ] (Range : List α) (Value : κ)
    (Projection : α → κ) : Nat → Nat → Nat → Nat
  | 0, Start, _ => Start
  | fuel + 1, Start, Size =>
    if Size = 0 then Start
    else
      let LeftoverSize := Size % 2
      let Half := Size / 2
      let CheckIndex := Start + Half
      let StartIfLess := CheckIndex + LeftoverSize
      match Range.get? CheckIndex with
      | none => Start
      | some Check =>
        UpperBoundLoop Range Value Projection fuel
          (if ¬ (Value < Projection Check) then StartIfLess else Start) Half

/-- The engine's `Algo::UpperBoundBy(Range, Value, Projection)`: on a range sorted by the
projection, the index of the first element whose projection is greater than `Value`. -/
def UpperBoundBy {α κ : Type} [LinearOrder κ] (Range : List α) (Value : κ)
    (Projection : α → κ) : Nat :=
  UpperBoundLoop Range Value Projection Range.length 0 Range.length

/-- The loop of the engine's `Algo::LowerBoundBy`; as `UpperBoundLoop`, with the test
`Projection(Range[CheckIndex]) < Value`. -/
def LowerBoundLoop {α κ : Type} [LinearOrder κ] (Range : List α) (Value : κ)
    (Projection : α → κ) : Nat → Nat → Nat → Nat
  | 0, Start, _ => Start
  | fuel + 1, Start, Size =>
    if Size = 0 then Start
    else
      let LeftoverSize := Size % 2
      let Half := Size / 2
      let CheckIndex := Start + Half
      let StartIfLess := CheckIndex + LeftoverSize
      match Range.get? CheckIndex with
      | none => Start
      | some Check =>
        LowerBoundLoop Range Value Projection fuel
          (if Projection Check < Value then StartIfLess else Start) Half

/-- The engine's `Algo::LowerBoundBy(Range, Value, Projection)`: on a range sorted by the
projection, the index of the first element whose projection is not less than `Value`. -/
def LowerBoundBy {α κ : Type} [LinearOrder κ] (Range : List α) (Value : κ)
    (Projection : α → κ) : Nat :=
  LowerBoundLoop Range Value Projection Range.length 0 Range.length

/-- The engine's `TMap::Find`: the value stored under a key, if any. -/
def TMapFind {κ β : Type} [DecidableEq κ] (M : List (κ × β)) (Key : κ) : Option β :=
  match M with
  | [] => none
  | p :: rest => if p.1 = Key then some p.2 else TMapFind rest Key

/-- The engine's `TMap::Contains`. -/
def TMapContains {κ β : Type} [DecidableEq κ] (M : List (κ × β)) (Key : κ) : Bool :=
  (TMapFind M Key).isSome

/-- The engine's `TMap::Add`: the value of an existing key is replaced in place, a new
key is appended. -/
def TMapAdd {κ β : Type} [DecidableEq κ] (M : List (κ × β)) (Key : κ) (Value : β) :
    List (κ × β) :=
  match M with
  | [] => [(Key, Value)]
  | p :: rest => if p.1 = Key then (Key, Value) :: rest else p :: TMapAdd rest Key Value

/-- The engine's `TMap::Remove`. -/
def TMapRemove {κ β : Type} [DecidableEq κ] (M : List (κ × β)) (Key : κ) : List (κ × β) :=
  M.filter (fun p => decide (p.1 ≠ Key))

/-- The engine's `TCircularQueue<FRecordFrame>`: the queued samples, oldest first, and the
number of samples the ring holds when it is full. -/
structure TCircularQueue where
  Items : List FRecordFrame
  Capacity : Nat
  deriving DecidableEq

/-! ## Single-precision arithmetic

Where the plugin computes with `float` values and the rounding decides the outcome, the
operations are the IEEE 754 binary32 ones: the exact result rounded to the nearest
representable value, ties to the even significand. Values are kept as rationals; values
beyond `FLT_MAX`, infinities and NaN are outside the embedding. -/

/-- The power of two with the given exponent. -/
def Pow2 (k : Int) : ℚ :=
  if 0 ≤ k then ((2 ^ k.toNat : Nat) : ℚ) else 1 / ((2 ^ (-k).toNat : Nat) : ℚ)

/-- The number of halvings that take a natural number below 2, within a budget. -/
def HalvingCount : Nat → Nat → Nat
  | 0, _ => 0
  | fuel + 1, n => if 2 ≤ n then HalvingCount fuel (n / 2) + 1 else 0

/-- For a positive number, the exponent `e` with `2^e <= x < 2^(e+1)`. -/
def FloorLog2 (x : ℚ) : Int :=
  let k : Int :=
    (HalvingCount x.num.natAbs x.num.natAbs : Int) - (HalvingCount x.den x.den : Int)
  if Pow2 k ≤ x then k else k - 1

/-- Rounding of a number that is not negative to the nearest integer, ties to even. -/
def RoundHalfEven (n : ℚ) : Int :=
  let f : Int := ⌊n⌋
  let r : ℚ := n - (f : ℚ)
  if r < 1 / 2 then f
  else if r > 1 / 2 then f + 1
  else if f % 2 = 0 then f
  else f + 1

/-- Rounding of a positive number to binary32: the spacing of the representable values
around it is `2^(e - 23)` for its exponent `e`, and at least `2^(-149)`. -/
def RoundPositiveToFloat (x : ℚ) : ℚ :=
  let e := max (FloorLog2 x) (-126)
  let Quantum := Pow2 (e - 23)
  (RoundHalfEven (x / Quantum) : ℚ) * Quantum

/-- Rounding of a number to binary32 (`static_cast<float>`, and the rounding of every
`float` operation). -/
def RoundToFloat (x : ℚ) : ℚ :=
  if x = 0 then 0
  else if 0 < x then RoundPositiveToFloat x
  else -RoundPositiveToFloat (-x)

/-- The `float` addition. -/
def FloatAdd (X Y : ℚ) : ℚ := RoundToFloat (X + Y)

/-- The `float` subtraction. -/
def FloatSub (X Y : ℚ) : ℚ := RoundToFloat (X - Y)

/-- The `float` multiplication. -/
def FloatMul (X Y : ℚ) : ℚ := RoundToFloat (X * Y)

/-- The `float` division. -/
def FloatDiv (X Y : ℚ) : ℚ := RoundToFloat (X / Y)

/-! ## Engine archive (`FArchive`)

An archive is the sequence of primitive values handed to the engine's `operator<<`; how
the engine lays a primitive out in bytes is not part of the plugin. Saving appends
values, loading consumes them from the front. -/

/-- A primitive value in an archive. -/
inductive Token where
  | int32 (v : Int) : Token
  | uint32 (v : Nat) : Token
  | uint16 (v : Nat) : Token
  | float (v : ℚ) : Token
  | double (v : ℚ) : Token
  | string (v : String) : Token
  | name (v : String) : Token
  | uint8 (v : Nat) : Token
  | int64 (v : Int) : Token
  deriving DecidableEq

/-- Why a load stops: the archive has no (fitting) value left, or a null range pointer
is dereferenced. The second is no reported failure: the C++ run dereferences a null
pointer there (undefined behaviour, in practice an access violation), it does not
return. -/
inductive ArchiveError where
  | endOfData : ArchiveError
  | nullRange : ArchiveError
  deriving DecidableEq

/-- A load operation: it consumes a prefix of the archive and returns a value and the
rest of the archive, or stops. -/
def Loader (α : Type) : Type := List Token → Except ArchiveError (α × List Token)

/-- Run a load operation on an archive. -/
def Loader.run {α : Type} (m : Loader α) (Ar : List Token) : Except ArchiveError (α × List Token) :=
  m Ar

/-- A load operation that consumes nothing. -/
def Loader.pure {α : Type} (a : α) : Loader α := fun Ar => Except.ok (a, Ar)

/-- Sequencing of load operations. -/
def Loader.bind {α β : Type} (m : Loader α) (f : α → Loader β) : Loader β := fun Ar =>
  match m Ar with
  | Except.error e => Except.error e
  | Except.ok (a, Ar1) => f a Ar1

instance : Monad Loader where
  pure := Loader.pure
  bind := Loader.bind

/-- A load operation that stops. -/
def Loader.fail {α : Type} (e : ArchiveError) : Loader α := fun _ => Except.error e

/-- Load of an `int32`. -/
def ReadInt32 : Loader Int := fun Ar =>
  match Ar with
  | Token.int32 v :: rest => Except.ok (v, rest)
  | _ => Except.error ArchiveError.endOfData

/-- Load of a `uint32`. -/
def ReadUInt32 : Loader Nat := fun Ar =>
  match Ar with
  | Token.uint32 v :: rest => Except.ok (v, rest)
  | _ => Except.error ArchiveError.endOfData

/-- Load of a `uint16`. -/
def ReadUInt16 : Loader Nat := fun Ar =>
  match Ar with
  | Token.uint16 v :: rest => Except.ok (v, rest)
  | _ => Except.error ArchiveError.endOfData

/-- Load of a `float`. -/
def ReadFloat : Loader ℚ := fun Ar =>
  match Ar with
  | Token.float v :: rest => Except.ok (v, rest)
  | _ => Except.error ArchiveError.endOfData

/-- Load of a `double`. -/
def ReadDouble : Loader ℚ := fun Ar =>
  match Ar with
  | Token.double v :: rest => Except.ok (v, rest)
  | _ => Except.error ArchiveError.endOfData

/-- Load of an `FString`. -/
def ReadFString : Loader String := fun Ar =>
  match Ar with
  | Token.string v :: rest => Except.ok (v, rest)
  | _ => Except.error ArchiveError.endOfData

/-- Load of an `FName`. -/
def ReadFName : Loader String := fun Ar =>
  match Ar with
  | Token.name v :: rest => Except.ok (v, rest)
  | _ => Except.error ArchiveError.endOfData

/-- Load of a `uint8`. -/
def ReadUInt8 : Loader Nat := fun Ar =>
  match Ar with
  | Token.uint8 v :: rest => Except.ok (v, rest)
  | _ => Except.error ArchiveError.endOfData

/-- Load of an `int64`. -/
def ReadInt64 : Loader Int := fun Ar =>
  match Ar with
  | Token.int64 v :: rest => Except.ok (v, rest)
  | _ => Except.error ArchiveError.endOfData

/-- The values written for a sequence of elements, one after the other. -/
def WriteAll {α : Type} (w : α → List Token) : List α → List Token
  | [] => []
  | a :: rest => w a ++ WriteAll w rest

/-- A counted load loop `for (i = 0; i < n; ++i)` that collects what it loads. -/
def ReadRepeat {α : Type} (r : Loader α) : Nat → Loader (List α)
  | 0 => pure []
  | n + 1 => do
    let a ← r
    let rest ← ReadRepeat r n
    pure (a :: rest)

/-- Save of a `TArray`: the element count as `int32`, then the elements. -/
def WriteArray {α : Type} (w : α → List Token) (A : List α) : List Token :=
  Token.int32 A.length :: WriteAll w A

/-- Load of a `TArray`. -/
def ReadArray {α : Type} (r : Loader α) : Loader (List α) := do
  let Num ← ReadInt32
  ReadRepeat r Num.toNat

/-- The load loop of a `TMap`: every loaded pair is added to the map. -/
def ReadMapLoop {κ β : Type} [DecidableEq κ] (rk : Loader κ) (rv : Loader β) :
    Nat → List (κ × β) → Loader (List (κ × β))
  | 0, M => pure M
  | n + 1, M => do
    let Key ← rk
    let Value ← rv
    ReadMapLoop rk rv n (TMapAdd M Key Value)

/-- Save of a `TMap`: the pair count as `int32`, then key and value of every pair. -/
def WriteMap {κ β : Type} (wk : κ → List Token) (wv : β → List Token) (M : List (κ × β)) :
    List Token :=
  Token.int32 M.length :: WriteAll (fun p => wk p.1 ++ wv p.2) M

/-- Load of a `TMap`. -/
def ReadMap {κ β : Type} [DecidableEq κ] (rk : Loader κ) (rv : Loader β) :
    Loader (List (κ × β)) := do
  let Num ← ReadInt32
  ReadMapLoop rk rv Num.toNat []

/-- Save of an `FVector`: three doubles. -/
def WriteFVector (V : FVector) : List Token :=
  [Token.double V.X, Token.double V.Y, Token.double V.Z]

/-- Load of an `FVector`. -/
def ReadFVector : Loader FVector := do
  let X ← ReadDouble
  let Y ← ReadDouble
  let Z ← ReadDouble
  pure { X := X, Y := Y, Z := Z }

/-- Save of an `FQuat`: four doubles. -/
def WriteFQuat (Q : FQuat) : List Token :=
  [Token.double Q.X, Token.double Q.Y, Token.double Q.Z, Token.double Q.W]

/-- Load of an `FQuat`. -/
def ReadFQuat : Loader FQuat := do
  let X ← ReadDouble
  let Y ← ReadDouble
  let Z ← ReadDouble
  let W ← ReadDouble
  pure { X := X, Y := Y, Z := Z, W := W }

/-- Save of an `FTransform`: rotation, translation, scale. -/
def WriteFTransform (T : FTransform) : List Token :=
  WriteFQuat T.Rotation ++ WriteFVector T.Translation ++ WriteFVector T.Scale3D

/-- Load of an `FTransform`. -/
def ReadFTransform : Loader FTransform := do
  let Rotation ← ReadFQuat
  let Translation ← ReadFVector
  let Scale3D ← ReadFVector
  pure { Rotation := Rotation, Translation := Translation, Scale3D := Scale3D }

/-- Save of an `FLinearColor`: four floats. -/
def WriteFLinearColor (C : FLinearColor) : List Token :=
  [Token.float C.R, Token.float C.G, Token.float C.B, Token.float C.A]

/-- Load of an `FLinearColor`. -/
def ReadFLinearColor : Loader FLinearColor := do
  let R ← ReadFloat
  let G ← ReadFloat
  let B ← ReadFloat
  let A ← ReadFloat
  pure { R := R, G := G, B := B, A := A }

/-- The engine's fixed-point packers used by the quantized transforms. Their code is the
engine's; the plugin code is embedded over any such functions. -/
structure EngineQuantizers where
  NetQuantize100 : FVector → FVector
  NetQuantize10 : FVector → FVector
  QuatFixed48FromQuat : FQuat → Nat × Nat × Nat
  QuatFixed48ToQuat : Nat × Nat × Nat → FQuat
  QuatFixed32FromQuat : FQuat → Nat
  QuatFixed32ToQuat : Nat → FQuat
  IntervalFixed32FromVector : FVector → FVector → FVector → Nat
  IntervalFixed32ToVector : Nat → FVector → FVector → FVector

/-! ## Playback interval tree (`PlayComponent.h`, `PlayComponent.cpp`) -/

/-- Node of the interval tree (`FIntervalTreeNode`); `null` is the empty `TUniquePtr`. -/
inductive FIntervalTreeNode where
  | null : FIntervalTreeNode
  | node (Center : Int) (Intervals : List FComponentActiveInterval)
      (Left Right : FIntervalTreeNode) : FIntervalTreeNode
  deriving DecidableEq

/-- The array `Endpoints` filled by the first loop of `BuildIntervalTree`. -/
def Endpoints : List FComponentActiveInterval → List Int
  | [] => []
  | I :: rest => I.StartFrame :: I.EndFrame :: Endpoints rest

/-- The split value `Mid = Endpoints[Endpoints.Num()/2]` taken after `Endpoints.Sort()`. -/
def MidEndpoint (L : List FComponentActiveInterval) : Int :=
  ((Endpoints L).insertionSort (fun a b => a ≤ b)).getD ((Endpoints L).length / 2) 0

/-- The second loop of `BuildIntervalTree`: every interval goes to `LeftList`, to
`RightList` or to the node, in this order of tests. The result is
`(LeftList, RightList, Node->Intervals)`. -/
def ClassifyIntervals (Mid : Int) :
    List FComponentActiveInterval →
      List FComponentActiveInterval × List FComponentActiveInterval ×
        List FComponentActiveInterval
  | [] => ([], [], [])
  | I :: rest =>
    let r := ClassifyIntervals Mid rest
    if I.EndFrame < Mid then (I :: r.1, r.2.1, r.2.2)
    else if I.StartFrame > Mid then (r.1, I :: r.2.1, r.2.2)
    else (r.1, r.2.1, I :: r.2.2)

/-- The recursive `UPlayComponent::BuildIntervalTree`. The C++ recursion has no bound of
its own, so the embedding carries a recursion budget: `none` means the budget ran out
before the recursion finished. An empty input returns `nullptr` at once. -/
def BuildIntervalTree : Nat → List FComponentActiveInterval → Option FIntervalTreeNode
  | _, [] => some FIntervalTreeNode.null
  | 0, _ :: _ => none
  | fuel + 1, I :: rest =>
    let Mid := MidEndpoint (I :: rest)
    let parts := ClassifyIntervals Mid (I :: rest)
    match BuildIntervalTree fuel parts.1, BuildIntervalTree fuel parts.2.1 with
    | some Left, some Right => some (FIntervalTreeNode.node Mid parts.2.2 Left Right)
    | _, _ => none

/-- The test of `QueryIntervalTree`: `StartFrame <= FrameIndex && FrameIndex < EndFrame`. -/
def Covers (FrameIndex : Int) (I : FComponentActiveInterval) : Bool :=
  decide (I.StartFrame ≤ FrameIndex) && decide (FrameIndex < I.EndFrame)

/-- The recursive `UPlayComponent::QueryIntervalTree`; the last argument is the output
array, to which the matches are appended. -/
def QueryIntervalTree :
    FIntervalTreeNode → Int → List FComponentActiveInterval → List FComponentActiveInterval
  | FIntervalTreeNode.null, _, Out => Out
  | FIntervalTreeNode.node Center Intervals Left Right, FrameIndex, Out =>
    let Out1 := Out ++ Intervals.filter (Covers FrameIndex)
    if FrameIndex < Center then QueryIntervalTree Left FrameIndex Out1
    else if FrameIndex > Center then QueryIntervalTree Right FrameIndex Out1
    else Out1

/-- Linear scan of an interval list: the intervals with `StartFrame <= f < EndFrame`. -/
def LinearScan (L : List FComponentActiveInterval) (f : Int) : List FComponentActiveInterval :=
  L.filter (Covers f)

/-! ## Playback clock (`PlayComponent.cpp`) -/

/-- The constant `SMALL_NUMBER` (1e-8). -/
def SMALL_NUMBER : ℚ := 1 / 100000000

/-- Truncation of a number toward zero. -/
def TruncToInt (q : ℚ) : Int := if 0 ≤ q then ⌊q⌋ else ⌈q⌉

/-- The engine's `FMath::Fmod(X, Y)`: 0 when `|Y| <= SMALL_NUMBER`, otherwise `fmodf`, the
remainder of the division truncated toward zero, which has the sign of `X`. The
remainder of two `float` values is a `float` value, so `fmodf` does not round. -/
def Fmod (X Y : ℚ) : ℚ :=
  if |Y| ≤ SMALL_NUMBER then 0 else X - (TruncToInt (X / Y) : ℚ) * Y

/-- The function `UPlayComponent::CalculatePlaybackTime`, over what it reads:
`RecordHeaderData.TotalLength`, the world time `GetWorld()->GetTimeSeconds()` (a
`double`, cast to `float`), `PlaybackStartTime`, `PlaybackOptions.PlaybackRate` and
`PlaybackOptions.bIsLooping`. Subtraction, multiplication and `+= Duration` are the
`float` operations. The result is the return value and the value left in
`OutElapsedTime`. -/
def CalculatePlaybackTime (TotalLength WorldTimeSeconds PlaybackStartTime PlaybackRate : ℚ)
    (bIsLooping : Bool) (OutElapsedTime : ℚ) : Bool × ℚ :=
  let Duration := TotalLength
  if Duration ≤ 0 then (false, OutElapsedTime)
  else
    let Elapsed :=
      FloatMul (FloatSub (RoundToFloat WorldTimeSeconds) PlaybackStartTime) PlaybackRate
    if bIsLooping then
      let Wrapped := Fmod Elapsed Duration
      (true, if Wrapped < 0 then FloatAdd Wrapped Duration else Wrapped)
    else
      let Shifted := if PlaybackRate < 0 then FloatAdd Elapsed Duration else Elapsed
      if Shifted < 0 ∨ Shifted > Duration then (false, Shifted) else (true, Shifted)
/-! ## Playback component (`PlayComponent.h`, `PlayComponent.cpp`) -/

/-- What the playback reads and writes of an engine `USceneComponent`: the flag that
`SetVisibility` sets and `IsVisible` returns (for a component that is not hidden in game,
in a visible level), and the flag that `SetActive` sets. -/
structure USceneComponent where
  bVisible : Bool
  bIsActive : Bool
  deriving DecidableEq

/-- The state of `UPlayComponent` that playback reads and writes. `bActorHiddenInGame` is
the flag set by `ReplayActor->SetActorHiddenInGame`; `AppliedPose` holds the arguments
`(Prev, Next, Alpha)` of the last calls of `ApplyComponentTransforms` and
`ApplySkeletalBoneTransforms`. A null component pointer is `none`. -/
structure UPlayComponent where
  ReplayData : FRecordActorSaveData
  PlaybackRate : ℚ
  CurrentFrame : Int
  ReconstructedComponents : List (String × Option USceneComponent)
  IntervalRoot : FIntervalTreeNode
  bActorHiddenInGame : Bool
  AppliedPose : Option (FRecordFrame × FRecordFrame × ℚ)
  deriving DecidableEq

/-- The body of the loop of `SeekFrame` over `ReconstructedComponents`: a null component is
skipped; visibility and activity are set only when the state has to change. -/
def SeekComponent (AliveComponentNames : List String)
    (Pair : String × Option USceneComponent) : String × Option USceneComponent :=
  match Pair.2 with
  | none => Pair
  | some Component =>
    let bShouldBeActive := AliveComponentNames.contains Pair.1
    let bIsCurrentlyActive := Component.bVisible
    if bShouldBeActive ≠ bIsCurrentlyActive then
      (Pair.1, some { bVisible := bShouldBeActive, bIsActive := bShouldBeActive })
    else Pair

/-- The function `UPlayComponent::SeekFrame`. -/
def SeekFrame (P : UPlayComponent) (FrameIndex : Int) : UPlayComponent :=
  if FrameIndex < 0 ∨ FrameIndex ≥ P.ReplayData.RecordedFrames.length then P
  else
    let AliveComps := QueryIntervalTree P.IntervalRoot FrameIndex []
    let AliveComponentNames := AliveComps.map (fun Interval => Interval.Meta.ComponentName)
    { P with
      ReconstructedComponents :=
        P.ReconstructedComponents.map (SeekComponent AliveComponentNames) }

/-- The loop of `UPlayComponent::Initialize` that fills `ReconstructedComponents`. The
first argument is the outcome of `CreateComponentFromRecord`, which depends on the
engine's class lookup and on the loaded assets: `none` is a null pointer. A created
component is made invisible and inactive and added under its component name. -/
def CreateComponents (CreateComponentFromRecord : FComponentRecord → Option USceneComponent) :
    List FComponentActiveInterval → List (String × Option USceneComponent) →
      List (String × Option USceneComponent)
  | [], M => M
  | Interval :: rest, M =>
    match CreateComponentFromRecord Interval.Meta with
    | some _NewComp =>
      CreateComponents CreateComponentFromRecord rest
        (TMapAdd M Interval.Meta.ComponentName
          (some { bVisible := false, bIsActive := false }))
    | none => CreateComponents CreateComponentFromRecord rest M

/-- The function `UPlayComponent::Initialize`, for the playback rate of the options. The
first argument is the recursion budget of `BuildIntervalTree`; `none` means that the
build does not return within it. -/
def UPlayComponent.Initialize (fuel : Nat)
    (CreateComponentFromRecord : FComponentRecord → Option USceneComponent)
    (InReplayData : FRecordActorSaveData) (PlaybackRate : ℚ) : Option UPlayComponent :=
  let CurrentFrame : Int :=
    if PlaybackRate > 0 then 0 else wrap32 (InReplayData.RecordedFrames.length - 2)
  let ReconstructedComponents :=
    CreateComponents CreateComponentFromRecord InReplayData.ComponentIntervals []
  match BuildIntervalTree fuel InReplayData.ComponentIntervals with
  | none => none
  | some IntervalRoot =>
    some (SeekFrame
      { ReplayData := InReplayData, PlaybackRate := PlaybackRate,
        CurrentFrame := CurrentFrame, ReconstructedComponents := ReconstructedComponents,
        IntervalRoot := IntervalRoot, bActorHiddenInGame := false, AppliedPose := none } 0)

/-- Read of `Frames[i]`; `none` when the index is outside the array. -/
def FrameAt (Frames : List FRecordFrame) (i : Int) : Option FRecordFrame :=
  if 0 ≤ i then Frames.get? i.toNat else none

/-- The value `Alpha` of `UpdatePlaybackToTime` for the frames `Prev` and `Next`. -/
def InterpolationAlpha (Prev Next : FRecordFrame) (ElapsedTime : ℚ) : ℚ :=
  let FrameDuration := Next.TimeStamp - Prev.TimeStamp
  if FrameDuration > KINDA_SMALL_NUMBER then
    Clamp ((ElapsedTime - Prev.TimeStamp) / FrameDuration) 0 1
  else 1

/-- The value `NewFrameIndex` of `UpdatePlaybackToTime`. -/
def NewFrameIndex (Frames : List FRecordFrame) (ElapsedTime : ℚ) : Int :=
  let UpperBoundIndex : Int := UpperBoundBy Frames ElapsedTime (fun Frame => Frame.TimeStamp)
  Clamp (UpperBoundIndex - 1) 0 ((Frames.length : Int) - 2)

/-- The function `UPlayComponent::UpdatePlaybackToTime`; `none` when an array is read
outside its bounds. -/
def UpdatePlaybackToTime (P : UPlayComponent) (ElapsedTime : ℚ) : Option UPlayComponent :=
  let Frames := P.ReplayData.RecordedFrames
  if Frames.length < 2 then some P
  else
    match Frames.head?, Frames.getLast? with
    | some First, some Last =>
      let bShouldBeHidden : Bool :=
        Frames.isEmpty || decide (ElapsedTime < First.TimeStamp) ||
          decide (ElapsedTime > Last.TimeStamp)
      let P1 := { P with bActorHiddenInGame := bShouldBeHidden }
      if bShouldBeHidden then some P1
      else
        let PreviousFrame := P.CurrentFrame
        let P2 := { P1 with CurrentFrame := NewFrameIndex Frames ElapsedTime }
        let P3 := if PreviousFrame ≠ P2.CurrentFrame then SeekFrame P2 P2.CurrentFrame else P2
        match FrameAt Frames P3.CurrentFrame, FrameAt Frames (P3.CurrentFrame + 1) with
        | some Prev, some Next =>
          some { P3 with
            AppliedPose := some (Prev, Next, InterpolationAlpha Prev Next ElapsedTime) }
        | _, _ => none
    | _, _ => none

/-- Whether some interval that carries the name of a sub-part contains the frame `f`. -/
def ActiveAt (Intervals : List FComponentActiveInterval) (Name : String) (f : Int) : Bool :=
  Intervals.any fun I =>
    decide (I.Meta.ComponentName = Name) && decide (I.StartFrame ≤ f) &&
      decide (f < I.EndFrame)

/-- The state of a component after a seek to a frame at which its activity is
`bActive`: toggled when its visibility differs, untouched otherwise. -/
def ToggleTo (Pair : String × Option USceneComponent) (bActive : Bool) :
    String × Option USceneComponent :=
  match Pair.2 with
  | none => Pair
  | some Component =>
    if Component.bVisible = bActive then Pair
    else (Pair.1, some { bVisible := bActive, bIsActive := bActive })

/-- Every reconstructed sub-part is visible exactly when it is active at the current
frame index. -/
def VisibleIffActive (P : UPlayComponent) : Prop :=
  ∀ (Name : String) (Component : USceneComponent),
    (Name, some Component) ∈ P.ReconstructedComponents →
      Component.bVisible = ActiveAt P.ReplayData.ComponentIntervals Name P.CurrentFrame

/-! ## Clip cooker (`BloodStainRecordDataUtils.cpp`) -/

/-- The remapping of one retained interval in the loop of
`BuildInitialComponentStructure`. -/
def RemapInterval (FirstFrameIndex NumSavedFrames : Int) (Interval : FComponentActiveInterval) :
    FComponentActiveInterval :=
  { Interval with
    StartFrame := max 0 (wrap32 (Interval.StartFrame - FirstFrameIndex))
    EndFrame :=
      if Interval.EndFrame = INT32_MAX then NumSavedFrames
      else min (wrap32 (Interval.EndFrame - FirstFrameIndex)) NumSavedFrames }

/-- The call `OutComponentIntervals.Sort(A.EndFrame < B.EndFrame)`. The engine's sort
does not fix the order of intervals with equal `EndFrame`; the embedding uses a stable
insertion sort. -/
def SortByEndFrame (L : List FComponentActiveInterval) : List FComponentActiveInterval :=
  L.insertionSort (fun A B => A.EndFrame ≤ B.EndFrame)

/-- The function `BloodStainRecordDataUtils::BuildInitialComponentStructure`. The result
is the clip and the interval table, both of which the C++ function updates in place. -/
def BuildInitialComponentStructure (FirstFrameIndex : Int) (OutGhostSaveData : FRecordActorSaveData)
    (OutComponentIntervals : List FComponentActiveInterval) :
    FRecordActorSaveData × List FComponentActiveInterval :=
  let NumSavedFrames : Int := OutGhostSaveData.RecordedFrames.length
  let Sorted := SortByEndFrame OutComponentIntervals
  let StartIdx := UpperBoundBy Sorted FirstFrameIndex (fun I => I.EndFrame)
  let Remapped := (Sorted.drop StartIdx).map (RemapInterval FirstFrameIndex NumSavedFrames)
  ({ OutGhostSaveData with
      ComponentIntervals := OutGhostSaveData.ComponentIntervals ++ Remapped },
    Sorted.take StartIdx ++ Remapped)

/-- The `while (FrameQueuePtr->Dequeue(Tmp))` loop of `CookQueuedFrames`: the first
argument is what is still queued, the second the pair `(RawFrames, FirstIndex)`. -/
def DrainQueue (ClipStartTime : ℚ) :
    List FRecordFrame → List FRecordFrame × Int → List FRecordFrame × Int
  | [], acc => acc
  | Tmp :: rest, acc =>
    let Tmp1 : FRecordFrame := { Tmp with TimeStamp := Tmp.TimeStamp - ClipStartTime }
    if Tmp1.TimeStamp < 0 then DrainQueue ClipStartTime rest acc
    else
      DrainQueue ClipStartTime rest
        (acc.1 ++ [Tmp1], if acc.1.length = 0 then Tmp1.FrameIndex else acc.2)

/-- The samples of a queue that `CookQueuedFrames` keeps: those whose time stamp minus
the clip start time is not negative, each with the time stamp reduced by the clip start
time and every other field unchanged. -/
def KeptSamples (ClipStartTime : ℚ) (Queue : List FRecordFrame) : List FRecordFrame :=
  (Queue.filter (fun F => decide (F.TimeStamp - ClipStartTime ≥ 0))).map
    (fun F => { F with TimeStamp := F.TimeStamp - ClipStartTime })

/-- What `CookQueuedFrames` returns and leaves in its in-out arguments. -/
structure CookResult where
  Success : Bool
  FrameQueue : TCircularQueue
  OutGhostSaveData : FRecordActorSaveData
  OutComponentIntervals : List FComponentActiveInterval
  deriving DecidableEq

/-- The function `BloodStainRecordDataUtils::CookQueuedFrames`. -/
def CookQueuedFrames (SamplingInterval : ℚ) (ClipStartTime : ℚ) (FrameQueue : TCircularQueue)
    (OutGhostSaveData : FRecordActorSaveData)
    (OutComponentIntervals : List FComponentActiveInterval) : CookResult :=
  match FrameQueue.Items with
  | [] => ⟨false, FrameQueue, OutGhostSaveData, OutComponentIntervals⟩
  | _ :: _ =>
    let Raw := DrainQueue ClipStartTime FrameQueue.Items ([], -1)
    let Drained : TCircularQueue := { FrameQueue with Items := [] }
    if Raw.1.length < 2 then ⟨false, Drained, OutGhostSaveData, OutComponentIntervals⟩
    else
      let Built := BuildInitialComponentStructure Raw.2
        { OutGhostSaveData with RecordedFrames := Raw.1 } OutComponentIntervals
      ⟨true, Drained, Built.1, Built.2⟩

/-- Read of `OldToNew[o]`; `none` when the index is outside the array. -/
def TableAt (OldToNew : List Int) (o : Int) : Option Int :=
  if 0 ≤ o then OldToNew.get? o.toNat else none

/-- The loop `for (o = I.StartFrame; o < I.EndFrame && o < Length; ++o)` of
`ClipActorSaveDataByGroup`: the first argument is the number of iterations left, the
second the loop variable. The result is `s` (`INDEX_NONE` is `-1`), or `none` when the
array is read outside its bounds. -/
def ScanForward (OldToNew : List Int) : Nat → Int → Option Int
  | 0, _ => some (-1)
  | n + 1, o =>
    match TableAt OldToNew o with
    | none => none
    | some v => if v ≠ -1 then some v else ScanForward OldToNew n (o + 1)

/-- The loop `for (o = Min(I.EndFrame - 1, Length - 1); o >= I.StartFrame; --o)` of
`ClipActorSaveDataByGroup`; the result is `e`. -/
def ScanBackward (OldToNew : List Int) : Nat → Int → Option Int
  | 0, _ => some (-1)
  | n + 1, o =>
    match TableAt OldToNew o with
    | none => none
    | some v => if v ≠ -1 then some (v + 1) else ScanBackward OldToNew n (o - 1)

/-- The interval loop of `ClipActorSaveDataByGroup` over `Actor.ComponentIntervals`. -/
def RemapIntervalsByTable (OldToNew : List Int) (Length NewCount : Int) :
    List FComponentActiveInterval → Option (List FComponentActiveInterval)
  | [] => some []
  | I :: rest =>
    match ScanForward OldToNew (min I.EndFrame Length - I.StartFrame).toNat I.StartFrame with
    | none => none
    | some s =>
      if s = -1 then RemapIntervalsByTable OldToNew Length NewCount rest
      else
        let o := min (wrap32 (I.EndFrame - 1)) (Length - 1)
        match ScanBackward OldToNew (o - I.StartFrame + 1).toNat o with
        | none => none
        | some e =>
          if e ≤ s then RemapIntervalsByTable OldToNew Length NewCount rest
          else
            (RemapIntervalsByTable OldToNew Length NewCount rest).map fun tail =>
              { I with StartFrame := Clamp s 0 NewCount, EndFrame := Clamp e 0 NewCount } :: tail

/-- The assignment `Frames[0].TimeStamp = v`. -/
def SetFirstTimeStamp (v : ℚ) : List FRecordFrame → List FRecordFrame
  | [] => []
  | F :: rest => { F with TimeStamp := v } :: rest

/-- The assignment `Frames.Last().TimeStamp = v + Frames.Last().TimeStamp`. -/
def AddToLastTimeStamp (v : ℚ) : List FRecordFrame → List FRecordFrame
  | [] => []
  | [F] => [{ F with TimeStamp := v + F.TimeStamp }]
  | F :: G :: rest => F :: AddToLastTimeStamp v (G :: rest)

/-- The body of the second loop of `ClipActorSaveDataByGroup` for one actor whose first
and last samples are `First` and `Last`. -/
def ClipOneActor (WindowStart WindowEnd : ℚ) (Actor : FRecordActorSaveData)
    (First Last : FRecordFrame) : Option FRecordActorSaveData :=
  if Last.TimeStamp < WindowStart ∨ First.TimeStamp > WindowEnd then
    some { Actor with RecordedFrames := [], ComponentIntervals := [] }
  else
    let Frames := Actor.RecordedFrames
    let Length : Int := Frames.length
    let LocalStart := WindowStart - First.TimeStamp
    let LocalEnd := WindowEnd - First.TimeStamp
    let StartIdx0 : Int := LowerBoundBy Frames LocalStart (fun F => F.TimeStamp)
    let EndIdx0 : Int := (UpperBoundBy Frames LocalEnd (fun F => F.TimeStamp) : Int) - 1
    let StartIdx := Clamp StartIdx0 0 (Length - 1)
    let EndIdx := Clamp EndIdx0 0 (Length - 1)
    if StartIdx > EndIdx then
      some { Actor with RecordedFrames := [], ComponentIntervals := [] }
    else
      let NewFirstWorldTime := First.TimeStamp + (Frames.getD StartIdx.toNat First).TimeStamp
      let NewCount : Int := EndIdx - StartIdx + 1
      let OldToNew : List Int := (List.range Frames.length).map fun i =>
        if StartIdx ≤ (i : Int) ∧ (i : Int) ≤ EndIdx then (i : Int) - StartIdx else -1
      let NewFrames := ((Frames.drop StartIdx.toNat).take NewCount.toNat).map fun O =>
        { O with TimeStamp := (First.TimeStamp + O.TimeStamp) - NewFirstWorldTime }
      let Stamped := AddToLastTimeStamp NewFirstWorldTime
        (SetFirstTimeStamp NewFirstWorldTime NewFrames)
      match RemapIntervalsByTable OldToNew Length NewCount Actor.ComponentIntervals with
      | none => none
      | some NewIntervals =>
        some { Actor with RecordedFrames := Stamped, ComponentIntervals := NewIntervals }

/-- The first loop of `ClipActorSaveDataByGroup`: the pair `(GroupStartTime,
GroupEndTime)`; `none` when an actor has no sample (`RecordedFrames[0]` does not exist). -/
def GroupTimes : List FRecordActorSaveData → ℚ × ℚ → Option (ℚ × ℚ)
  | [], acc => some acc
  | D :: rest, acc =>
    match D.RecordedFrames.head?, D.RecordedFrames.getLast? with
    | some First, some Last =>
      GroupTimes rest (min acc.1 First.TimeStamp, max acc.2 Last.TimeStamp)
    | _, _ => none

/-- The value `WindowStart` of `ClipActorSaveDataByGroup`. -/
def WindowStartOf (Times : ℚ × ℚ) (MaxGroupRecordTime : ℚ) : ℚ :=
  max Times.1 (Times.2 - MaxGroupRecordTime)

/-- The second loop of `ClipActorSaveDataByGroup`. -/
def ClipActors (WindowStart WindowEnd : ℚ) :
    List FRecordActorSaveData → Option (List FRecordActorSaveData)
  | [] => some []
  | Actor :: rest =>
    match Actor.RecordedFrames.head?, Actor.RecordedFrames.getLast? with
    | some First, some Last =>
      match ClipOneActor WindowStart WindowEnd Actor First Last with
      | none => none
      | some Clipped => (ClipActors WindowStart WindowEnd rest).map fun tail => Clipped :: tail
    | _, _ => none

/-- The function `BloodStainRecordDataUtils::ClipActorSaveDataByGroup`; the result is the
array `Actors` after the call, `none` when the call reads an array outside its bounds. -/
def ClipActorSaveDataByGroup (Actors : List FRecordActorSaveData) (MaxGroupRecordTime : ℚ)
    (SamplingInterval : ℚ) : Option (List FRecordActorSaveData) :=
  match Actors with
  | [] => some []
  | _ :: _ =>
    match GroupTimes Actors (FLT_MAX, -FLT_MAX) with
    | none => none
    | some Times =>
      ClipActors (WindowStartOf Times MaxGroupRecordTime) Times.2 Actors


/-- The remap of an interval `[s, e)` as the specification words it, for an entity of
which the sample index range `[a, b]` is kept: `[max(s, a) - a, min(e, b + 1) - a)` when
that range is not empty, dropped (`none`) otherwise. -/
def RemapToKeptRange (a b : Int) (I : FComponentActiveInterval) :
    Option FComponentActiveInterval :=
  if max I.StartFrame a < min I.EndFrame (b + 1) then
    some { I with StartFrame := max I.StartFrame a - a,
                  EndFrame := min I.EndFrame (b + 1) - a }
  else none

/-- The table `OldToNew` of `ClipActorSaveDataByGroup` for `Length` samples of which the
index range `[StartIdx, EndIdx]` is kept. -/
def OldToNewTable (Length : Nat) (StartIdx EndIdx : Int) : List Int :=
  (List.range Length).map fun i =>
    if StartIdx ≤ (i : Int) ∧ (i : Int) ≤ EndIdx then (i : Int) - StartIdx else -1

/-- The value `StartIdx` of `ClipActorSaveDataByGroup` after its clamp, for an actor with
the first sample `First`. -/
def ClipStartIdx (WindowStart : ℚ) (Frames : List FRecordFrame) (First : FRecordFrame) : Int :=
  Clamp ((LowerBoundBy Frames (WindowStart - First.TimeStamp) (fun F => F.TimeStamp) : Nat) : Int)
    0 ((Frames.length : Int) - 1)

/-- The value `EndIdx` of `ClipActorSaveDataByGroup` after its clamp, for an actor with the
first sample `First`. -/
def ClipEndIdx (WindowEnd : ℚ) (Frames : List FRecordFrame) (First : FRecordFrame) : Int :=
  Clamp (((UpperBoundBy Frames (WindowEnd - First.TimeStamp) (fun F => F.TimeStamp) : Nat) : Int)
    - 1) 0 ((Frames.length : Int) - 1)
/-! ## Lifecycle tracker of the recorder (`RecordComponent.h`, `RecordComponent.cpp`) -/

/-- What the recorder reads from an engine mesh component: the validity of the object,
whether its class is one of the three recorded classes, the name given by
`CreateUniqueComponentName`, and the data copied into its `FComponentRecord`. -/
structure UMeshComponent where
  UniqueName : String
  bIsValid : Bool
  bIsSupported : Bool
  ComponentClassPath : String
  AssetPath : String
  MaterialPaths : List String
  MaterialParameters : List (Int × FMaterialParameters)
  LeaderPoseComponentName : String
  deriving DecidableEq

/-- The recording state of `URecordComponent` that the lifecycle tracker and the sampler
read and write. -/
structure URecordComponent where
  CurrentFrameIndex : Int
  FrameQueue : TCircularQueue
  OwnedComponentsForRecord : List UMeshComponent
  ComponentActiveIntervals : List FComponentActiveInterval
  IntervalIndexMap : List (String × Nat)
  PrimaryComponentName : String
  SamplingInterval : ℚ
  deriving DecidableEq

/-- The function `URecordComponent::CreateRecordFromMeshComponent`: `none` is the return
value `false`. The metadata cache of the C++ function is filled under the name of the
still empty out-parameter and is looked up under the unique name of the component, so
it never answers and is left out. -/
def CreateRecordFromMeshComponent (InMeshComponent : UMeshComponent) : Option FComponentRecord :=
  if ¬ InMeshComponent.bIsValid then none
  else if InMeshComponent.AssetPath = "" then none
  else
    some
      { ComponentName := InMeshComponent.UniqueName
        ComponentClassPath := InMeshComponent.ComponentClassPath
        AssetPath := InMeshComponent.AssetPath
        MaterialPaths := InMeshComponent.MaterialPaths
        MaterialParameters := InMeshComponent.MaterialParameters
        LeaderPoseComponentName := InMeshComponent.LeaderPoseComponentName }

/-- The function `URecordComponent::OnComponentAttached`. -/
def OnComponentAttached (R : URecordComponent) (NewComponent : UMeshComponent) :
    URecordComponent :=
  if ¬ NewComponent.bIsValid then R
  else if ¬ NewComponent.bIsSupported then R
  else if TMapContains R.IntervalIndexMap NewComponent.UniqueName then R
  else
    let R1 := { R with OwnedComponentsForRecord := R.OwnedComponentsForRecord ++ [NewComponent] }
    match CreateRecordFromMeshComponent NewComponent with
    | none => R1
    | some Record =>
      let I : FComponentActiveInterval :=
        { Meta := Record, StartFrame := R.CurrentFrameIndex, EndFrame := INT32_MAX }
      let NewIdx := R1.ComponentActiveIntervals.length
      { R1 with
        ComponentActiveIntervals := R1.ComponentActiveIntervals ++ [I]
        IntervalIndexMap := TMapAdd R1.IntervalIndexMap I.Meta.ComponentName NewIdx }

/-- The assignment `ComponentActiveIntervals[Idx].EndFrame = v`. -/
def SetEndFrameAt (L : List FComponentActiveInterval) (Idx : Nat) (v : Int) :
    List FComponentActiveInterval :=
  L.modify (fun I => { I with EndFrame := v }) Idx

/-- The function `URecordComponent::OnComponentDetached` for a non-null component. -/
def OnComponentDetached (R : URecordComponent) (DetachedComponent : UMeshComponent) :
    URecordComponent :=
  if ¬ R.OwnedComponentsForRecord.contains DetachedComponent then R
  else
    let R1 := { R with
      OwnedComponentsForRecord :=
        R.OwnedComponentsForRecord.filter (fun c => decide (c ≠ DetachedComponent)) }
    match TMapFind R1.IntervalIndexMap DetachedComponent.UniqueName with
    | none => R1
    | some Idx =>
      { R1 with
        ComponentActiveIntervals :=
          SetEndFrameAt R1.ComponentActiveIntervals Idx (wrap32 (R.CurrentFrameIndex - 1))
        IntervalIndexMap := TMapRemove R1.IntervalIndexMap DetachedComponent.UniqueName }

/-- The queue update at the end of a sampling tick: when the queue is full the oldest
sample is dequeued, then the new one is enqueued (an enqueue on a full ring is refused). -/
def PushFrame (Q : TCircularQueue) (NewFrame : FRecordFrame) : TCircularQueue :=
  let Q1 : TCircularQueue :=
    if Q.Items.length ≥ Q.Capacity then { Q with Items := Q.Items.tail } else Q
  if Q1.Items.length < Q1.Capacity then { Q1 with Items := Q1.Items ++ [NewFrame] } else Q1

/-- The sampling branch of `URecordComponent::TickComponent` (the body run once the
sampling interval has elapsed), for the time stamp and the transforms read from the
scene: the new sample takes `CurrentFrameIndex`, which is then incremented. -/
def RecordSample (R : URecordComponent) (TimeStamp : ℚ)
    (ComponentTransforms : List (String × FTransform))
    (SkeletalMeshBoneTransforms : List (String × FBoneComponentSpace)) : URecordComponent :=
  let NewFrame : FRecordFrame :=
    { TimeStamp := TimeStamp, ComponentTransforms := ComponentTransforms,
      SkeletalMeshBoneTransforms := SkeletalMeshBoneTransforms,
      FrameIndex := R.CurrentFrameIndex }
  { R with
    CurrentFrameIndex := wrap32 (R.CurrentFrameIndex + 1)
    FrameQueue := PushFrame R.FrameQueue NewFrame }

/-! ## The capture buffer of the recorder (`RecordComponent.cpp`, engine `TCircularQueue`) -/

/-- The engine's `FMath::CeilLogTwo(uint32)`: `32 - CountLeadingZeros(Arg - 1)`, with the
argument 0 taken as 1. -/
def CeilLogTwo (Arg : Nat) : Nat :=
  let A := if Arg = 0 then 1 else Arg
  if A - 1 = 0 then 0 else Nat.log2 (A - 1) + 1

/-- The engine's `FMath::RoundUpToPowerOfTwo(uint32)`: `1 << CeilLogTwo(Arg)`, in 32
bits. -/
def RoundUpToPowerOfTwo (Arg : Nat) : Nat := (2 ^ CeilLogTwo Arg) % 4294967296

/-- The engine's constructor `TCircularQueue(CapacityPlusOne)`: the ring buffer gets
`RoundUpToPowerOfTwo(CapacityPlusOne)` slots, and the queue is full when all slots but
one are taken. -/
def NewCircularQueue (CapacityPlusOne : Nat) : TCircularQueue :=
  { Items := [], Capacity := RoundUpToPowerOfTwo CapacityPlusOne - 1 }

/-- The engine's `FMath::CeilToInt` on a value whose ceiling is an `int32`. -/
def CeilToInt (F : ℚ) : Int := ⌈F⌉

/-- The value `CapacityPlusOne` of `URecordComponent::Initialize`:
`FMath::Max<uint32>(MaxRecordFrames + 1, 2)` with
`MaxRecordFrames = CeilToInt(MaxRecordTime / SamplingInterval)`, the quotient being the
`float` division. -/
def CapacityPlusOne (MaxRecordTime SamplingInterval : ℚ) : Nat :=
  let MaxRecordFrames := CeilToInt (FloatDiv MaxRecordTime SamplingInterval)
  max ((wrap32 (MaxRecordFrames + 1)) % 4294967296).toNat 2

/-- The queue `FrameQueuePtr` that `URecordComponent::Initialize` creates. -/
def InitializeFrameQueue (MaxRecordTime SamplingInterval : ℚ) : TCircularQueue :=
  NewCircularQueue (CapacityPlusOne MaxRecordTime SamplingInterval)

/-! ## Validity of a clip and the collection of clips in `StopRecording`
(`GhostData.h`, `RecordComponent.cpp`, `ReplayTerminatedActorManager.cpp`,
`BloodStainSubsystem.cpp`) -/

/-- The function `FRecordActorSaveData::IsValid`: `RecordedFrames.Num() > 0`. -/
def FRecordActorSaveData.IsValid (A : FRecordActorSaveData) : Bool :=
  decide (A.RecordedFrames.length > 0)

/-- The value constructed by `FRecordActorSaveData()`: no name, no interval, no sample,
zero position range and unit scale range. -/
def NewRecordActorSaveData : FRecordActorSaveData :=
  { PrimaryComponentName := "None", ComponentIntervals := [],
    ComponentRanges :=
      { PosMin := { X := 0, Y := 0, Z := 0 }, PosMax := { X := 0, Y := 0, Z := 0 } },
    ComponentScaleRanges :=
      { ScaleMin := { X := 1, Y := 1, Z := 1 }, ScaleMax := { X := 1, Y := 1, Z := 1 } },
    BoneRanges := [], BoneScaleRanges := [], RecordedFrames := [] }

/-- The function `URecordComponent::CookQueuedFrames`: the queue of the recorder is
cooked into a fresh clip that carries the primary component name; the clip is returned
whatever the cook reports. The second component is the recorder afterwards. -/
def URecordComponent.CookQueuedFrames (R : URecordComponent) (BaseTime : ℚ) :
    FRecordActorSaveData × URecordComponent :=
  let Result : FRecordActorSaveData :=
    { NewRecordActorSaveData with PrimaryComponentName := R.PrimaryComponentName }
  let Cooked := BloodStain.CookQueuedFrames R.SamplingInterval BaseTime R.FrameQueue Result
    R.ComponentActiveIntervals
  (Cooked.OutGhostSaveData,
    { R with FrameQueue := Cooked.FrameQueue
             ComponentActiveIntervals := Cooked.OutComponentIntervals })

/-- What `UReplayTerminatedActorManager` keeps of a recorder whose entity was destroyed
while recording. -/
structure FRecordComponentData where
  ActorName : String
  FrameQueue : TCircularQueue
  GhostSaveData : FRecordActorSaveData
  ComponentIntervals : List FComponentActiveInterval
  deriving DecidableEq

/-- The loop of `UReplayTerminatedActorManager::CookQueuedFrames` over the recorder data
of a group: a clip is added to the result when its cook returns true. -/
def CookTerminated (SamplingInterval BaseTime : ℚ) :
    List FRecordComponentData → List FRecordActorSaveData
  | [] => []
  | D :: rest =>
    let Cooked := BloodStain.CookQueuedFrames SamplingInterval BaseTime D.FrameQueue
      D.GhostSaveData D.ComponentIntervals
    if Cooked.Success then
      Cooked.OutGhostSaveData :: CookTerminated SamplingInterval BaseTime rest
    else CookTerminated SamplingInterval BaseTime rest

/-- The first loop of `UBloodStainSubsystem::StopRecording`: the clips of the terminated
entities, those that are not `IsValid` skipped. -/
def CollectTerminated (SamplingInterval BaseTime : ℚ)
    (Terminated : List FRecordComponentData) : List FRecordActorSaveData :=
  (CookTerminated SamplingInterval BaseTime Terminated).filter
    (fun A => A.IsValid)

/-- The second loop of `UBloodStainSubsystem::StopRecording`: every active recorder cooks
its queue, and a clip with `RecordedFrames.Num() == 0` is skipped. -/
def CollectActive (BaseTime : ℚ) : List URecordComponent → List FRecordActorSaveData
  | [] => []
  | R :: rest =>
    let RecordSaveData := (R.CookQueuedFrames BaseTime).1
    if RecordSaveData.RecordedFrames.length = 0 then CollectActive BaseTime rest
    else RecordSaveData :: CollectActive BaseTime rest

/-- The array `RecordActorSaveDataArray` that `UBloodStainSubsystem::StopRecording`
collects for a group before the group windowing. -/
def CollectRecordActorSaveData (SamplingInterval BaseTime : ℚ)
    (Terminated : List FRecordComponentData) (ActiveRecorders : List URecordComponent) :
    List FRecordActorSaveData :=
  CollectTerminated SamplingInterval BaseTime Terminated ++
    CollectActive BaseTime ActiveRecorders

/-! ## Serialization of the plugin's structures (`GhostData.h`) -/

/-- Save of `FMaterialParameters`. -/
def WriteFMaterialParameters (P : FMaterialParameters) : List Token :=
  WriteMap (fun k => [Token.name k]) WriteFLinearColor P.VectorParams ++
    WriteMap (fun k => [Token.name k]) (fun v => [Token.float v]) P.ScalarParams

/-- Load of `FMaterialParameters`. -/
def ReadFMaterialParameters : Loader FMaterialParameters := do
  let VectorParams ← ReadMap ReadFName ReadFLinearColor
  let ScalarParams ← ReadMap ReadFName ReadFloat
  pure { VectorParams := VectorParams, ScalarParams := ScalarParams }

/-- Save of an `FComponentRecord`. -/
def WriteFComponentRecord (R : FComponentRecord) : List Token :=
  [Token.string R.ComponentName, Token.string R.ComponentClassPath, Token.string R.AssetPath]
    ++ WriteArray (fun s => [Token.string s]) R.MaterialPaths
    ++ WriteMap (fun k => [Token.int32 k]) WriteFMaterialParameters R.MaterialParameters
    ++ [Token.string R.LeaderPoseComponentName]

/-- Load of an `FComponentRecord`. -/
def ReadFComponentRecord : Loader FComponentRecord := do
  let ComponentName ← ReadFString
  let ComponentClassPath ← ReadFString
  let AssetPath ← ReadFString
  let MaterialPaths ← ReadArray ReadFString
  let MaterialParameters ← ReadMap ReadInt32 ReadFMaterialParameters
  let LeaderPoseComponentName ← ReadFString
  pure
    { ComponentName := ComponentName, ComponentClassPath := ComponentClassPath,
      AssetPath := AssetPath, MaterialPaths := MaterialPaths,
      MaterialParameters := MaterialParameters,
      LeaderPoseComponentName := LeaderPoseComponentName }

/-- Save of an `FComponentActiveInterval`. -/
def WriteFComponentActiveInterval (I : FComponentActiveInterval) : List Token :=
  WriteFComponentRecord I.Meta ++ [Token.int32 I.StartFrame, Token.int32 I.EndFrame]

/-- Load of an `FComponentActiveInterval`. -/
def ReadFComponentActiveInterval : Loader FComponentActiveInterval := do
  let Meta ← ReadFComponentRecord
  let StartFrame ← ReadInt32
  let EndFrame ← ReadInt32
  pure { Meta := Meta, StartFrame := StartFrame, EndFrame := EndFrame }

/-- Save of an `FLocRange`. -/
def WriteFLocRange (R : FLocRange) : List Token :=
  WriteFVector R.PosMin ++ WriteFVector R.PosMax

/-- Load of an `FLocRange`. -/
def ReadFLocRange : Loader FLocRange := do
  let PosMin ← ReadFVector
  let PosMax ← ReadFVector
  pure { PosMin := PosMin, PosMax := PosMax }

/-- Save of an `FScaleRange`. -/
def WriteFScaleRange (R : FScaleRange) : List Token :=
  WriteFVector R.ScaleMin ++ WriteFVector R.ScaleMax

/-- Load of an `FScaleRange`. -/
def ReadFScaleRange : Loader FScaleRange := do
  let ScaleMin ← ReadFVector
  let ScaleMax ← ReadFVector
  pure { ScaleMin := ScaleMin, ScaleMax := ScaleMax }

/-! ## Range accumulator and body serializer (`QuantizationHelper.cpp`,
`QuantizationTypes.h`, `QuantizationTypes.cpp`) -/

/-- The enumeration `ETransformQuantizationMethod`. -/
inductive ETransformQuantizationMethod where
  | None : ETransformQuantizationMethod
  | Standard_High : ETransformQuantizationMethod
  | Standard_Medium : ETransformQuantizationMethod
  | Standard_Low : ETransformQuantizationMethod
  deriving DecidableEq

/-- The value of `FLocRange()`. -/
def DefaultLocRange : FLocRange :=
  { PosMin := { X := 0, Y := 0, Z := 0 }, PosMax := { X := 0, Y := 0, Z := 0 } }

/-- The value of `FScaleRange()`. -/
def DefaultScaleRange : FScaleRange :=
  { ScaleMin := { X := 1, Y := 1, Z := 1 }, ScaleMax := { X := 1, Y := 1, Z := 1 } }

/-- The engine's `FVector::IsNearlyZero()` with its default tolerance. -/
def IsNearlyZero (V : FVector) : Bool :=
  decide (|V.X| ≤ KINDA_SMALL_NUMBER) && decide (|V.Y| ≤ KINDA_SMALL_NUMBER) &&
    decide (|V.Z| ≤ KINDA_SMALL_NUMBER)

/-- The engine's `FVector::ComponentMin`. -/
def ComponentMin (A B : FVector) : FVector :=
  { X := min A.X B.X, Y := min A.Y B.Y, Z := min A.Z B.Z }

/-- The engine's `FVector::ComponentMax`. -/
def ComponentMax (A B : FVector) : FVector :=
  { X := max A.X B.X, Y := max A.Y B.Y, Z := max A.Z B.Z }

/-- Lines 31-42 of `ComputeRanges`: the update of the position range of one bone-set by
the bone transforms of one sample. -/
def AccumulateBoneLocations (R : FLocRange) (BoneTransforms : List FTransform) : FLocRange :=
  let bIsFirst := IsNearlyZero R.PosMin && IsNearlyZero R.PosMax
  let R1 : FLocRange :=
    match BoneTransforms with
    | [] => R
    | B0 :: _ => if bIsFirst then { PosMin := B0.Translation, PosMax := B0.Translation } else R
  BoneTransforms.foldl
    (fun (R : FLocRange) BoneT =>
      { PosMin := ComponentMin R.PosMin BoneT.Translation,
        PosMax := ComponentMax R.PosMax BoneT.Translation })
    R1

/-- Lines 44-56 of `ComputeRanges`: the update of the scale range of one bone-set by the
bone transforms of one sample. -/
def AccumulateBoneScales (R : FScaleRange) (BoneTransforms : List FTransform) : FScaleRange :=
  let bIsFirstScale := IsNearlyZero R.ScaleMin && IsNearlyZero R.ScaleMax
  let R1 : FScaleRange :=
    match BoneTransforms with
    | [] => R
    | B0 :: _ => if bIsFirstScale then { ScaleMin := B0.Scale3D, ScaleMax := B0.Scale3D } else R
  BoneTransforms.foldl
    (fun (R : FScaleRange) BoneT =>
      { ScaleMin := ComponentMin R.ScaleMin BoneT.Scale3D,
        ScaleMax := ComponentMax R.ScaleMax BoneT.Scale3D })
    R1

/-- The body of the loop over `Frame.SkeletalMeshBoneTransforms` in `ComputeRanges`:
`FindOrAdd` of both ranges under the key, then their update. -/
def ComputeBonePair (ActorData : FRecordActorSaveData) (Pair : String × FBoneComponentSpace) :
    FRecordActorSaveData :=
  let R := (TMapFind ActorData.BoneRanges Pair.1).getD DefaultLocRange
  let ScaleRange := (TMapFind ActorData.BoneScaleRanges Pair.1).getD DefaultScaleRange
  { ActorData with
    BoneRanges := TMapAdd ActorData.BoneRanges Pair.1
      (AccumulateBoneLocations R Pair.2.BoneTransforms)
    BoneScaleRanges := TMapAdd ActorData.BoneScaleRanges Pair.1
      (AccumulateBoneScales ScaleRange Pair.2.BoneTransforms) }

/-- The state of the frame loop of `ComputeRanges`: the actor data and the two flags
`bIsComponentRangeInitialized` and `bIsComponentScaleRangeInitialized`. -/
structure RangeState where
  ActorData : FRecordActorSaveData
  bIsComponentRangeInitialized : Bool
  bIsComponentScaleRangeInitialized : Bool

/-- The body of the loop over `Frame.ComponentTransforms` in `ComputeRanges`. -/
def ComputeComponentPair (S : RangeState) (Pair : String × FTransform) : RangeState :=
  let Loc := Pair.2.Translation
  let Scale := Pair.2.Scale3D
  let Ranges : FLocRange :=
    if ¬ S.bIsComponentRangeInitialized then { PosMin := Loc, PosMax := Loc }
    else
      { PosMin := ComponentMin S.ActorData.ComponentRanges.PosMin Loc,
        PosMax := ComponentMax S.ActorData.ComponentRanges.PosMax Loc }
  let ScaleRanges : FScaleRange :=
    if ¬ S.bIsComponentScaleRangeInitialized then { ScaleMin := Scale, ScaleMax := Scale }
    else
      { ScaleMin := ComponentMin S.ActorData.ComponentScaleRanges.ScaleMin Scale,
        ScaleMax := ComponentMax S.ActorData.ComponentScaleRanges.ScaleMax Scale }
  { ActorData :=
      { S.ActorData with ComponentRanges := Ranges, ComponentScaleRanges := ScaleRanges },
    bIsComponentRangeInitialized := true,
    bIsComponentScaleRangeInitialized := true }

/-- The body of the frame loop of `ComputeRanges`. -/
def ComputeFrame (S : RangeState) (Frame : FRecordFrame) : RangeState :=
  let S1 : RangeState :=
    { S with ActorData := Frame.SkeletalMeshBoneTransforms.foldl ComputeBonePair S.ActorData }
  Frame.ComponentTransforms.foldl ComputeComponentPair S1

/-- The body of the actor loop of `ComputeRanges`. -/
def ComputeActorRanges (ActorData : FRecordActorSaveData) : FRecordActorSaveData :=
  let S0 : RangeState :=
    { ActorData :=
        { ActorData with
          BoneRanges := [], BoneScaleRanges := [], ComponentRanges := DefaultLocRange },
      bIsComponentRangeInitialized := false,
      bIsComponentScaleRangeInitialized := false }
  (ActorData.RecordedFrames.foldl ComputeFrame S0).ActorData

/-- The function `ComputeRanges`, on the array `SaveData.RecordActorDataArray`. -/
def ComputeRanges (RecordActorDataArray : List FRecordActorSaveData) :
    List FRecordActorSaveData :=
  RecordActorDataArray.map ComputeActorRanges

/-- The arrays `Mins` and `Ranges` that `FQuantizedTransform_Lowest` passes to the
position packer: every range is at least `KINDA_SMALL_NUMBER`. -/
def LocMinsAndRanges (R : FLocRange) : FVector × FVector :=
  (R.PosMin,
    { X := max (R.PosMax.X - R.PosMin.X) KINDA_SMALL_NUMBER,
      Y := max (R.PosMax.Y - R.PosMin.Y) KINDA_SMALL_NUMBER,
      Z := max (R.PosMax.Z - R.PosMin.Z) KINDA_SMALL_NUMBER })

/-- The arrays `ScaleMins` and `ScaleRanges` that `FQuantizedTransform_Lowest` passes to
the scale packer. -/
def ScaleMinsAndRanges (R : FScaleRange) : FVector × FVector :=
  (R.ScaleMin,
    { X := max (R.ScaleMax.X - R.ScaleMin.X) KINDA_SMALL_NUMBER,
      Y := max (R.ScaleMax.Y - R.ScaleMin.Y) KINDA_SMALL_NUMBER,
      Z := max (R.ScaleMax.Z - R.ScaleMin.Z) KINDA_SMALL_NUMBER })

/-- The function `SerializeQuantizedTransform`, called with non-null range pointers. -/
def SerializeQuantizedTransform (E : EngineQuantizers) (Transform : FTransform)
    (QuantOpts : ETransformQuantizationMethod) (LocRange : FLocRange)
    (ScaleRange : FScaleRange) : List Token :=
  match QuantOpts with
  | ETransformQuantizationMethod.Standard_High =>
    WriteFVector (E.NetQuantize100 Transform.Translation) ++
      [Token.uint16 (E.QuatFixed48FromQuat Transform.Rotation).1,
        Token.uint16 (E.QuatFixed48FromQuat Transform.Rotation).2.1,
        Token.uint16 (E.QuatFixed48FromQuat Transform.Rotation).2.2] ++
      WriteFVector (E.NetQuantize10 Transform.Scale3D)
  | ETransformQuantizationMethod.Standard_Medium =>
    WriteFVector (E.NetQuantize100 Transform.Translation) ++
      [Token.uint32 (E.QuatFixed32FromQuat Transform.Rotation)] ++
      WriteFVector (E.NetQuantize10 Transform.Scale3D)
  | ETransformQuantizationMethod.Standard_Low =>
    [Token.uint32 (E.IntervalFixed32FromVector Transform.Translation
        (LocMinsAndRanges LocRange).1 (LocMinsAndRanges LocRange).2),
      Token.uint32 (E.QuatFixed32FromQuat Transform.Rotation),
      Token.uint32 (E.IntervalFixed32FromVector Transform.Scale3D
        (ScaleMinsAndRanges ScaleRange).1 (ScaleMinsAndRanges ScaleRange).2)]
  | ETransformQuantizationMethod.None => WriteFTransform Transform

/-- The function `DeserializeQuantizedTransform`; a range argument is `none` for a null
pointer, which only the tier `Standard_Low` dereferences. -/
def DeserializeQuantizedTransform (E : EngineQuantizers) (Opts : ETransformQuantizationMethod)
    (LocRange : Option FLocRange) (ScaleRange : Option FScaleRange) : Loader FTransform :=
  match Opts with
  | ETransformQuantizationMethod.Standard_High => do
    let Location ← ReadFVector
    let X ← ReadUInt16
    let Y ← ReadUInt16
    let Z ← ReadUInt16
    let Scale ← ReadFVector
    pure { Rotation := E.QuatFixed48ToQuat (X, Y, Z), Translation := Location, Scale3D := Scale }
  | ETransformQuantizationMethod.Standard_Medium => do
    let Location ← ReadFVector
    let Packed ← ReadUInt32
    let Scale ← ReadFVector
    pure { Rotation := E.QuatFixed32ToQuat Packed, Translation := Location, Scale3D := Scale }
  | ETransformQuantizationMethod.Standard_Low => do
    let Translation ← ReadUInt32
    let Rotation ← ReadUInt32
    let Scale ← ReadUInt32
    match LocRange, ScaleRange with
    | some Range, some SRange =>
      pure
        { Rotation := E.QuatFixed32ToQuat Rotation,
          Translation := E.IntervalFixed32ToVector Translation
            (LocMinsAndRanges Range).1 (LocMinsAndRanges Range).2,
          Scale3D := E.IntervalFixed32ToVector Scale
            (ScaleMinsAndRanges SRange).1 (ScaleMinsAndRanges SRange).2 }
    | _, _ => Loader.fail ArchiveError.nullRange
  | ETransformQuantizationMethod.None => ReadFTransform

/-- What `SerializeSaveData` writes for one pair of `Frame.SkeletalMeshBoneTransforms`:
key and bone count, then the bone transforms when both ranges are found. -/
def SerializeBonePair (E : EngineQuantizers) (QuantOpts : ETransformQuantizationMethod)
    (ActorData : FRecordActorSaveData) (BonePair : String × FBoneComponentSpace) : List Token :=
  [Token.string BonePair.1, Token.int32 BonePair.2.BoneTransforms.length] ++
    match TMapFind ActorData.BoneRanges BonePair.1,
      TMapFind ActorData.BoneScaleRanges BonePair.1 with
    | some Range, some ScaleRange =>
      WriteAll (fun BoneT => SerializeQuantizedTransform E BoneT QuantOpts Range ScaleRange)
        BonePair.2.BoneTransforms
    | _, _ => []

/-- What `SerializeSaveData` writes for one sample. -/
def SerializeFrame (E : EngineQuantizers) (QuantOpts : ETransformQuantizationMethod)
    (ActorData : FRecordActorSaveData) (Frame : FRecordFrame) : List Token :=
  [Token.float Frame.TimeStamp, Token.int32 Frame.FrameIndex,
      Token.int32 Frame.ComponentTransforms.length] ++
    WriteAll
      (fun Pair =>
        Token.string Pair.1 ::
          SerializeQuantizedTransform E Pair.2 QuantOpts ActorData.ComponentRanges
            ActorData.ComponentScaleRanges)
      Frame.ComponentTransforms ++
    (Token.int32 Frame.SkeletalMeshBoneTransforms.length ::
      WriteAll (SerializeBonePair E QuantOpts ActorData) Frame.SkeletalMeshBoneTransforms)

/-- What `SerializeSaveData` writes for one actor. -/
def SerializeActor (E : EngineQuantizers) (QuantOpts : ETransformQuantizationMethod)
    (ActorData : FRecordActorSaveData) : List Token :=
  [Token.name ActorData.PrimaryComponentName] ++
    WriteArray WriteFComponentActiveInterval ActorData.ComponentIntervals ++
    WriteFLocRange ActorData.ComponentRanges ++
    WriteFScaleRange ActorData.ComponentScaleRanges ++
    WriteMap (fun k => [Token.string k]) WriteFLocRange ActorData.BoneRanges ++
    WriteMap (fun k => [Token.string k]) WriteFScaleRange ActorData.BoneScaleRanges ++
    (Token.int32 ActorData.RecordedFrames.length ::
      WriteAll (SerializeFrame E QuantOpts ActorData) ActorData.RecordedFrames)

/-- The function `SerializeSaveData` on the array `SaveData.RecordActorDataArray`: the
values appended to the archive and the array after the call (with the computed ranges). -/
def SerializeSaveData (E : EngineQuantizers) (RecordActorDataArray : List FRecordActorSaveData)
    (QuantOpts : ETransformQuantizationMethod) : List Token × List FRecordActorSaveData :=
  let Computed := ComputeRanges RecordActorDataArray
  (Token.int32 Computed.length :: WriteAll (SerializeActor E QuantOpts) Computed, Computed)

/-- The loop over `c < NumComps` of `DeserializeSaveData`. -/
def DeserializeComponentTransforms (E : EngineQuantizers)
    (QuantOpts : ETransformQuantizationMethod) (Range : FLocRange) (ScaleRange : FScaleRange) :
    Nat → List (String × FTransform) → Loader (List (String × FTransform))
  | 0, M => pure M
  | n + 1, M => do
    let Key ← ReadFString
    let T ← DeserializeQuantizedTransform E QuantOpts (some Range) (some ScaleRange)
    DeserializeComponentTransforms E QuantOpts Range ScaleRange n (TMapAdd M Key T)

/-- The loop over `bm < NumBoneMaps` of `DeserializeSaveData`. -/
def DeserializeBoneMaps (E : EngineQuantizers) (QuantOpts : ETransformQuantizationMethod)
    (BoneRanges : List (String × FLocRange)) (BoneScaleRanges : List (String × FScaleRange)) :
    Nat → List (String × FBoneComponentSpace) → Loader (List (String × FBoneComponentSpace))
  | 0, M => pure M
  | n + 1, M => do
    let Key ← ReadFString
    let BoneCount ← ReadInt32
    let BoneTransforms ← ReadRepeat
      (DeserializeQuantizedTransform E QuantOpts (TMapFind BoneRanges Key)
        (TMapFind BoneScaleRanges Key)) BoneCount.toNat
    DeserializeBoneMaps E QuantOpts BoneRanges BoneScaleRanges n
      (TMapAdd M Key { BoneTransforms := BoneTransforms })

/-- The body of the loop over `f < NumFrames` of `DeserializeSaveData`. -/
def DeserializeFrame (E : EngineQuantizers) (QuantOpts : ETransformQuantizationMethod)
    (ComponentRanges : FLocRange) (ComponentScaleRanges : FScaleRange)
    (BoneRanges : List (String × FLocRange)) (BoneScaleRanges : List (String × FScaleRange)) :
    Loader FRecordFrame := do
  let TimeStamp ← ReadFloat
  let FrameIndex ← ReadInt32
  let NumComps ← ReadInt32
  let ComponentTransforms ←
    DeserializeComponentTransforms E QuantOpts ComponentRanges ComponentScaleRanges
      NumComps.toNat []
  let NumBoneMaps ← ReadInt32
  let SkeletalMeshBoneTransforms ←
    DeserializeBoneMaps E QuantOpts BoneRanges BoneScaleRanges NumBoneMaps.toNat []
  pure
    { TimeStamp := TimeStamp, ComponentTransforms := ComponentTransforms,
      SkeletalMeshBoneTransforms := SkeletalMeshBoneTransforms, FrameIndex := FrameIndex }

/-- The body of the loop over `i < NumActors` of `DeserializeSaveData`. -/
def DeserializeActor (E : EngineQuantizers) (QuantOpts : ETransformQuantizationMethod) :
    Loader FRecordActorSaveData := do
  let PrimaryComponentName ← ReadFName
  let ComponentIntervals ← ReadArray ReadFComponentActiveInterval
  let ComponentRanges ← ReadFLocRange
  let ComponentScaleRanges ← ReadFScaleRange
  let BoneRanges ← ReadMap ReadFString ReadFLocRange
  let BoneScaleRanges ← ReadMap ReadFString ReadFScaleRange
  let NumFrames ← ReadInt32
  let RecordedFrames ← ReadRepeat
    (DeserializeFrame E QuantOpts ComponentRanges ComponentScaleRanges BoneRanges
      BoneScaleRanges) NumFrames.toNat
  pure
    { PrimaryComponentName := PrimaryComponentName, ComponentIntervals := ComponentIntervals,
      ComponentRanges := ComponentRanges, ComponentScaleRanges := ComponentScaleRanges,
      BoneRanges := BoneRanges, BoneScaleRanges := BoneScaleRanges,
      RecordedFrames := RecordedFrames }

/-- The function `DeserializeSaveData`: the array `OutData.RecordActorDataArray`. -/
def DeserializeSaveData (E : EngineQuantizers) (QuantOpts : ETransformQuantizationMethod) :
    Loader (List FRecordActorSaveData) := do
  let NumActors ← ReadInt32
  ReadRepeat (DeserializeActor E QuantOpts) NumActors.toNat

/-! ## Recording files (`BloodStainFileOptions.h`, `GhostData.h`,
`BloodStainCompressionUtils.cpp`, `BloodStainFileUtils.cpp`)

A file is the sequence of the values written into it, a byte buffer likewise; an
arbitrary byte string is a sequence of `uint8` values. The number of bytes of a value is
the one of the engine's memory archives. A read that would split a value, or that meets
a value of another type, is outside this embedding: the load then stops with
`ArchiveError.endOfData`, where the C++ run goes on with a value it did not read. -/

/-- The number of bytes the engine writes for an `FString`: the `int32` length, then
nothing for the empty string, one byte for each character and the terminator of a pure
ANSI string, two bytes for each otherwise. -/
def FStringByteSize (s : String) : Nat :=
  if s.length = 0 then 4
  else if s.toList.all (fun c => decide (c.toNat < 128)) then 4 + (s.length + 1)
  else 4 + 2 * (s.length + 1)

/-- The number of bytes of a value in a memory archive; an `FName` is written as its
string. -/
def ByteSize : Token → Nat
  | Token.int32 _ => 4
  | Token.uint32 _ => 4
  | Token.uint16 _ => 2
  | Token.float _ => 4
  | Token.double _ => 8
  | Token.string v => FStringByteSize v
  | Token.name v => FStringByteSize v
  | Token.uint8 _ => 1
  | Token.int64 _ => 8

/-- The number of bytes of a buffer: `TArray<uint8>::Num()`, `FArchive::Tell()` at its
end, `IFileHandle::Size()`. -/
def ByteLength (Ar : List Token) : Nat := (Ar.map ByteSize).sum

/-- A read of `n` bytes from the front of a buffer: the values that lie in the first `n`
bytes, and what follows them. -/
def TakeBytes : Nat → List Token → List Token × List Token
  | _, [] => ([], [])
  | n, t :: rest =>
    if ByteSize t ≤ n then
      ((t :: (TakeBytes (n - ByteSize t) rest).1), (TakeBytes (n - ByteSize t) rest).2)
    else ([], t :: rest)

/-- The enumeration `ECompressionMethod`. -/
inductive ECompressionMethod where
  | None : ECompressionMethod
  | Zlib : ECompressionMethod
  | Gzip : ECompressionMethod
  | LZ4 : ECompressionMethod
  deriving DecidableEq

/-- The structure `FBloodStainFileOptions`. -/
structure FBloodStainFileOptions where
  CompressionOption : ECompressionMethod
  QuantizationOption : ETransformQuantizationMethod
  deriving DecidableEq

/-- The structure `FBloodStainFileHeader`. -/
structure FBloodStainFileHeader where
  Magic : Nat
  Version : Nat
  Options : FBloodStainFileOptions
  UncompressedSize : Int
  deriving DecidableEq

/-- An `FInstancedStruct` that holds a value: the path name and the structure size of
its script struct, and the values that the `SerializeItem` of the script struct writes
for the instance. -/
structure FStructInstance where
  StructPath : String
  StructSize : Int
  Memory : List Token
  deriving DecidableEq

/-- The engine type `FInstancedStruct`: `none` is an instance that is not valid. -/
abbrev FInstancedStruct : Type := Option FStructInstance

/-- The structure `FRecordHeaderData`; the tag container is the list of its tag names. -/
structure FRecordHeaderData where
  FileName : String
  LevelName : String
  Tags : List String
  SpawnPointTransform : FTransform
  MaxRecordTime : ℚ
  SamplingInterval : ℚ
  TotalLength : ℚ
  RecordGroupUserData : FInstancedStruct
  RecordActorUserData : List FInstancedStruct
  deriving DecidableEq

/-- The structure `FRecordSaveData`. -/
structure FRecordSaveData where
  Header : FRecordHeaderData
  RecordActorDataArray : List FRecordActorSaveData
  deriving DecidableEq

/-- What the loader uses of an engine `UScriptStruct`: `GetStructureSize` and
`SerializeItem` on a loading archive, which returns the values of the instance. -/
structure UScriptStruct where
  StructureSize : Int
  LoadItem : Loader (List Token)

/-- The object lookup of the engine: `FindObject<UScriptStruct>` followed by
`LoadObject<UScriptStruct>`; `none` is the null pointer. -/
structure EngineObjects where
  FindStruct : String → Option UScriptStruct

/-- The engine functions `FCompression::CompressMemory` and
`FCompression::UncompressMemory` for a format name; `none` is the return value false.
The uncompress function also takes the expected uncompressed size. -/
structure EngineCompression where
  CompressMemory : String → List Token → Option (List Token)
  UncompressMemory : String → Int → List Token → Option (List Token)

/-- The value constructed by `FRecordHeaderData()`. -/
def NewRecordHeaderData : FRecordHeaderData :=
  { FileName := "None", LevelName := "None", Tags := [],
    SpawnPointTransform :=
      { Rotation := { X := 0, Y := 0, Z := 0, W := 1 },
        Translation := { X := 0, Y := 0, Z := 0 },
        Scale3D := { X := 1, Y := 1, Z := 1 } },
    MaxRecordTime := 5, SamplingInterval := 1 / 10, TotalLength := 0,
    RecordGroupUserData := none, RecordActorUserData := [] }

/-- Save of an `ECompressionMethod`: the `uint8` under the enumerator. -/
def WriteECompressionMethod : ECompressionMethod → List Token
  | ECompressionMethod.None => [Token.uint8 0]
  | ECompressionMethod.Zlib => [Token.uint8 1]
  | ECompressionMethod.Gzip => [Token.uint8 2]
  | ECompressionMethod.LZ4 => [Token.uint8 3]

/-- Load of an `ECompressionMethod`; a byte that is no enumerator is not a fitting
value. -/
def ReadECompressionMethod : Loader ECompressionMethod := do
  let v ← ReadUInt8
  match v with
  | 0 => pure ECompressionMethod.None
  | 1 => pure ECompressionMethod.Zlib
  | 2 => pure ECompressionMethod.Gzip
  | 3 => pure ECompressionMethod.LZ4
  | _ => Loader.fail ArchiveError.endOfData

/-- Save of an `ETransformQuantizationMethod`: the `uint8` under the enumerator. -/
def WriteETransformQuantizationMethod : ETransformQuantizationMethod → List Token
  | ETransformQuantizationMethod.None => [Token.uint8 0]
  | ETransformQuantizationMethod.Standard_High => [Token.uint8 1]
  | ETransformQuantizationMethod.Standard_Medium => [Token.uint8 2]
  | ETransformQuantizationMethod.Standard_Low => [Token.uint8 3]

/-- Load of an `ETransformQuantizationMethod`; a byte that is no enumerator is not a
fitting value. -/
def ReadETransformQuantizationMethod : Loader ETransformQuantizationMethod := do
  let v ← ReadUInt8
  match v with
  | 0 => pure ETransformQuantizationMethod.None
  | 1 => pure ETransformQuantizationMethod.Standard_High
  | 2 => pure ETransformQuantizationMethod.Standard_Medium
  | 3 => pure ETransformQuantizationMethod.Standard_Low
  | _ => Loader.fail ArchiveError.endOfData

/-- Save through `operator<<` of `FBloodStainFileOptions`. -/
def WriteFBloodStainFileOptions (Options : FBloodStainFileOptions) : List Token :=
  WriteECompressionMethod Options.CompressionOption ++
    WriteETransformQuantizationMethod Options.QuantizationOption

/-- Load through `operator<<` of `FBloodStainFileOptions`. -/
def ReadFBloodStainFileOptions : Loader FBloodStainFileOptions := do
  let CompressionOption ← ReadECompressionMethod
  let QuantizationOption ← ReadETransformQuantizationMethod
  pure { CompressionOption := CompressionOption, QuantizationOption := QuantizationOption }

/-- Save through `operator<<` of `FBloodStainFileHeader`. -/
def WriteFBloodStainFileHeader (Header : FBloodStainFileHeader) : List Token :=
  [Token.uint32 Header.Magic, Token.uint32 Header.Version] ++
    WriteFBloodStainFileOptions Header.Options ++ [Token.int64 Header.UncompressedSize]

/-- Load through `operator<<` of `FBloodStainFileHeader`: the four fields are read, none
is compared with anything. -/
def ReadFBloodStainFileHeader : Loader FBloodStainFileHeader := do
  let Magic ← ReadUInt32
  let Version ← ReadUInt32
  let Options ← ReadFBloodStainFileOptions
  let UncompressedSize ← ReadInt64
  pure { Magic := Magic, Version := Version, Options := Options,
         UncompressedSize := UncompressedSize }

/-- The function `FRecordHeaderData::SerializeInstancedStruct` on a saving archive. -/
def SaveInstancedStruct (InstanceData : FInstancedStruct) : List Token :=
  match InstanceData with
  | none => [Token.string "", Token.int32 0]
  | some S =>
    [Token.string S.StructPath, Token.int32 S.StructSize] ++
      (if S.StructPath = "" then [] else S.Memory)

/-- The function `FRecordHeaderData::SerializeInstancedStruct` on a loading archive; the
argument is the instance before the load, which stays when the path is empty or the
script struct is not found. -/
def LoadInstancedStruct (Env : EngineObjects) (InstanceData : FInstancedStruct) :
    Loader FInstancedStruct := do
  let StructPath ← ReadFString
  let _StructSize ← ReadInt32
  if StructPath = "" then pure InstanceData
  else
    match Env.FindStruct StructPath with
    | none => pure InstanceData
    | some FoundStruct => do
      let Memory ← FoundStruct.LoadItem
      pure (some { StructPath := StructPath, StructSize := FoundStruct.StructureSize,
                   Memory := Memory })

/-- The array after `SetNum(Count)`: the first `Count` elements, new elements are
instances that are not valid. -/
def SetNumUserData (A : List FInstancedStruct) (Count : Nat) : List FInstancedStruct :=
  (A ++ List.replicate Count none).take Count

/-- The loop `for (i = 0; i < Count; i++) SerializeInstancedStruct(Ar, ...[i])` on a
loading archive. -/
def LoadInstancedStructs (Env : EngineObjects) :
    List FInstancedStruct → Loader (List FInstancedStruct)
  | [] => pure []
  | InstanceData :: rest => do
    let Loaded ← LoadInstancedStruct Env InstanceData
    let LoadedRest ← LoadInstancedStructs Env rest
    pure (Loaded :: LoadedRest)

/-- Save through `operator<<` of `FRecordHeaderData`. -/
def WriteFRecordHeaderData (Data : FRecordHeaderData) : List Token :=
  [Token.name Data.FileName, Token.name Data.LevelName] ++
    WriteArray (fun Tag => [Token.name Tag]) Data.Tags ++
    WriteFTransform Data.SpawnPointTransform ++
    [Token.float Data.MaxRecordTime, Token.float Data.SamplingInterval,
     Token.float Data.TotalLength, Token.int32 Data.RecordActorUserData.length] ++
    SaveInstancedStruct Data.RecordGroupUserData ++
    WriteAll SaveInstancedStruct Data.RecordActorUserData

/-- Load through `operator<<` of `FRecordHeaderData`; the argument is the header before
the load. -/
def ReadFRecordHeaderData (Env : EngineObjects) (Data : FRecordHeaderData) :
    Loader FRecordHeaderData := do
  let FileName ← ReadFName
  let LevelName ← ReadFName
  let Tags ← ReadArray ReadFName
  let SpawnPointTransform ← ReadFTransform
  let MaxRecordTime ← ReadFloat
  let SamplingInterval ← ReadFloat
  let TotalLength ← ReadFloat
  let Count ← ReadInt32
  let RecordGroupUserData ← LoadInstancedStruct Env Data.RecordGroupUserData
  let RecordActorUserData ←
    LoadInstancedStructs Env (SetNumUserData Data.RecordActorUserData Count.toNat)
  pure
    { FileName := FileName, LevelName := LevelName, Tags := Tags,
      SpawnPointTransform := SpawnPointTransform, MaxRecordTime := MaxRecordTime,
      SamplingInterval := SamplingInterval, TotalLength := TotalLength,
      RecordGroupUserData := RecordGroupUserData,
      RecordActorUserData := RecordActorUserData }

/-- The function `CompressionFormat`: the engine name of the compression format. -/
def CompressionFormat : ECompressionMethod → String
  | ECompressionMethod.Zlib => "Zlib"
  | ECompressionMethod.Gzip => "Gzip"
  | ECompressionMethod.LZ4 => "LZ4"
  | ECompressionMethod.None => "None"

/-- The function `BloodStainCompressionUtils::CompressBuffer`: `none` is the return
value false, otherwise `OutCompressed`. -/
def CompressBuffer (Z : EngineCompression) (InBuffer : List Token)
    (Opts : ECompressionMethod) : Option (List Token) :=
  if Opts = ECompressionMethod.None then some InBuffer
  else Z.CompressMemory (CompressionFormat Opts) InBuffer

/-- The function `BloodStainCompressionUtils::DecompressBuffer`: `none` is the return
value false, otherwise `OutRaw`. -/
def DecompressBuffer (Z : EngineCompression) (UncompressedSize : Int)
    (Compressed : List Token) (Opts : ECompressionMethod) : Option (List Token) :=
  if Opts = ECompressionMethod.None then some Compressed
  else Z.UncompressMemory (CompressionFormat Opts) UncompressedSize Compressed

/-- The two buffers of `SaveToFile` after its compression step: `RawBytes` and
`Payload`. Without compression the payload is move-assigned from `RawBytes`, which
leaves `RawBytes` empty. `none` is the return value false of a failed compression. -/
def SavePayload (Z : EngineCompression) (E : EngineQuantizers) (SaveData : FRecordSaveData)
    (Options : FBloodStainFileOptions) : Option (List Token × List Token) :=
  let RawBytes := (SerializeSaveData E SaveData.RecordActorDataArray
    Options.QuantizationOption).1
  if Options.CompressionOption = ECompressionMethod.None then some ([], RawBytes)
  else
    match CompressBuffer Z RawBytes Options.CompressionOption with
    | none => none
    | some Payload => some (RawBytes, Payload)

/-- The file header that `SaveToFile` fills in once the payload is built. -/
def SaveFileHeader (Options : FBloodStainFileOptions) (RawBytes : List Token) :
    FBloodStainFileHeader :=
  { Magic := 0x5253746E, Version := 1, Options := Options,
    UncompressedSize := ByteLength RawBytes }

/-- The function `BloodStainFileUtils::SaveToFile`: the buffer `FileAr` that it hands to
`FFileHelper::SaveArrayToFile`, whose answer it returns; `none` when it returns false
before, because the compression failed. The `int32` at the start is written as 0 and
overwritten with `EndPos - StartPos` once header and clip-set header are written. -/
def SaveToFile (Z : EngineCompression) (E : EngineQuantizers) (SaveData : FRecordSaveData)
    (Options : FBloodStainFileOptions) : Option (List Token) :=
  match SavePayload Z E SaveData Options with
  | none => none
  | some (RawBytes, Payload) =>
    let FileHeader := SaveFileHeader Options RawBytes
    let Written := [Token.int32 0] ++ WriteFBloodStainFileHeader FileHeader ++
      WriteFRecordHeaderData SaveData.Header
    let EndPos : Int := ByteLength Written
    let HeaderByteSize := wrap32 (EndPos - 0)
    some ([Token.int32 HeaderByteSize] ++ WriteFBloodStainFileHeader FileHeader ++
      WriteFRecordHeaderData SaveData.Header ++ Payload)

/-- How a load function ends: it returns false, it returns true with its out-parameter,
it stops (see `ArchiveError`), or it sets an array to a negative size. -/
inductive LoadOutcome (α : Type) where
  | returnedFalse : LoadOutcome α
  | returnedTrue (Out : α) : LoadOutcome α
  | stopped (e : ArchiveError) : LoadOutcome α
  | negativeArraySize : LoadOutcome α
  deriving DecidableEq

/-- The function `BloodStainFileUtils::LoadFromFile` on the content of the file, `none`
when the file cannot be read, and the base file name of the path. -/
def LoadFromFile (Env : EngineObjects) (Z : EngineCompression) (E : EngineQuantizers)
    (File : Option (List Token)) (FileNameWithoutExtension : String)
    (OutData : FRecordSaveData) : LoadOutcome FRecordSaveData :=
  match File with
  | none => LoadOutcome.returnedFalse
  | some AllBytes =>
    let ReadHeaders : Loader (FBloodStainFileHeader × FRecordHeaderData) := do
      let _HeaderByteSize ← ReadInt32
      let FileHeader ← ReadFBloodStainFileHeader
      let Header ← ReadFRecordHeaderData Env OutData.Header
      pure (FileHeader, Header)
    match ReadHeaders.run AllBytes with
    | Except.error e => LoadOutcome.stopped e
    | Except.ok ((FileHeader, Header), Compressed) =>
      match DecompressBuffer Z FileHeader.UncompressedSize Compressed
          FileHeader.Options.CompressionOption with
      | none => LoadOutcome.returnedFalse
      | some RawBytes =>
        match (DeserializeSaveData E FileHeader.Options.QuantizationOption).run RawBytes with
        | Except.error e => LoadOutcome.stopped e
        | Except.ok (Actors, _) =>
          LoadOutcome.returnedTrue
            { Header := { Header with FileName := FileNameWithoutExtension },
              RecordActorDataArray := Actors }

/-- The function `BloodStainFileUtils::LoadHeaderFromFile` on the content of the file,
`none` when the file cannot be opened, and the base file name of the path. The header
buffer has `HeaderByteSize` bytes of which the first `HeaderByteSize - 4` are read from
the file; a read of a negative number of bytes reads nothing. -/
def LoadHeaderFromFile (Env : EngineObjects) (File : Option (List Token))
    (FileNameWithoutExtension : String) (OutRecordHeaderData : FRecordHeaderData) :
    LoadOutcome FRecordHeaderData :=
  match File with
  | none => LoadOutcome.returnedFalse
  | some Bytes =>
    let Size : Int := ByteLength Bytes
    if Size ≤ 0 then LoadOutcome.returnedFalse
    else
      let IntByteSize : Int := 4
      if Size < IntByteSize then LoadOutcome.returnedFalse
      else
        let IntBuffer := TakeBytes IntByteSize.toNat Bytes
        match ReadInt32.run IntBuffer.1 with
        | Except.error e => LoadOutcome.stopped e
        | Except.ok (HeaderByteSize, _) =>
          if Size < HeaderByteSize then LoadOutcome.returnedFalse
          else if HeaderByteSize < 0 then LoadOutcome.negativeArraySize
          else
            let FromFile := (TakeBytes (HeaderByteSize - IntByteSize).toNat IntBuffer.2).1
            let HeaderBytes := FromFile ++
              List.replicate (HeaderByteSize.toNat - ByteLength FromFile) (Token.uint8 0)
            let ReadHeaders : Loader FRecordHeaderData := do
              let _FileHeader ← ReadFBloodStainFileHeader
              ReadFRecordHeaderData Env OutRecordHeaderData
            match ReadHeaders.run HeaderBytes with
            | Except.error e => LoadOutcome.stopped e
            | Except.ok (Header, _) =>
              LoadOutcome.returnedTrue { Header with FileName := FileNameWithoutExtension }

/-! ## Well-formed clips and the expected result of a load -/

/-- The keys of a `TMap` are pairwise distinct. -/
def NodupKeys {κ β : Type} (M : List (κ × β)) : Prop := (M.map Prod.fst).Nodup

instance {κ β : Type} [DecidableEq κ] (M : List (κ × β)) : Decidable (NodupKeys M) := by
  unfold NodupKeys
  infer_instance

/-- Every `TMap` inside the metadata of a sub-part has pairwise distinct keys. -/
def WellFormedRecord (R : FComponentRecord) : Prop :=
  NodupKeys R.MaterialParameters ∧
    ∀ p ∈ R.MaterialParameters, NodupKeys p.2.VectorParams ∧ NodupKeys p.2.ScalarParams

instance (R : FComponentRecord) : Decidable (WellFormedRecord R) := by
  unfold WellFormedRecord
  infer_instance

/-- Both `TMap`s of a sample have pairwise distinct keys. -/
def WellFormedFrame (F : FRecordFrame) : Prop :=
  NodupKeys F.ComponentTransforms ∧ NodupKeys F.SkeletalMeshBoneTransforms

instance (F : FRecordFrame) : Decidable (WellFormedFrame F) := by
  unfold WellFormedFrame
  infer_instance

/-- Every `TMap` of the intervals and of the samples of a clip has pairwise distinct
keys, as every `TMap` of the engine has. -/
def WellFormedActor (A : FRecordActorSaveData) : Prop :=
  (∀ I ∈ A.ComponentIntervals, WellFormedRecord I.Meta) ∧
    ∀ F ∈ A.RecordedFrames, WellFormedFrame F

instance (A : FRecordActorSaveData) : Decidable (WellFormedActor A) := by
  unfold WellFormedActor
  infer_instance

/-- The transform that a load with a tier returns for a transform saved with that tier
and the same ranges. -/
def DecodedTransform (E : EngineQuantizers) (QuantOpts : ETransformQuantizationMethod)
    (LocRange : FLocRange) (ScaleRange : FScaleRange) (T : FTransform) : FTransform :=
  match QuantOpts with
  | ETransformQuantizationMethod.Standard_High =>
    { Rotation := E.QuatFixed48ToQuat (E.QuatFixed48FromQuat T.Rotation),
      Translation := E.NetQuantize100 T.Translation,
      Scale3D := E.NetQuantize10 T.Scale3D }
  | ETransformQuantizationMethod.Standard_Medium =>
    { Rotation := E.QuatFixed32ToQuat (E.QuatFixed32FromQuat T.Rotation),
      Translation := E.NetQuantize100 T.Translation,
      Scale3D := E.NetQuantize10 T.Scale3D }
  | ETransformQuantizationMethod.Standard_Low =>
    { Rotation := E.QuatFixed32ToQuat (E.QuatFixed32FromQuat T.Rotation),
      Translation := E.IntervalFixed32ToVector
        (E.IntervalFixed32FromVector T.Translation (LocMinsAndRanges LocRange).1
          (LocMinsAndRanges LocRange).2)
        (LocMinsAndRanges LocRange).1 (LocMinsAndRanges LocRange).2,
      Scale3D := E.IntervalFixed32ToVector
        (E.IntervalFixed32FromVector T.Scale3D (ScaleMinsAndRanges ScaleRange).1
          (ScaleMinsAndRanges ScaleRange).2)
        (ScaleMinsAndRanges ScaleRange).1 (ScaleMinsAndRanges ScaleRange).2 }
  | ETransformQuantizationMethod.None => T

/-- A sample with every transform replaced by its decoded encoding: sub-part transforms
under the global ranges of the clip, bone transforms under the ranges of their bone-set. -/
def DecodedFrame (E : EngineQuantizers) (QuantOpts : ETransformQuantizationMethod)
    (ActorData : FRecordActorSaveData) (Frame : FRecordFrame) : FRecordFrame :=
  { Frame with
    ComponentTransforms := Frame.ComponentTransforms.map fun Pair =>
      (Pair.1, DecodedTransform E QuantOpts ActorData.ComponentRanges
        ActorData.ComponentScaleRanges Pair.2)
    SkeletalMeshBoneTransforms := Frame.SkeletalMeshBoneTransforms.map fun Pair =>
      (Pair.1,
        { BoneTransforms := Pair.2.BoneTransforms.map
            (DecodedTransform E QuantOpts
              ((TMapFind ActorData.BoneRanges Pair.1).getD DefaultLocRange)
              ((TMapFind ActorData.BoneScaleRanges Pair.1).getD DefaultScaleRange)) }) }

/-- A clip with every transform replaced by its decoded encoding. -/
def DecodedActor (E : EngineQuantizers) (QuantOpts : ETransformQuantizationMethod)
    (ActorData : FRecordActorSaveData) : FRecordActorSaveData :=
  { ActorData with
    RecordedFrames := ActorData.RecordedFrames.map (DecodedFrame E QuantOpts ActorData) }

/-- Two samples agree on time stamp, frame index, sub-part names and, per bone-set, name
and bone count. -/
def SameFrameStructure (F G : FRecordFrame) : Prop :=
  F.TimeStamp = G.TimeStamp ∧ F.FrameIndex = G.FrameIndex ∧
    F.ComponentTransforms.map Prod.fst = G.ComponentTransforms.map Prod.fst ∧
    F.SkeletalMeshBoneTransforms.map (fun p => (p.1, p.2.BoneTransforms.length)) =
      G.SkeletalMeshBoneTransforms.map (fun p => (p.1, p.2.BoneTransforms.length))

/-- Two clips agree on primary sub-part name, interval list, global and per-bone-set
ranges, frame count and, frame by frame, on the structure of the samples. -/
def SameClipStructure (A B : FRecordActorSaveData) : Prop :=
  A.PrimaryComponentName = B.PrimaryComponentName ∧
    A.ComponentIntervals = B.ComponentIntervals ∧
    A.ComponentRanges = B.ComponentRanges ∧
    A.ComponentScaleRanges = B.ComponentScaleRanges ∧
    A.BoneRanges = B.BoneRanges ∧
    A.BoneScaleRanges = B.BoneScaleRanges ∧
    A.RecordedFrames.length = B.RecordedFrames.length ∧
    List.Forall₂ SameFrameStructure A.RecordedFrames B.RecordedFrames

/-- Relation between the actor data before and after steps of `ComputeRanges`: name,
intervals and samples are untouched, the bone maps keep distinct keys and lose no key. -/
def RangesExtend (A B : FRecordActorSaveData) : Prop :=
  B.PrimaryComponentName = A.PrimaryComponentName ∧
  B.ComponentIntervals = A.ComponentIntervals ∧
  B.RecordedFrames = A.RecordedFrames ∧
  (NodupKeys A.BoneRanges → NodupKeys B.BoneRanges) ∧
  (NodupKeys A.BoneScaleRanges → NodupKeys B.BoneScaleRanges) ∧
  (∀ k, k ∈ A.BoneRanges.map Prod.fst → k ∈ B.BoneRanges.map Prod.fst) ∧
  (∀ k, k ∈ A.BoneScaleRanges.map Prod.fst → k ∈ B.BoneScaleRanges.map Prod.fst)


/-- A user-data instance is known to the engine: its script struct is found under its
path, has its structure size, and reads back the values it wrote. -/
def KnownUserData (Env : EngineObjects) (InstanceData : FInstancedStruct) : Prop :=
  match InstanceData with
  | none => True
  | some S =>
    S.StructPath ≠ "" ∧
      ∃ FoundStruct, Env.FindStruct S.StructPath = some FoundStruct ∧
        FoundStruct.StructureSize = S.StructSize ∧
        ∀ rest, FoundStruct.LoadItem.run (S.Memory ++ rest) = Except.ok (S.Memory, rest)

/-- Every user-data instance of a clip-set header is known to the engine. -/
def KnownHeader (Env : EngineObjects) (Data : FRecordHeaderData) : Prop :=
  KnownUserData Env Data.RecordGroupUserData ∧
    ∀ InstanceData ∈ Data.RecordActorUserData, KnownUserData Env InstanceData
/-! ## Concrete inputs used by the witnesses and evaluations -/

/-- Metadata that carries only a sub-part name. -/
def metaNamed (name : String) : FComponentRecord :=
  { ComponentName := name, ComponentClassPath := "", AssetPath := "", MaterialPaths := [],
    MaterialParameters := [], LeaderPoseComponentName := "" }

/-- The interval `[s, e)` of the sub-part called `name`. -/
def intervalOf (name : String) (s e : Int) : FComponentActiveInterval :=
  { Meta := metaNamed name, StartFrame := s, EndFrame := e }

/-- Three overlapping lifecycle intervals. -/
def sampleIntervals : List FComponentActiveInterval :=
  [intervalOf "Body" 0 20, intervalOf "Sword" 5 12, intervalOf "Shield" 12 12]

/-- A sample without transforms, taken at time `t`, with frame index `i`. -/
def frameAt (t : ℚ) (i : Int) : FRecordFrame :=
  { TimeStamp := t, ComponentTransforms := [], SkeletalMeshBoneTransforms := [],
    FrameIndex := i }

/-- The vector with the given components. -/
def vec (x y z : ℚ) : FVector := { X := x, Y := y, Z := z }

/-- A freshly constructed `FRecordActorSaveData` with the given name, intervals and
samples: zero position range and unit scale range, as the C++ constructors leave them. -/
def actorOf (name : String) (intervals : List FComponentActiveInterval)
    (frames : List FRecordFrame) : FRecordActorSaveData :=
  { PrimaryComponentName := name, ComponentIntervals := intervals,
    ComponentRanges := { PosMin := vec 0 0 0, PosMax := vec 0 0 0 },
    ComponentScaleRanges := { ScaleMin := vec 1 1 1, ScaleMax := vec 1 1 1 },
    BoneRanges := [], BoneScaleRanges := [], RecordedFrames := frames }

/-- Samples at the times `a, a + 1, ..., a + n - 1`, the frame index equal to the time. -/
def framesFrom (a : Nat) (n : Nat) : List FRecordFrame :=
  (List.range n).map fun k => frameAt ((a + k : Nat) : ℚ) ((a + k : Nat) : Int)

/-- Entity A of the windowing example: samples at the times 0, 1, ..., 10. -/
def actorA : FRecordActorSaveData := actorOf "A" [intervalOf "A" 0 11] (framesFrom 0 11)

/-- Entity B of the windowing example: samples at the times 5, 6, ..., 10. -/
def actorB : FRecordActorSaveData := actorOf "B" [intervalOf "B" 0 6] (framesFrom 5 6)

/-- A recorder right after construction: frame counter 0, nothing tracked, a ring of
the given capacity. -/
def freshRecorder (capacity : Nat) : URecordComponent :=
  { CurrentFrameIndex := 0, FrameQueue := { Items := [], Capacity := capacity },
    OwnedComponentsForRecord := [], ComponentActiveIntervals := [], IntervalIndexMap := [],
    PrimaryComponentName := "None", SamplingInterval := 1 / 10 }

/-- A valid static-mesh component with an asset. -/
def swordComponent : UMeshComponent :=
  { UniqueName := "Sword_7", bIsValid := true, bIsSupported := true,
    ComponentClassPath := "/Script/Engine.StaticMeshComponent",
    AssetPath := "/Game/Meshes/Sword.Sword", MaterialPaths := [], MaterialParameters := [],
    LeaderPoseComponentName := "" }

/-- The recorder after `n` sampling ticks without transforms. -/
def sampleTicks : Nat → URecordComponent → URecordComponent
  | 0, R => R
  | n + 1, R => sampleTicks n (RecordSample R (R.CurrentFrameIndex : ℚ) [] [])

/-- The run of the lifecycle example: five ticks, the sword is attached at frame counter 5,
seven more ticks, the sword is detached at frame counter 12. -/
def swordRun : URecordComponent :=
  OnComponentDetached
    (sampleTicks 7 (OnComponentAttached (sampleTicks 5 (freshRecorder 64)) swordComponent))
    swordComponent

/-- An interval table of a recorder: one sub-part still open, one closed before frame 1,
one closed at frame 3. -/
def cookIntervals : List FComponentActiveInterval :=
  [intervalOf "A" 0 INT32_MAX, intervalOf "B" 0 1, intervalOf "C" 2 3]

/-- A clip that holds four kept samples and no interval yet. -/
def cookedClip : FRecordActorSaveData := actorOf "A" [] (framesFrom 1 4)

/-- Entity A after group windowing with a maximal group duration of 3. -/
def clippedA : FRecordActorSaveData :=
  actorOf "A" [intervalOf "A" 0 4] [frameAt 7 7, frameAt 1 8, frameAt 2 9, frameAt 10 10]

/-- A transform with the given translation, the identity rotation and unit scale. -/
def transformAt (x y z : ℚ) : FTransform :=
  { Rotation := { X := 0, Y := 0, Z := 0, W := 1 }, Translation := vec x y z,
    Scale3D := vec 1 1 1 }

/-- A stand-in for the engine's packers: positions and scales are kept, rotations and
interval-packed vectors are packed to the word 0. -/
def sampleQuantizers : EngineQuantizers :=
  { NetQuantize100 := id, NetQuantize10 := id,
    QuatFixed48FromQuat := fun _ => (0, 0, 0),
    QuatFixed48ToQuat := fun _ => { X := 0, Y := 0, Z := 0, W := 1 },
    QuatFixed32FromQuat := fun _ => 0,
    QuatFixed32ToQuat := fun _ => { X := 0, Y := 0, Z := 0, W := 1 },
    IntervalFixed32FromVector := fun _ _ _ => 0,
    IntervalFixed32ToVector := fun _ Mins _ => Mins }

/-- A clip with two samples, each with one sub-part transform and one bone-set of two
bones, and one lifecycle interval. -/
def sampleClip : FRecordActorSaveData :=
  actorOf "Body_1" [intervalOf "Body_1" 0 2]
    [{ TimeStamp := 0, FrameIndex := 0,
       ComponentTransforms := [("Body_1", transformAt 1 2 3)],
       SkeletalMeshBoneTransforms :=
        [("Body_1", { BoneTransforms := [transformAt 0 0 0, transformAt 0 0 5] })] },
     { TimeStamp := 1 / 10, FrameIndex := 1,
       ComponentTransforms := [("Body_1", transformAt 4 2 3)],
       SkeletalMeshBoneTransforms :=
        [("Body_1", { BoneTransforms := [transformAt 0 1 0, transformAt 0 0 6] })] }]

/-- A bone transform with the translation `(p, p, p)`, the identity rotation and the
scale `(s, s, s)`. -/
def boneAt (p s : ℚ) : FTransform :=
  { Rotation := { X := 0, Y := 0, Z := 0, W := 1 }, Translation := vec p p p,
    Scale3D := vec s s s }

/-- A sample at time `t` with frame index `i` whose only content is the bone-set
`"Body_1"` with the given bone transforms. -/
def boneFrame (t : ℚ) (i : Int) (bones : List FTransform) : FRecordFrame :=
  { TimeStamp := t, ComponentTransforms := [],
    SkeletalMeshBoneTransforms := [("Body_1", { BoneTransforms := bones })],
    FrameIndex := i }

/-- A clip of two samples: the single bone of `"Body_1"` is at the origin in the first
sample and at `(5, 5, 5)` in the second. -/
def originThenFiveClip : FRecordActorSaveData :=
  actorOf "Body_1" [] [boneFrame 0 0 [boneAt 0 1], boneFrame (1 / 10) 1 [boneAt 5 1]]

/-- A clip of two samples in which the single bone of `"Body_1"` has the scale
`(2, 2, 2)` and then `(3, 3, 3)`. -/
def scaledBoneClip : FRecordActorSaveData :=
  actorOf "Body_1" [] [boneFrame 0 0 [boneAt 0 2], boneFrame (1 / 10) 1 [boneAt 0 3]]


/-- A queue that holds the one sample at time 0. -/
def oneSampleQueue : TCircularQueue := { Items := framesFrom 0 1, Capacity := 4 }

/-- A clip with exactly one sample. -/
def oneSampleClip : FRecordActorSaveData := actorOf "A" [] (framesFrom 0 1)

/-- A body of tier `Standard_Low` with one clip whose bone range maps are empty and
whose single sample names the bone-set `Body_1` with one packed bone transform. -/
def lowBodyWithoutRange : List Token :=
  [Token.int32 1, Token.name "Body_1", Token.int32 0] ++
    WriteFLocRange { PosMin := vec 0 0 0, PosMax := vec 0 0 0 } ++
    WriteFScaleRange { ScaleMin := vec 1 1 1, ScaleMax := vec 1 1 1 } ++
    [Token.int32 0, Token.int32 0, Token.int32 1,
     Token.float 0, Token.int32 0, Token.int32 0, Token.int32 1,
     Token.string "Body_1", Token.int32 1,
     Token.uint32 0, Token.uint32 0, Token.uint32 0]

/-- A script struct with one `int32` member. -/
def scoreStruct : UScriptStruct :=
  { StructureSize := 4,
    LoadItem := fun Ar =>
      match Ar with
      | Token.int32 v :: rest => Except.ok ([Token.int32 v], rest)
      | _ => Except.error ArchiveError.endOfData }

/-- An object lookup that knows the script struct `/Script/Game.Score` only. -/
def sampleObjects : EngineObjects :=
  { FindStruct := fun Path => if Path = "/Script/Game.Score" then some scoreStruct else none }

/-- A stand-in for the engine's compression: a compressed buffer is the buffer behind
one marker byte. -/
def sampleCompression : EngineCompression :=
  { CompressMemory := fun _ Bytes => some (Token.uint8 120 :: Bytes),
    UncompressMemory := fun _ _ Bytes =>
      match Bytes with
      | Token.uint8 120 :: rest => some rest
      | _ => none }

/-- A user-data instance of the script struct `/Script/Game.Score`. -/
def scoreData (v : Int) : FInstancedStruct :=
  some { StructPath := "/Script/Game.Score", StructSize := 4, Memory := [Token.int32 v] }

/-- A clip-set header with one tag, group user data, and user data for one of its two
entities. -/
def sampleHeader : FRecordHeaderData :=
  { FileName := "Run_1", LevelName := "Arena", Tags := ["Ghost.Boss"],
    SpawnPointTransform := transformAt 1 2 3,
    MaxRecordTime := 5, SamplingInterval := 1 / 10, TotalLength := 1 / 10,
    RecordGroupUserData := scoreData 7, RecordActorUserData := [none, scoreData 9] }

/-- A clip set with the header `sampleHeader` and the clip `sampleClip`. -/
def sampleSaveData : FRecordSaveData :=
  { Header := sampleHeader, RecordActorDataArray := [sampleClip] }

/-- File options without compression. -/
def plainOptions : FBloodStainFileOptions :=
  { CompressionOption := ECompressionMethod.None,
    QuantizationOption := ETransformQuantizationMethod.Standard_Medium }

/-- File options with compression. -/
def zlibOptions : FBloodStainFileOptions :=
  { CompressionOption := ECompressionMethod.Zlib,
    QuantizationOption := ETransformQuantizationMethod.Standard_Medium }

/-- The field `UncompressedSize` of the file header at the start of a file. -/
def WrittenUncompressedSize (File : List Token) : Option Int :=
  let ReadHeaders : Loader FBloodStainFileHeader := do
    let _HeaderByteSize ← ReadInt32
    ReadFBloodStainFileHeader
  match ReadHeaders.run File with
  | Except.error _ => none
  | Except.ok (FileHeader, _) => some FileHeader.UncompressedSize

/-- A file with the magic and the version of its file header replaced. -/
def WithMagicAndVersion (Magic Version : Nat) : List Token → List Token
  | Token.int32 H :: Token.uint32 _ :: Token.uint32 _ :: rest =>
    Token.int32 H :: Token.uint32 Magic :: Token.uint32 Version :: rest
  | File => File

/-- The file that `SaveToFile` writes for `sampleSaveData` with compression. -/
def sampleFile : List Token :=
  (SaveToFile sampleCompression sampleQuantizers sampleSaveData zlibOptions).getD []

/-- An outcome of `CreateComponentFromRecord` in which every component is created. -/
def alwaysCreate : FComponentRecord → Option USceneComponent :=
  fun _ => some { bVisible := true, bIsActive := true }

/-- A clip of four samples at the times 0, 1, 2, 3 whose sub-part `Sword` is active at
frame 0 only, the sub-part `Body` at every frame. -/
def swordClip : FRecordActorSaveData :=
  actorOf "Body" [intervalOf "Body" 0 4, intervalOf "Sword" 0 1] (framesFrom 0 4)

/-- The playback component after `Initialize` on `swordClip` with the playback rate -1. -/
def reversePlayer : Option UPlayComponent :=
  UPlayComponent.Initialize 2 alwaysCreate swordClip (-1)

/-- The playback component after `Initialize` on `swordClip` with the playback rate 1. -/
def forwardPlayer : Option UPlayComponent :=
  UPlayComponent.Initialize 2 alwaysCreate swordClip 1

/-- The current frame index of a playback component and the visibility of its
reconstructed sub-parts. -/
def FrameAndVisibility (P : UPlayComponent) : Int × List (String × Option Bool) :=
  (P.CurrentFrame,
    P.ReconstructedComponents.map fun Pair => (Pair.1, Pair.2.map fun C => C.bVisible))

/-- A playback component on `swordClip` at frame 0 with both sub-parts visible. -/
def samplePlayer : UPlayComponent :=
  { ReplayData := swordClip, PlaybackRate := 1, CurrentFrame := 0,
    ReconstructedComponents :=
      [("Body", some { bVisible := true, bIsActive := true }),
       ("Sword", some { bVisible := true, bIsActive := true })],
    IntervalRoot :=
      FIntervalTreeNode.node 1 [intervalOf "Body" 0 4, intervalOf "Sword" 0 1]
        FIntervalTreeNode.null FIntervalTreeNode.null,
    bActorHiddenInGame := false, AppliedPose := none }

/-- The `float` value nearest to 0.1. -/
def float0_1 : ℚ := 13421773 / 134217728

/-- The `float` value nearest to 0.3. -/
def float0_3 : ℚ := 5033165 / 16777216

/-- The `float` value nearest to 5.3. -/
def float5_3 : ℚ := 5557453 / 1048576
/-! ## Theorems -/

/-! ### Engine primitives -/

theorem wrap32_eq_self {x : Int} (h1 : -2147483648 ≤ x) (h2 : x ≤ 2147483647) :
    wrap32 x = x := by
  unfold wrap32
  omega

/-- Loop invariant of the binary search of `UpperBoundBy` on a range sorted by the
projection: everything before the result is not greater than the value, everything
from the result on is greater. -/
theorem upperBoundLoop_spec {α κ : Type} [LinearOrder κ] (Range : List α) (Value : κ)
    (Projection : α → κ)
    (hs : Range.Pairwise (fun a b => Projection a ≤ Projection b)) :
    ∀ fuel Start Size, Size ≤ fuel → Start + Size ≤ Range.length →
      (∀ i (h : i < Range.length), i < Start → Projection (Range.get ⟨i, h⟩) ≤ Value) →
      (∀ i (h : i < Range.length), Start + Size ≤ i → Value < Projection (Range.get ⟨i, h⟩)) →
      UpperBoundLoop Range Value Projection fuel Start Size ≤ Range.length ∧
      (∀ i (h : i < Range.length), i < UpperBoundLoop Range Value Projection fuel Start Size →
        Projection (Range.get ⟨i, h⟩) ≤ Value) ∧
      (∀ i (h : i < Range.length), UpperBoundLoop Range Value Projection fuel Start Size ≤ i →
        Value < Projection (Range.get ⟨i, h⟩)) := by
  intro fuel
  induction fuel with
  | zero =>
    intro Start Size hfuel hlen hlo hhi
    have hS : Size = 0 := by omega
    subst hS
    simp only [UpperBoundLoop]
    exact ⟨by omega, hlo, fun i h hi => hhi i h (by omega)⟩
  | succ n ih =>
    intro Start Size hfuel hlen hlo hhi
    simp only [UpperBoundLoop]
    by_cases hS : Size = 0
    · subst hS
      simp only [if_true]
      exact ⟨by omega, hlo, fun i h hi => hhi i h (by omega)⟩
    · simp only [hS, if_false]
      have hck : Start + Size / 2 < Range.length := by omega
      rw [List.get?_eq_get hck]
      simp only []
      by_cases hv : Value < Projection (Range.get ⟨Start + Size / 2, hck⟩)
      · simp only [hv, not_true_eq_false, if_false]
        apply ih Start (Size / 2) (by omega) (by omega) hlo
        intro i h hi
        rcases Nat.eq_or_lt_of_le hi with heq | hlt
        · subst heq; exact hv
        · exact lt_of_lt_of_le hv
            (List.pairwise_iff_get.mp hs ⟨Start + Size / 2, hck⟩ ⟨i, h⟩ hlt)
      · simp only [hv, not_false_eq_true, if_true]
        apply ih (Start + Size / 2 + Size % 2) (Size / 2) (by omega) (by omega)
        · intro i h hi
          have hle : Projection (Range.get ⟨Start + Size / 2, hck⟩) ≤ Value := not_lt.mp hv
          rcases Nat.lt_or_ge i (Start + Size / 2) with hlt | hge
          · exact le_trans
              (List.pairwise_iff_get.mp hs ⟨i, h⟩ ⟨Start + Size / 2, hck⟩ hlt) hle
          · have : i = Start + Size / 2 := by omega
            subst this
            exact hle
        · intro i h hi
          exact hhi i h (by omega)

/-- Loop invariant of the binary search of `LowerBoundBy` on a range sorted by the
projection: everything before the result is less than the value, everything from the
result on is not. -/
theorem lowerBoundLoop_spec {α κ : Type} [LinearOrder κ] (Range : List α) (Value : κ)
    (Projection : α → κ)
    (hs : Range.Pairwise (fun a b => Projection a ≤ Projection b)) :
    ∀ fuel Start Size, Size ≤ fuel → Start + Size ≤ Range.length →
      (∀ i (h : i < Range.length), i < Start → Projection (Range.get ⟨i, h⟩) < Value) →
      (∀ i (h : i < Range.length), Start + Size ≤ i → Value ≤ Projection (Range.get ⟨i, h⟩)) →
      LowerBoundLoop Range Value Projection fuel Start Size ≤ Range.length ∧
      (∀ i (h : i < Range.length), i < LowerBoundLoop Range Value Projection fuel Start Size →
        Projection (Range.get ⟨i, h⟩) < Value) ∧
      (∀ i (h : i < Range.length), LowerBoundLoop Range Value Projection fuel Start Size ≤ i →
        Value ≤ Projection (Range.get ⟨i, h⟩)) := by
  intro fuel
  induction fuel with
  | zero =>
    intro Start Size hfuel hlen hlo hhi
    have hS : Size = 0 := by omega
    subst hS
    simp only [LowerBoundLoop]
    exact ⟨by omega, hlo, fun i h hi => hhi i h (by omega)⟩
  | succ n ih =>
    intro Start Size hfuel hlen hlo hhi
    simp only [LowerBoundLoop]
    by_cases hS : Size = 0
    · subst hS
      simp only [if_true]
      exact ⟨by omega, hlo, fun i h hi => hhi i h (by omega)⟩
    · simp only [hS, if_false]
      have hck : Start + Size / 2 < Range.length := by omega
      rw [List.get?_eq_get hck]
      simp only []
      by_cases hv : Projection (Range.get ⟨Start + Size / 2, hck⟩) < Value
      · simp only [hv, if_true]
        apply ih (Start + Size / 2 + Size % 2) (Size / 2) (by omega) (by omega)
        · intro i h hi
          rcases Nat.lt_or_ge i (Start + Size / 2) with hlt | hge
          · exact lt_of_le_of_lt
              (List.pairwise_iff_get.mp hs ⟨i, h⟩ ⟨Start + Size / 2, hck⟩ hlt) hv
          · have : i = Start + Size / 2 := by omega
            subst this
            exact hv
        · intro i h hi
          exact hhi i h (by omega)
      · simp only [hv, if_false]
        apply ih Start (Size / 2) (by omega) (by omega) hlo
        intro i h hi
        have hle : Value ≤ Projection (Range.get ⟨Start + Size / 2, hck⟩) := not_lt.mp hv
        rcases Nat.eq_or_lt_of_le hi with heq | hlt
        · subst heq; exact hle
        · exact le_trans hle
            (List.pairwise_iff_get.mp hs ⟨Start + Size / 2, hck⟩ ⟨i, h⟩ hlt)

/-- A list splits at index `r` into the elements that fail and the elements that pass a
test when the test fails before `r` and passes from `r` on. -/
theorem drop_eq_filter_of_split {α : Type} (p : α → Bool) (l : List α) (r : Nat)
    (hlo : ∀ i (h : i < l.length), i < r → p (l.get ⟨i, h⟩) = false)
    (hhi : ∀ i (h : i < l.length), r ≤ i → p (l.get ⟨i, h⟩) = true) :
    l.drop r = l.filter p := by
  induction l generalizing r with
  | nil => simp
  | cons a t ih =>
    cases r with
    | zero =>
      have ha : p a = true := hhi 0 (by simp) (le_refl _)
      have := ih 0 (fun i h hi => absurd hi (Nat.not_lt_zero _))
        (fun i h _ => hhi (i + 1) (by simpa using h) (Nat.zero_le _))
      simp only [List.drop_zero] at this ⊢
      rw [List.filter_cons_of_pos ha, ← this]
    | succ r =>
      have ha : p a = false := hlo 0 (by simp) (Nat.succ_pos _)
      have := ih r (fun i h hi => hlo (i + 1) (by simpa using h) (by omega))
        (fun i h hi => hhi (i + 1) (by simpa using h) (by omega))
      simp only [List.drop_succ_cons]
      rw [this, List.filter_cons_of_neg (by simp [ha])]

/-- On a range sorted by the projection, dropping the first `UpperBoundBy` elements leaves
exactly the elements whose projection is greater than the value. -/
theorem drop_upperBoundBy {α κ : Type} [LinearOrder κ] (Range : List α) (Value : κ)
    (Projection : α → κ)
    (hs : Range.Pairwise (fun a b => Projection a ≤ Projection b)) :
    Range.drop (UpperBoundBy Range Value Projection)
      = Range.filter (fun a => decide (Value < Projection a)) := by
  obtain ⟨-, hlo, hhi⟩ := upperBoundLoop_spec Range Value Projection hs Range.length 0
    Range.length le_rfl (by omega) (fun i h hi => absurd hi (Nat.not_lt_zero _))
    (fun i h hi => absurd h (by omega))
  apply drop_eq_filter_of_split
  · intro i h hi
    simpa using hlo i h hi
  · intro i h hi
    simpa using hhi i h hi


/-! ### Single-precision arithmetic -/

theorem pow2_pos (k : Int) : 0 < Pow2 k := by
  unfold Pow2
  split_ifs
  · positivity
  · apply div_pos one_pos
    positivity

/-- The power of two of the embedding is the rational power of two. -/
theorem pow2_eq_zpow (k : Int) : Pow2 k = (2 : ℚ) ^ k := by
  unfold Pow2
  split_ifs with h
  · have hk : ((k.toNat : Nat) : Int) = k := Int.toNat_of_nonneg h
    rw [Nat.cast_pow, Nat.cast_ofNat, ← zpow_natCast, hk]
  · have hk : (((-k).toNat : Nat) : Int) = -k := Int.toNat_of_nonneg (by omega)
    rw [Nat.cast_pow, Nat.cast_ofNat, one_div, ← zpow_natCast, hk, zpow_neg, inv_inv]

/-- With a budget that is not less than the number, the halving count of a positive
number is the exponent of the greatest power of two that is not greater than it. -/
theorem halvingCount_spec (fuel : Nat) : ∀ n : Nat, 1 ≤ n → n ≤ fuel →
    2 ^ HalvingCount fuel n ≤ n ∧ n < 2 ^ (HalvingCount fuel n + 1) := by
  induction fuel with
  | zero =>
    intro n h1 h2
    omega
  | succ f ih =>
    intro n h1 h2
    unfold HalvingCount
    by_cases h : 2 ≤ n
    · rw [if_pos h]
      obtain ⟨ha, hb⟩ := ih (n / 2) (by omega) (by omega)
      rw [pow_succ] at hb
      rw [pow_succ, pow_succ, pow_succ]
      constructor <;> omega
    · rw [if_neg h]
      constructor <;> omega

/-- The exponent of a positive number: `2^e <= x < 2^(e+1)`. -/
theorem floorLog2_spec (x : ℚ) (hx : 0 < x) :
    Pow2 (FloorLog2 x) ≤ x ∧ x < Pow2 (FloorLog2 x + 1) := by
  have hnum : 0 < x.num := Rat.num_pos.2 hx
  have hden : 0 < x.den := x.den_pos
  obtain ⟨a1, a2⟩ := halvingCount_spec x.num.natAbs x.num.natAbs (by omega) (le_refl _)
  obtain ⟨b1, b2⟩ := halvingCount_spec x.den x.den (by omega) (le_refl _)
  have hxd : x = ((x.num.natAbs : Nat) : ℚ) / ((x.den : Nat) : ℚ) := by
    rw [Nat.cast_natAbs, abs_of_pos hnum]
    exact (Rat.num_div_den x).symm
  unfold FloorLog2
  simp only []
  generalize HalvingCount x.num.natAbs x.num.natAbs = a at a1 a2 ⊢
  generalize HalvingCount x.den x.den = b at b1 b2 ⊢
  have a1q : (2 : ℚ) ^ a ≤ (x.num.natAbs : ℚ) := by exact_mod_cast a1
  have a2q : (x.num.natAbs : ℚ) < (2 : ℚ) ^ (a + 1) := by exact_mod_cast a2
  have b1q : (2 : ℚ) ^ b ≤ (x.den : ℚ) := by exact_mod_cast b1
  have b2q : (x.den : ℚ) < (2 : ℚ) ^ (b + 1) := by exact_mod_cast b2
  have hdq : (0 : ℚ) < (x.den : ℚ) := by exact_mod_cast hden
  have hnq : (0 : ℚ) < (x.num.natAbs : ℚ) := by
    have : 0 < x.num.natAbs := by omega
    exact_mod_cast this
  have hpa : (0 : ℚ) < (2 : ℚ) ^ a := by positivity
  have hpb : (0 : ℚ) < (2 : ℚ) ^ b := by positivity
  have eUp : Pow2 ((a : Int) - (b : Int) + 1) = (2 : ℚ) ^ (a + 1) / (2 : ℚ) ^ b := by
    rw [pow2_eq_zpow, show ((a : Int) - (b : Int) + 1) = (((a + 1 : Nat) : Int) - ((b : Nat) : Int)) by
      push_cast; ring, zpow_sub₀ (two_ne_zero), zpow_natCast, zpow_natCast]
  have eDown : Pow2 ((a : Int) - (b : Int) - 1) = (2 : ℚ) ^ a / (2 : ℚ) ^ (b + 1) := by
    rw [pow2_eq_zpow, show ((a : Int) - (b : Int) - 1) = (((a : Nat) : Int) - ((b + 1 : Nat) : Int)) by
      push_cast; ring, zpow_sub₀ (two_ne_zero), zpow_natCast, zpow_natCast]
  have hUp : x < Pow2 ((a : Int) - (b : Int) + 1) := by
    rw [eUp, hxd, div_lt_div_iff₀ hdq hpb]
    calc (x.num.natAbs : ℚ) * (2 : ℚ) ^ b ≤ (x.num.natAbs : ℚ) * (x.den : ℚ) :=
          mul_le_mul_of_nonneg_left b1q (le_of_lt hnq)
      _ < (2 : ℚ) ^ (a + 1) * (x.den : ℚ) := mul_lt_mul_of_pos_right a2q hdq
  have hDown : Pow2 ((a : Int) - (b : Int) - 1) ≤ x := by
    rw [eDown, hxd, div_le_div_iff₀ (by positivity) hdq]
    calc (2 : ℚ) ^ a * (x.den : ℚ) ≤ (x.num.natAbs : ℚ) * (x.den : ℚ) :=
          mul_le_mul_of_nonneg_right a1q (le_of_lt hdq)
      _ ≤ (x.num.natAbs : ℚ) * (2 : ℚ) ^ (b + 1) :=
          mul_le_mul_of_nonneg_left (le_of_lt b2q) (le_of_lt hnq)
  by_cases hk : Pow2 ((a : Int) - (b : Int)) ≤ x
  · rw [if_pos hk]
    exact ⟨hk, hUp⟩
  · rw [if_neg hk]
    refine ⟨hDown, ?_⟩
    rw [sub_add_cancel]
    exact not_le.mp hk

theorem pow2_le_pow2 (a b : Int) (h : a ≤ b) : Pow2 a ≤ Pow2 b := by
  rw [pow2_eq_zpow, pow2_eq_zpow]
  exact zpow_le_zpow_right₀ (by norm_num) h

theorem floorLog2_le (x : ℚ) (m : Int) (hx : 0 < x) (hm : x < Pow2 (m + 1)) :
    FloorLog2 x ≤ m := by
  by_contra hcon
  have h1 : m + 1 ≤ FloorLog2 x := by omega
  have h2 := pow2_le_pow2 _ _ h1
  have h3 := (floorLog2_spec x hx).1
  linarith

theorem roundHalfEven_nonneg (n : ℚ) (h : 0 ≤ n) : 0 ≤ RoundHalfEven n := by
  have hf : (0 : Int) ≤ ⌊n⌋ := Int.floor_nonneg.2 h
  unfold RoundHalfEven
  simp only []
  split_ifs <;> omega

/-- The rounding to the nearest integer moves a number by at most one half. -/
theorem roundHalfEven_near (n : ℚ) : |(RoundHalfEven n : ℚ) - n| ≤ 1 / 2 := by
  have h1 : (⌊n⌋ : ℚ) ≤ n := Int.floor_le n
  have h2 : n < (⌊n⌋ : ℚ) + 1 := Int.lt_floor_add_one n
  unfold RoundHalfEven
  simp only []
  rw [abs_le]
  split_ifs with ha hb hc
  · constructor <;> linarith
  · push_cast
    constructor <;> linarith
  · constructor <;> linarith
  · push_cast
    constructor <;> linarith

/-- The rounding to `float` of a number that is not negative is not negative. -/
theorem roundToFloat_nonneg (x : ℚ) (h : 0 ≤ x) : 0 ≤ RoundToFloat x := by
  unfold RoundToFloat
  by_cases h0 : x = 0
  · rw [if_pos h0]
  · have hpos : 0 < x := lt_of_le_of_ne h (Ne.symm h0)
    rw [if_neg h0, if_pos hpos]
    unfold RoundPositiveToFloat
    simp only []
    apply mul_nonneg
    · exact_mod_cast roundHalfEven_nonneg _ (div_nonneg h (le_of_lt (pow2_pos _)))
    · exact le_of_lt (pow2_pos _)

/-- The rounding to `float` of a positive number differs from it by at most half the
spacing of the `float` values around it. -/
theorem roundPositiveToFloat_near (x : ℚ) :
    |RoundPositiveToFloat x - x| ≤ Pow2 (max (FloorLog2 x) (-126) - 23) / 2 := by
  unfold RoundPositiveToFloat
  simp only []
  have hq := pow2_pos (max (FloorLog2 x) (-126) - 23)
  have hn := roundHalfEven_near (x / Pow2 (max (FloorLog2 x) (-126) - 23))
  have hx : x = x / Pow2 (max (FloorLog2 x) (-126) - 23) *
      Pow2 (max (FloorLog2 x) (-126) - 23) := by
    field_simp
  have hrw : (RoundHalfEven (x / Pow2 (max (FloorLog2 x) (-126) - 23)) : ℚ) *
      Pow2 (max (FloorLog2 x) (-126) - 23) - x =
      ((RoundHalfEven (x / Pow2 (max (FloorLog2 x) (-126) - 23)) : ℚ) -
        x / Pow2 (max (FloorLog2 x) (-126) - 23)) *
        Pow2 (max (FloorLog2 x) (-126) - 23) := by
    field_simp
  rw [hrw, abs_mul, abs_of_pos hq]
  calc |(RoundHalfEven (x / Pow2 (max (FloorLog2 x) (-126) - 23)) : ℚ) -
        x / Pow2 (max (FloorLog2 x) (-126) - 23)| * Pow2 (max (FloorLog2 x) (-126) - 23)
      ≤ 1 / 2 * Pow2 (max (FloorLog2 x) (-126) - 23) :=
        mul_le_mul_of_nonneg_right hn (le_of_lt hq)
    _ = Pow2 (max (FloorLog2 x) (-126) - 23) / 2 := by ring

theorem pow2_half (k : Int) : Pow2 k / 2 = Pow2 (k - 1) := by
  rw [pow2_eq_zpow, pow2_eq_zpow, zpow_sub_one₀ (two_ne_zero), div_eq_mul_inv]

/-- The rounding to `float` of a number of magnitude below `2^(m+1)`, for an exponent `m`
of the normal range, differs from the number by at most `2^(m-24)`, half the spacing of
the `float` values with the exponent `m`. -/
theorem roundToFloat_near (x : ℚ) (m : Int) (hx : |x| < Pow2 (m + 1)) (hm : -126 ≤ m) :
    |RoundToFloat x - x| ≤ Pow2 (m - 24) := by
  have key : ∀ y : ℚ, 0 < y → y < Pow2 (m + 1) →
      |RoundPositiveToFloat y - y| ≤ Pow2 (m - 24) := by
    intro y hy hlt
    have h1 := roundPositiveToFloat_near y
    have h2 : max (FloorLog2 y) (-126) ≤ m := max_le (floorLog2_le y m hy hlt) hm
    rw [pow2_half] at h1
    exact le_trans h1 (pow2_le_pow2 _ _ (by omega))
  unfold RoundToFloat
  by_cases h0 : x = 0
  · rw [if_pos h0, h0, sub_zero, abs_zero]
    exact le_of_lt (pow2_pos _)
  · rw [if_neg h0]
    by_cases hpos : 0 < x
    · rw [if_pos hpos]
      rw [abs_of_pos hpos] at hx
      exact key x hpos hx
    · rw [if_neg hpos]
      have hneg : x < 0 := lt_of_le_of_ne (not_lt.mp hpos) h0
      rw [abs_of_neg hneg] at hx
      have h3 := key (-x) (by linarith) hx
      have e : -RoundPositiveToFloat (-x) - x = -(RoundPositiveToFloat (-x) - -x) := by ring
      rw [e, abs_neg]
      exact h3

/-- The rounding to `float` on values of the examples: 0.1, 0.3 and 5.3 round to their
nearest `float` values, the odd integer 2^24 + 1 rounds to the even neighbour, and
`float` values stay as they are. -/
theorem roundToFloat_examples :
    RoundToFloat (1 / 10) = float0_1 ∧ RoundToFloat (3 / 10) = float0_3 ∧
    RoundToFloat (53 / 10) = float5_3 ∧
    RoundToFloat 16777217 = 16777216 ∧ RoundToFloat 16777219 = 16777220 ∧
    RoundToFloat float0_1 = float0_1 ∧ RoundToFloat 300 = 300 ∧ RoundToFloat (-6) = -6 := by
  refine ⟨?_, ?_, ?_, ?_, ?_, ?_, ?_, ?_⟩ <;> decide!
/-! ### Archive -/

theorem Loader.run_pure {α : Type} (a : α) (Ar : List Token) :
    (pure a : Loader α).run Ar = Except.ok (a, Ar) := rfl

theorem Loader.run_bind_ok {α β : Type} {m : Loader α} {f : α → Loader β} {Ar Ar1 : List Token}
    {a : α} (h : m.run Ar = Except.ok (a, Ar1)) : (m >>= f).run Ar = (f a).run Ar1 := by
  show Loader.bind m f Ar = f a Ar1
  unfold Loader.bind
  have h1 : m Ar = Except.ok (a, Ar1) := h
  rw [h1]

theorem readInt32_run (v : Int) (rest : List Token) :
    ReadInt32.run (Token.int32 v :: rest) = Except.ok (v, rest) := rfl

theorem readUInt32_run (v : Nat) (rest : List Token) :
    ReadUInt32.run (Token.uint32 v :: rest) = Except.ok (v, rest) := rfl

theorem readUInt16_run (v : Nat) (rest : List Token) :
    ReadUInt16.run (Token.uint16 v :: rest) = Except.ok (v, rest) := rfl

theorem readFloat_run (v : ℚ) (rest : List Token) :
    ReadFloat.run (Token.float v :: rest) = Except.ok (v, rest) := rfl

theorem readDouble_run (v : ℚ) (rest : List Token) :
    ReadDouble.run (Token.double v :: rest) = Except.ok (v, rest) := rfl

theorem readFString_run (v : String) (rest : List Token) :
    ReadFString.run (Token.string v :: rest) = Except.ok (v, rest) := rfl

theorem readFName_run (v : String) (rest : List Token) :
    ReadFName.run (Token.name v :: rest) = Except.ok (v, rest) := rfl

theorem readFVector_run (V : FVector) (rest : List Token) :
    ReadFVector.run (WriteFVector V ++ rest) = Except.ok (V, rest) := rfl

theorem readFQuat_run (Q : FQuat) (rest : List Token) :
    ReadFQuat.run (WriteFQuat Q ++ rest) = Except.ok (Q, rest) := rfl

theorem readFLinearColor_run (C : FLinearColor) (rest : List Token) :
    ReadFLinearColor.run (WriteFLinearColor C ++ rest) = Except.ok (C, rest) := rfl

theorem readFTransform_run (T : FTransform) (rest : List Token) :
    ReadFTransform.run (WriteFTransform T ++ rest) = Except.ok (T, rest) := by
  unfold ReadFTransform WriteFTransform
  rw [List.append_assoc, List.append_assoc, Loader.run_bind_ok (readFQuat_run _ _),
    Loader.run_bind_ok (readFVector_run _ _), Loader.run_bind_ok (readFVector_run _ _)]
  rfl

/-- A counted load loop over what was written for a list returns the image of the list
under `g` when each element loads as its image. -/
theorem readRepeat_writeAll {α β : Type} (w : α → List Token) (r : Loader β) (g : α → β)
    (A : List α)
    (h : ∀ a ∈ A, ∀ rest, r.run (w a ++ rest) = Except.ok (g a, rest)) (rest : List Token) :
    (ReadRepeat r A.length).run (WriteAll w A ++ rest) = Except.ok (A.map g, rest) := by
  induction A with
  | nil => rfl
  | cons a t ih =>
    simp only [List.length_cons, ReadRepeat, WriteAll, List.append_assoc]
    rw [Loader.run_bind_ok (h a (List.mem_cons_self _ _) _),
      Loader.run_bind_ok (ih (fun b hb => h b (List.mem_cons_of_mem _ hb)))]
    rfl

/-- Load of a saved `TArray`. -/
theorem readArray_writeArray {α β : Type} (w : α → List Token) (r : Loader β) (g : α → β)
    (A : List α)
    (h : ∀ a ∈ A, ∀ rest, r.run (w a ++ rest) = Except.ok (g a, rest)) (rest : List Token) :
    (ReadArray r).run (WriteArray w A ++ rest) = Except.ok (A.map g, rest) := by
  unfold ReadArray WriteArray
  rw [List.cons_append, Loader.run_bind_ok (readInt32_run _ _), Int.toNat_ofNat]
  exact readRepeat_writeAll w r g A h rest

/-- Adding a key that the map does not hold appends the pair. -/
theorem tmapAdd_of_not_mem {κ β : Type} [DecidableEq κ] (M : List (κ × β)) (Key : κ) (Value : β)
    (h : Key ∉ M.map Prod.fst) : TMapAdd M Key Value = M ++ [(Key, Value)] := by
  induction M with
  | nil => rfl
  | cons p t ih =>
    simp only [List.map_cons, List.mem_cons, not_or] at h
    simp only [TMapAdd]
    rw [if_neg (fun hp => h.1 hp.symm), ih h.2]
    rfl

/-- The load loop of a `TMap` over what was written for a list of pairs with pairwise
distinct keys appends the images of the pairs. -/
theorem readMapLoop_writeAll {κ β γ : Type} [DecidableEq κ] (wk : κ → List Token)
    (wv : β → List Token) (rk : Loader κ) (rv : Loader γ) (g : κ × β → γ)
    (hk : ∀ k rest, rk.run (wk k ++ rest) = Except.ok (k, rest)) (M : List (κ × β)) :
    ∀ (M0 : List (κ × γ)),
      (∀ p ∈ M, ∀ rest, rv.run (wv p.2 ++ rest) = Except.ok (g p, rest)) →
      (M0.map Prod.fst ++ M.map Prod.fst).Nodup → ∀ rest,
      (ReadMapLoop rk rv M.length M0).run
          (WriteAll (fun p => wk p.1 ++ wv p.2) M ++ rest) =
        Except.ok (M0 ++ M.map (fun p => (p.1, g p)), rest) := by
  induction M with
  | nil =>
    intro M0 _ _ rest
    simp only [List.length_nil, ReadMapLoop, WriteAll, List.nil_append, List.map_nil,
      List.append_nil]
    rfl
  | cons p t ih =>
    intro M0 hv hnd rest
    simp only [List.length_cons, ReadMapLoop, WriteAll, List.append_assoc]
    rw [Loader.run_bind_ok (hk _ _), Loader.run_bind_ok (hv p (List.mem_cons_self _ _) _)]
    have hnot : p.1 ∉ M0.map Prod.fst := by
      intro hmem
      rw [List.map_cons] at hnd
      exact (List.nodup_append.mp hnd).2.2 hmem (List.mem_cons_self _ _)
    rw [tmapAdd_of_not_mem M0 p.1 (g p) hnot]
    have hnd2 : ((M0 ++ [(p.1, g p)]).map Prod.fst ++ t.map Prod.fst).Nodup := by
      simpa [List.map_append, List.append_assoc] using hnd
    rw [ih (M0 ++ [(p.1, g p)]) (fun q hq => hv q (List.mem_cons_of_mem _ hq)) hnd2]
    simp

/-- Load of a saved `TMap` whose keys are pairwise distinct. -/
theorem readMap_writeMap {κ β γ : Type} [DecidableEq κ] (wk : κ → List Token)
    (wv : β → List Token) (rk : Loader κ) (rv : Loader γ) (g : κ × β → γ)
    (hk : ∀ k rest, rk.run (wk k ++ rest) = Except.ok (k, rest)) (M : List (κ × β))
    (hv : ∀ p ∈ M, ∀ rest, rv.run (wv p.2 ++ rest) = Except.ok (g p, rest))
    (hnd : (M.map Prod.fst).Nodup) (rest : List Token) :
    (ReadMap rk rv).run (WriteMap wk wv M ++ rest) =
      Except.ok (M.map (fun p => (p.1, g p)), rest) := by
  unfold ReadMap WriteMap
  rw [List.cons_append, Loader.run_bind_ok (readInt32_run _ _), Int.toNat_ofNat]
  have := readMapLoop_writeAll wk wv rk rv g hk M [] hv (by simpa using hnd) rest
  simpa using this

theorem tmapFind_isSome_iff {κ β : Type} [DecidableEq κ] (M : List (κ × β)) (Key : κ) :
    (TMapFind M Key).isSome = true ↔ Key ∈ M.map Prod.fst := by
  induction M with
  | nil => simp [TMapFind]
  | cons p t ih =>
    simp only [TMapFind, List.map_cons, List.mem_cons]
    by_cases h : p.1 = Key
    · simp [h]
    · rw [if_neg h, ih]
      constructor
      · exact fun hm => Or.inr hm
      · rintro (hk | hm)
        · exact absurd hk.symm h
        · exact hm

theorem tmapAdd_keys_mem {κ β : Type} [DecidableEq κ] (M : List (κ × β)) (Key : κ) (Value : β)
    (k : κ) : k ∈ (TMapAdd M Key Value).map Prod.fst ↔ k = Key ∨ k ∈ M.map Prod.fst := by
  induction M with
  | nil => simp [TMapAdd]
  | cons p t ih =>
    simp only [TMapAdd]
    by_cases h : p.1 = Key
    · rw [if_pos h]
      simp only [List.map_cons, List.mem_cons, h]
      tauto
    · rw [if_neg h]
      simp only [List.map_cons, List.mem_cons, ih]
      tauto

theorem tmapAdd_nodupKeys {κ β : Type} [DecidableEq κ] (M : List (κ × β)) (Key : κ) (Value : β)
    (h : (M.map Prod.fst).Nodup) : ((TMapAdd M Key Value).map Prod.fst).Nodup := by
  induction M with
  | nil => simp [TMapAdd]
  | cons p t ih =>
    simp only [List.map_cons, List.nodup_cons] at h
    simp only [TMapAdd]
    by_cases hk : p.1 = Key
    · rw [if_pos hk]
      simp only [List.map_cons, List.nodup_cons]
      exact ⟨hk ▸ h.1, h.2⟩
    · rw [if_neg hk]
      simp only [List.map_cons, List.nodup_cons, tmapAdd_keys_mem]
      refine ⟨?_, ih h.2⟩
      rintro (h1 | h1)
      · exact hk h1
      · exact h.1 h1


theorem Loader.run_bind {α β : Type} (m : Loader α) (f : α → Loader β) (Ar : List Token) :
    (m >>= f).run Ar =
      match m.run Ar with
      | Except.error e => Except.error e
      | Except.ok (a, Ar1) => (f a).run Ar1 := rfl
/-! ### Interval tree -/

theorem classify_length (Mid : Int) (L : List FComponentActiveInterval) :
    (ClassifyIntervals Mid L).1.length + (ClassifyIntervals Mid L).2.1.length
      + (ClassifyIntervals Mid L).2.2.length = L.length := by
  induction L with
  | nil => simp [ClassifyIntervals]
  | cons I rest ih =>
    simp only [ClassifyIntervals]
    split_ifs <;> simp only [List.length_cons] <;> omega

theorem classify_left (Mid : Int) (L : List FComponentActiveInterval) :
    (ClassifyIntervals Mid L).1 = L.filter (fun I => decide (I.EndFrame < Mid)) := by
  induction L with
  | nil => simp [ClassifyIntervals]
  | cons I rest ih =>
    simp only [ClassifyIntervals]
    split_ifs <;> simp_all [List.filter_cons]

theorem classify_right (Mid : Int) (L : List FComponentActiveInterval) :
    (ClassifyIntervals Mid L).2.1
      = L.filter (fun I => !decide (I.EndFrame < Mid) && decide (I.StartFrame > Mid)) := by
  induction L with
  | nil => simp [ClassifyIntervals]
  | cons I rest ih =>
    simp only [ClassifyIntervals]
    split_ifs <;> simp_all [List.filter_cons]

theorem classify_node (Mid : Int) (L : List FComponentActiveInterval) :
    (ClassifyIntervals Mid L).2.2
      = L.filter (fun I => !decide (I.EndFrame < Mid) && !decide (I.StartFrame > Mid)) := by
  induction L with
  | nil => simp [ClassifyIntervals]
  | cons I rest ih =>
    simp only [ClassifyIntervals]
    split_ifs <;> simp_all [List.filter_cons]


theorem classify_perm (Mid : Int) (L : List FComponentActiveInterval) :
    L.Perm ((ClassifyIntervals Mid L).2.2 ++
      ((ClassifyIntervals Mid L).1 ++ (ClassifyIntervals Mid L).2.1)) := by
  induction L with
  | nil => simp [ClassifyIntervals]
  | cons I rest ih =>
    simp only [ClassifyIntervals]
    split_ifs
    · simp only []
      exact (List.Perm.cons I ih).trans (List.perm_middle.symm.trans (by simp))
    · simp only []
      refine (List.Perm.cons I ih).trans ?_
      rw [← List.append_assoc, ← List.append_assoc]
      exact List.perm_middle.symm
    · simp only [List.cons_append]
      exact List.Perm.cons I ih

theorem endpoints_length (L : List FComponentActiveInterval) :
    (Endpoints L).length = 2 * L.length := by
  induction L with
  | nil => rfl
  | cons I rest ih => simp only [Endpoints, List.length_cons, ih]; omega

theorem mem_endpoints {L : List FComponentActiveInterval} {x : Int} (h : x ∈ Endpoints L) :
    ∃ I ∈ L, I.StartFrame = x ∨ I.EndFrame = x := by
  induction L with
  | nil => simp [Endpoints] at h
  | cons I rest ih =>
    simp only [Endpoints, List.mem_cons] at h
    rcases h with h | h | h
    · exact ⟨I, List.mem_cons_self _ _, Or.inl h.symm⟩
    · exact ⟨I, List.mem_cons_self _ _, Or.inr h.symm⟩
    · obtain ⟨J, hJ, hx⟩ := ih h
      exact ⟨J, List.mem_cons_of_mem _ hJ, hx⟩

/-- The split value is an endpoint of one of the intervals of a non-empty input. -/
theorem midEndpoint_mem {L : List FComponentActiveInterval} (hL : L ≠ []) :
    ∃ I ∈ L, I.StartFrame = MidEndpoint L ∨ I.EndFrame = MidEndpoint L := by
  apply mem_endpoints
  have hlen : (Endpoints L).length / 2 <
      ((Endpoints L).insertionSort (fun a b => a ≤ b)).length := by
    have hpos : 0 < L.length := List.length_pos.mpr hL
    rw [List.length_insertionSort, endpoints_length]
    omega
  have hmem : MidEndpoint L ∈ (Endpoints L).insertionSort (fun a b => a ≤ b) := by
    unfold MidEndpoint
    rw [List.getD_eq_getElem _ _ hlen]
    exact List.getElem_mem _
  exact (List.perm_insertionSort _ _).mem_iff.mp hmem

/-- With `StartFrame <= EndFrame` everywhere, the node of a non-empty input keeps at
least one interval, one that has the split value as a bound. -/
theorem classify_node_ne_nil {L : List FComponentActiveInterval} (hL : L ≠ [])
    (hv : ∀ I ∈ L, I.StartFrame ≤ I.EndFrame) :
    ∃ I ∈ (ClassifyIntervals (MidEndpoint L) L).2.2,
      I.StartFrame = MidEndpoint L ∨ I.EndFrame = MidEndpoint L := by
  obtain ⟨I, hI, hb⟩ := midEndpoint_mem hL
  refine ⟨I, ?_, hb⟩
  rw [classify_node, List.mem_filter]
  refine ⟨hI, ?_⟩
  have := hv I hI
  rcases hb with hb | hb <;> simp <;> omega

theorem classify_shorter {L : List FComponentActiveInterval} (hL : L ≠ [])
    (hv : ∀ I ∈ L, I.StartFrame ≤ I.EndFrame) :
    (ClassifyIntervals (MidEndpoint L) L).1.length < L.length ∧
      (ClassifyIntervals (MidEndpoint L) L).2.1.length < L.length := by
  obtain ⟨I, hI, -⟩ := classify_node_ne_nil hL hv
  have hpos : 0 < (ClassifyIntervals (MidEndpoint L) L).2.2.length :=
    List.length_pos_of_mem hI
  have := classify_length (MidEndpoint L) L
  omega

/-- Enough budget: on intervals with `StartFrame <= EndFrame` the build returns a tree
as soon as the budget reaches the number of intervals. -/
theorem build_isSome (fuel : Nat) :
    ∀ L : List FComponentActiveInterval, (∀ I ∈ L, I.StartFrame ≤ I.EndFrame) →
      L.length ≤ fuel → ∃ T, BuildIntervalTree fuel L = some T := by
  induction fuel with
  | zero =>
    intro L _ hlen
    cases L with
    | nil => exact ⟨_, rfl⟩
    | cons I rest => simp at hlen
  | succ n ih =>
    intro L hv hlen
    cases L with
    | nil => exact ⟨_, rfl⟩
    | cons I rest =>
      have hne : (I :: rest) ≠ [] := by simp
      obtain ⟨h1, h2⟩ := classify_shorter hne hv
      obtain ⟨Tl, hTl⟩ := ih (ClassifyIntervals (MidEndpoint (I :: rest)) (I :: rest)).1
        (fun J hJ => hv J (by rw [classify_left] at hJ; exact (List.mem_filter.mp hJ).1))
        (by omega)
      obtain ⟨Tr, hTr⟩ := ih (ClassifyIntervals (MidEndpoint (I :: rest)) (I :: rest)).2.1
        (fun J hJ => hv J (by rw [classify_right] at hJ; exact (List.mem_filter.mp hJ).1))
        (by omega)
      exact ⟨FIntervalTreeNode.node (MidEndpoint (I :: rest))
        (ClassifyIntervals (MidEndpoint (I :: rest)) (I :: rest)).2.2 Tl Tr,
        by simp only [BuildIntervalTree, hTl, hTr]⟩

/-- The result of a build does not depend on the budget once it is returned. -/
theorem build_fuel_mono (fuel : Nat) :
    ∀ (L : List FComponentActiveInterval) (T : FIntervalTreeNode),
      BuildIntervalTree fuel L = some T → ∀ fuel2, fuel ≤ fuel2 →
        BuildIntervalTree fuel2 L = some T := by
  induction fuel with
  | zero =>
    intro L T h fuel2 _
    cases L with
    | nil => cases fuel2 <;> simpa [BuildIntervalTree] using h
    | cons I rest => simp [BuildIntervalTree] at h
  | succ n ih =>
    intro L T h fuel2 hle
    cases L with
    | nil => cases fuel2 <;> simpa [BuildIntervalTree] using h
    | cons I rest =>
      obtain ⟨m, rfl⟩ : ∃ m, fuel2 = m + 1 := ⟨fuel2 - 1, by omega⟩
      simp only [BuildIntervalTree] at h ⊢
      cases hl : BuildIntervalTree n (ClassifyIntervals (MidEndpoint (I :: rest)) (I :: rest)).1 with
      | none => simp [hl] at h
      | some Tl =>
        cases hr : BuildIntervalTree n
            (ClassifyIntervals (MidEndpoint (I :: rest)) (I :: rest)).2.1 with
        | none => simp [hl, hr] at h
        | some Tr =>
          rw [ih _ _ hl m (by omega), ih _ _ hr m (by omega)]
          simpa [hl, hr] using h

theorem query_append (T : FIntervalTreeNode) (f : Int) :
    ∀ Out, QueryIntervalTree T f Out = Out ++ QueryIntervalTree T f [] := by
  induction T with
  | null => intro Out; simp [QueryIntervalTree]
  | node Center Intervals Left Right ihl ihr =>
    intro Out
    simp only [QueryIntervalTree, List.nil_append]
    split_ifs
    · rw [ihl (Out ++ _), ihl (List.filter _ _), List.append_assoc]
    · rw [ihr (Out ++ _), ihr (List.filter _ _), List.append_assoc]
    · rfl

/-- A query on a built tree returns the linear scan of the input, up to order. -/
theorem query_build_perm (fuel : Nat) :
    ∀ (L : List FComponentActiveInterval) (T : FIntervalTreeNode),
      BuildIntervalTree fuel L = some T → ∀ f : Int,
        (QueryIntervalTree T f []).Perm (LinearScan L f) := by
  induction fuel with
  | zero =>
    intro L T h f
    cases L with
    | nil =>
      simp only [BuildIntervalTree, Option.some.injEq] at h
      subst h
      simp [QueryIntervalTree, LinearScan]
    | cons I rest => simp [BuildIntervalTree] at h
  | succ n ih =>
    intro L T h f
    cases L with
    | nil =>
      simp only [BuildIntervalTree, Option.some.injEq] at h
      subst h
      simp [QueryIntervalTree, LinearScan]
    | cons I rest =>
      simp only [BuildIntervalTree] at h
      cases hl : BuildIntervalTree n (ClassifyIntervals (MidEndpoint (I :: rest)) (I :: rest)).1 with
      | none => simp [hl] at h
      | some Tl =>
        cases hr : BuildIntervalTree n
            (ClassifyIntervals (MidEndpoint (I :: rest)) (I :: rest)).2.1 with
        | none => simp [hl, hr] at h
        | some Tr =>
          simp only [hl, hr, Option.some.injEq] at h
          subst h
          have hperm := (classify_perm (MidEndpoint (I :: rest)) (I :: rest)).filter (Covers f)
          have hL := ih _ _ hl f
          have hR := ih _ _ hr f
          have hleft : ¬ f < MidEndpoint (I :: rest) →
              LinearScan (ClassifyIntervals (MidEndpoint (I :: rest)) (I :: rest)).1 f = [] := by
            intro hf
            rw [classify_left, LinearScan, List.filter_filter, List.filter_eq_nil_iff]
            intro J _
            simp only [Covers, Bool.and_eq_true, decide_eq_true_eq, not_and, not_lt]
            omega
          have hright : ¬ f > MidEndpoint (I :: rest) →
              LinearScan (ClassifyIntervals (MidEndpoint (I :: rest)) (I :: rest)).2.1 f = [] := by
            intro hf
            rw [classify_right, LinearScan, List.filter_filter, List.filter_eq_nil_iff]
            intro J _
            simp only [Covers, Bool.and_eq_true, decide_eq_true_eq, Bool.not_eq_true',
              decide_eq_false_iff_not, not_and, not_lt]
            omega
          simp only [LinearScan] at hL hR hleft hright ⊢
          simp only [List.filter_append] at hperm
          refine List.Perm.trans ?_ hperm.symm
          simp only [QueryIntervalTree, List.nil_append]
          split_ifs with h1 h2
          · rw [query_append, hright (by omega), List.append_nil]
            exact List.Perm.append_left _ hL
          · rw [query_append, hleft h1, List.nil_append]
            exact List.Perm.append_left _ hR
          · rw [hleft h1, hright h2]
            simp

theorem covers_eq (f : Int) (I : FComponentActiveInterval) :
    Covers f I = decide (I.StartFrame ≤ f ∧ f < I.EndFrame) := by
  simp [Covers, Bool.decide_and]

/-- C2: for every list `L` of intervals with `StartFrame <= EndFrame`, `BuildIntervalTree`
returns a tree (for every recursion budget of at least `L.length`, always the same one),
and for every frame index `f` the result of `QueryIntervalTree` on that tree is a
permutation of the intervals of `L` with `StartFrame <= f < EndFrame`: the same multiset
as a linear scan. -/
theorem C2_query_equals_linear_scan (L : List FComponentActiveInterval)
    (hv : ∀ I ∈ L, I.StartFrame ≤ I.EndFrame) :
    ∃ T : FIntervalTreeNode,
      (∀ fuel, L.length ≤ fuel → BuildIntervalTree fuel L = some T) ∧
      ∀ f : Int, (QueryIntervalTree T f []).Perm
        (L.filter (fun I => decide (I.StartFrame ≤ f ∧ f < I.EndFrame))) := by
  obtain ⟨T, hT⟩ := build_isSome L.length L hv le_rfl
  refine ⟨T, fun fuel hle => build_fuel_mono _ L T hT fuel hle, fun f => ?_⟩
  have h := query_build_perm _ L T hT f
  have hfun : (fun I => decide (I.StartFrame ≤ f ∧ f < I.EndFrame)) = Covers f :=
    funext fun I => (covers_eq f I).symm
  rw [hfun]
  exact h

/-- Witness of C2 on three concrete intervals. -/
theorem C2_query_equals_linear_scan_witness :
    (∀ I ∈ sampleIntervals, I.StartFrame ≤ I.EndFrame) ∧
    ∃ T : FIntervalTreeNode,
      (∀ fuel, sampleIntervals.length ≤ fuel →
        BuildIntervalTree fuel sampleIntervals = some T) ∧
      ∀ f : Int, (QueryIntervalTree T f []).Perm
        (sampleIntervals.filter (fun I => decide (I.StartFrame ≤ f ∧ f < I.EndFrame))) :=
  ⟨by decide, C2_query_equals_linear_scan sampleIntervals (by decide)⟩

/-- The lists on which `BuildIntervalTree` recurses hold intervals of its input. -/
theorem classify_subset (Mid : Int) (L : List FComponentActiveInterval) :
    (∀ I ∈ (ClassifyIntervals Mid L).1, I ∈ L) ∧
      (∀ I ∈ (ClassifyIntervals Mid L).2.1, I ∈ L) := by
  rw [classify_left, classify_right]
  exact ⟨fun I hI => (List.mem_filter.1 hI).1, fun I hI => (List.mem_filter.1 hI).1⟩

/-- Claim C28: on every list of intervals with `StartFrame <= EndFrame` the build returns
a tree, the same for every recursion budget of at least the length of the list; and when
the list is not empty, the node of the call keeps at least one interval, one that has the
median endpoint as a bound, and both lists of the recursive calls are strictly shorter
and hold intervals of the input only. -/
theorem C28_build_terminates (L : List FComponentActiveInterval)
    (hv : ∀ I ∈ L, I.StartFrame ≤ I.EndFrame) :
    (∃ T : FIntervalTreeNode, ∀ fuel, L.length ≤ fuel → BuildIntervalTree fuel L = some T) ∧
    (L ≠ [] →
      (∃ I ∈ (ClassifyIntervals (MidEndpoint L) L).2.2,
        I.StartFrame = MidEndpoint L ∨ I.EndFrame = MidEndpoint L) ∧
      (ClassifyIntervals (MidEndpoint L) L).1.length < L.length ∧
      (ClassifyIntervals (MidEndpoint L) L).2.1.length < L.length ∧
      (∀ I ∈ (ClassifyIntervals (MidEndpoint L) L).1, I ∈ L) ∧
      (∀ I ∈ (ClassifyIntervals (MidEndpoint L) L).2.1, I ∈ L)) := by
  refine ⟨?_, ?_⟩
  · obtain ⟨T, hT⟩ := build_isSome L.length L hv le_rfl
    exact ⟨T, fun fuel hfuel => build_fuel_mono L.length L T hT fuel hfuel⟩
  · intro hL
    exact ⟨classify_node_ne_nil hL hv, (classify_shorter hL hv).1, (classify_shorter hL hv).2,
      (classify_subset _ L).1, (classify_subset _ L).2⟩

/-- Claim C28 on three concrete intervals. -/
theorem C28_build_terminates_witness :
    (∃ T : FIntervalTreeNode,
      ∀ fuel, sampleIntervals.length ≤ fuel → BuildIntervalTree fuel sampleIntervals = some T) ∧
    (sampleIntervals ≠ [] →
      (∃ I ∈ (ClassifyIntervals (MidEndpoint sampleIntervals) sampleIntervals).2.2,
        I.StartFrame = MidEndpoint sampleIntervals ∨
          I.EndFrame = MidEndpoint sampleIntervals) ∧
      (ClassifyIntervals (MidEndpoint sampleIntervals) sampleIntervals).1.length <
        sampleIntervals.length ∧
      (ClassifyIntervals (MidEndpoint sampleIntervals) sampleIntervals).2.1.length <
        sampleIntervals.length ∧
      (∀ I ∈ (ClassifyIntervals (MidEndpoint sampleIntervals) sampleIntervals).1,
        I ∈ sampleIntervals) ∧
      (∀ I ∈ (ClassifyIntervals (MidEndpoint sampleIntervals) sampleIntervals).2.1,
        I ∈ sampleIntervals)) :=
  C28_build_terminates sampleIntervals (by decide)

/-- On one interval with `StartFrame > EndFrame` the build never returns: the median
endpoint is the start frame, the interval goes to the left list, and the recursive call
has the same input. -/
theorem build_inverted_none (I : FComponentActiveInterval) (h : I.EndFrame < I.StartFrame) :
    ∀ fuel, BuildIntervalTree fuel [I] = none := by
  have hmid : MidEndpoint [I] = I.StartFrame := by
    unfold MidEndpoint Endpoints Endpoints
    simp only [List.insertionSort, List.orderedInsert, List.length_cons, List.length_nil]
    rw [if_neg (not_le.mpr h)]
    rfl
  have hcl : ClassifyIntervals I.StartFrame [I] = ([I], [], []) := by
    simp only [ClassifyIntervals]
    rw [if_pos h]
  intro fuel
  induction fuel with
  | zero => rfl
  | succ n ih =>
    simp only [BuildIntervalTree, hmid, hcl, ih]
/-! ### Playback clock -/

theorem roundToFloat_zero : RoundToFloat 0 = 0 := by
  unfold RoundToFloat
  rw [if_pos rfl]

/-- With duration 5, rate -1, a start time between 0 and 10^6 and the clock 6 past the
start time, the time that single playback computes is negative. -/
theorem reverse_time_past_end (Start : ℚ) (h0 : 0 ≤ Start) (h1 : Start ≤ 1000000) :
    FloatAdd (FloatMul (FloatSub (RoundToFloat (Start + 6)) Start) (-1)) 5 < 0 := by
  have p20 : Pow2 (19 + 1) = 1048576 := by decide!
  have q20 : Pow2 (19 - 24) = 1 / 32 := by decide!
  have p3 : Pow2 (2 + 1) = 8 := by decide!
  have q3 : Pow2 (2 - 24) = 1 / 4194304 := by decide!
  have p1 : Pow2 (0 + 1) = 2 := by decide!
  have q1 : Pow2 (0 - 24) = 1 / 16777216 := by decide!
  have hN := roundToFloat_near (Start + 6) 19
    (by rw [p20, abs_of_nonneg (by linarith)]; linarith) (by norm_num)
  rw [q20, abs_le] at hN
  have hS := roundToFloat_near (RoundToFloat (Start + 6) - Start) 2
    (by rw [p3, abs_lt]; constructor <;> linarith) (by norm_num)
  rw [q3, abs_le] at hS
  have hM := roundToFloat_near (FloatSub (RoundToFloat (Start + 6)) Start * (-1)) 2
    (by unfold FloatSub; rw [p3, abs_lt]; constructor <;> linarith) (by norm_num)
  rw [q3, abs_le] at hM
  unfold FloatSub at hM
  have hA := roundToFloat_near
    (FloatMul (FloatSub (RoundToFloat (Start + 6)) Start) (-1) + 5) 0
    (by unfold FloatMul FloatSub; rw [p1, abs_lt]; constructor <;> linarith) (by norm_num)
  rw [q1, abs_le] at hA
  unfold FloatMul FloatSub at hA
  unfold FloatAdd FloatMul FloatSub
  linarith

/-- C15 (amended): with looping off and duration D > 0, `CalculatePlaybackTime` computes
e = (now - start) * rate in `float` arithmetic (the clock cast to `float`, then the
`float` subtraction and multiplication), adds D to it with the `float` addition when
rate < 0, returns false ("finished") exactly when the result lies outside [0, D] and
otherwise returns true with that result; for rate = -1 and D = 5 it returns 5 when the
clock stands at the start time (real elapsed 0), and for a start time between 0 and 10^6
seconds it reports finished at real elapsed 6. -/
theorem C15_single_playback_time (D Now Start Rate Out : ℚ) (hD : 0 < D) :
    ((CalculatePlaybackTime D Now Start Rate false Out).2 =
      if Rate < 0 then FloatAdd (FloatMul (FloatSub (RoundToFloat Now) Start) Rate) D
      else FloatMul (FloatSub (RoundToFloat Now) Start) Rate) ∧
    ((CalculatePlaybackTime D Now Start Rate false Out).1 = true ↔
      0 ≤ (CalculatePlaybackTime D Now Start Rate false Out).2 ∧
        (CalculatePlaybackTime D Now Start Rate false Out).2 ≤ D) ∧
    (RoundToFloat Start = Start →
      CalculatePlaybackTime 5 Start Start (-1) false Out = (true, 5)) ∧
    (0 ≤ Start → Start ≤ 1000000 →
      (CalculatePlaybackTime 5 (Start + 6) Start (-1) false Out).1 = false) := by
  have hnot : ¬ D ≤ 0 := not_le.mpr hD
  have h5 : ¬ (5 : ℚ) ≤ 0 := by norm_num
  have hrate : (-1 : ℚ) < 0 := by norm_num
  refine ⟨?_, ?_, ?_, ?_⟩
  · unfold CalculatePlaybackTime
    simp only [hnot, if_false, Bool.false_eq_true]
    split_ifs <;> rfl
  · unfold CalculatePlaybackTime
    simp only [hnot, if_false, Bool.false_eq_true]
    by_cases hout :
        (if Rate < 0 then FloatAdd (FloatMul (FloatSub (RoundToFloat Now) Start) Rate) D
          else FloatMul (FloatSub (RoundToFloat Now) Start) Rate) < 0 ∨
        (if Rate < 0 then FloatAdd (FloatMul (FloatSub (RoundToFloat Now) Start) Rate) D
          else FloatMul (FloatSub (RoundToFloat Now) Start) Rate) > D
    · rw [if_pos hout]
      simp only [Bool.false_eq_true, false_iff, not_and, not_le]
      intro h0
      rcases hout with h | h
      · exact absurd h0 (not_le.mpr h)
      · exact h
    · rw [if_neg hout]
      simp only [true_iff]
      rw [not_or, not_lt, not_lt] at hout
      exact hout
  · intro hS
    have hsub : FloatSub (RoundToFloat Start) Start = 0 := by
      rw [hS]
      unfold FloatSub
      rw [sub_self, roundToFloat_zero]
    have hmul : FloatMul 0 (-1) = 0 := by decide!
    have hadd : FloatAdd 0 5 = 5 := by decide!
    unfold CalculatePlaybackTime
    simp only [h5, if_false, Bool.false_eq_true, hrate, if_true, hsub, hmul, hadd]
    norm_num
  · intro h0 h1
    have hneg := reverse_time_past_end Start h0 h1
    unfold CalculatePlaybackTime
    simp only [h5, if_false, Bool.false_eq_true, hrate, if_true]
    rw [if_pos (Or.inl hneg)]

/-- Witness of C15 (amended): duration 5, rate -1, start time 0, clock at 6. -/
theorem C15_single_playback_time_witness :
    ((CalculatePlaybackTime 5 6 0 (-1) false 0).2 =
      if (-1 : ℚ) < 0 then FloatAdd (FloatMul (FloatSub (RoundToFloat 6) 0) (-1)) 5
      else FloatMul (FloatSub (RoundToFloat 6) 0) (-1)) ∧
    ((CalculatePlaybackTime 5 6 0 (-1) false 0).1 = true ↔
      0 ≤ (CalculatePlaybackTime 5 6 0 (-1) false 0).2 ∧
        (CalculatePlaybackTime 5 6 0 (-1) false 0).2 ≤ 5) ∧
    (RoundToFloat 0 = 0 → CalculatePlaybackTime 5 0 0 (-1) false 0 = (true, 5)) ∧
    ((0 : ℚ) ≤ 0 → (0 : ℚ) ≤ 1000000 →
      (CalculatePlaybackTime 5 (0 + 6) 0 (-1) false 0).1 = false) :=
  C15_single_playback_time 5 6 0 (-1) 0 (by norm_num)

/-- Claim C15 as stated fails, since the arithmetic is that of `float`. With duration 5,
rate 1, the start time `0.3f` and the clock at `5.3f`, the value (now - start) * rate is
greater than 5, outside [0, D], yet the `float` subtraction gives 5 and the function
returns true with the time 5. With duration 5, rate -1, the start time 2^27 and the clock
6 past it, the cast of the clock to `float` gives the start time again, the computed
elapsed time is 0 and the function returns true with the time 5 instead of reporting
finished. -/
theorem C15_playback_time_is_rounded :
    (5 : ℚ) < (float5_3 - float0_3) * 1 ∧
    FloatSub (RoundToFloat float5_3) float0_3 = 5 ∧
    CalculatePlaybackTime 5 float5_3 float0_3 1 false 0 = (true, 5) ∧
    RoundToFloat (134217728 + 6) = 134217728 ∧
    CalculatePlaybackTime 5 (134217728 + 6) 134217728 (-1) false 0 = (true, 5) := by
  refine ⟨?_, ?_, ?_, ?_, ?_⟩ <;> decide!

/-- Single playback on clock values of the examples, with duration 5, rate -1 and start
time 0: the time is 5 at clock 0, 3 at clock 2, and the playback is finished at clock 6
with the value -1. -/
theorem single_playback_examples :
    CalculatePlaybackTime 5 0 0 (-1) false 0 = (true, 5) ∧
    CalculatePlaybackTime 5 2 0 (-1) false 0 = (true, 3) ∧
    CalculatePlaybackTime 5 6 0 (-1) false 0 = (false, -1) := by
  refine ⟨?_, ?_, ?_⟩ <;> decide!

theorem fmod_of_small (X Y : ℚ) (h : |Y| ≤ SMALL_NUMBER) : Fmod X Y = 0 := by
  unfold Fmod
  rw [if_pos h]

theorem fmod_of_large (X Y : ℚ) (h : SMALL_NUMBER < Y) :
    Fmod X Y = X - (TruncToInt (X / Y) : ℚ) * Y := by
  unfold Fmod
  have hpos : 0 < Y := lt_trans (by unfold SMALL_NUMBER; norm_num) h
  rw [if_neg (by rw [abs_of_pos hpos]; exact not_le.mpr h)]

/-- The remainder of a non-negative number lies in `[0, Y)`. -/
theorem fmod_nonneg_range (X Y : ℚ) (hY : SMALL_NUMBER < Y) (hX : 0 ≤ X / Y) :
    0 ≤ Fmod X Y ∧ Fmod X Y < Y := by
  have hpos : 0 < Y := lt_trans (by unfold SMALL_NUMBER; norm_num) hY
  rw [fmod_of_large X Y hY]
  have hq : X / Y * Y = X := div_mul_cancel₀ X (ne_of_gt hpos)
  have hT : TruncToInt (X / Y) = ⌊X / Y⌋ := by
    unfold TruncToInt
    rw [if_pos hX]
  rw [hT]
  have h1 : ((⌊X / Y⌋ : Int) : ℚ) ≤ X / Y := Int.floor_le _
  have h2 : X / Y < ((⌊X / Y⌋ : Int) : ℚ) + 1 := Int.lt_floor_add_one _
  have e : X - ((⌊X / Y⌋ : Int) : ℚ) * Y = (X / Y - ((⌊X / Y⌋ : Int) : ℚ)) * Y := by
    rw [sub_mul, hq]
  rw [e]
  constructor
  · exact mul_nonneg (by linarith) (le_of_lt hpos)
  · calc (X / Y - ((⌊X / Y⌋ : Int) : ℚ)) * Y < 1 * Y :=
          mul_lt_mul_of_pos_right (by linarith) hpos
      _ = Y := one_mul Y

/-- The remainder of a negative number lies in `(-Y, 0]`. -/
theorem fmod_neg_range (X Y : ℚ) (hY : SMALL_NUMBER < Y) (hX : ¬ 0 ≤ X / Y) :
    -Y < Fmod X Y ∧ Fmod X Y ≤ 0 := by
  have hpos : 0 < Y := lt_trans (by unfold SMALL_NUMBER; norm_num) hY
  rw [fmod_of_large X Y hY]
  have hq : X / Y * Y = X := div_mul_cancel₀ X (ne_of_gt hpos)
  have hT : TruncToInt (X / Y) = ⌈X / Y⌉ := by
    unfold TruncToInt
    rw [if_neg hX]
  rw [hT]
  have h1 : X / Y ≤ ((⌈X / Y⌉ : Int) : ℚ) := Int.le_ceil _
  have h2 : ((⌈X / Y⌉ : Int) : ℚ) < X / Y + 1 := Int.ceil_lt_add_one _
  have e : X - ((⌈X / Y⌉ : Int) : ℚ) * Y = (X / Y - ((⌈X / Y⌉ : Int) : ℚ)) * Y := by
    rw [sub_mul, hq]
  rw [e]
  constructor
  · calc -Y = (-1) * Y := by ring
      _ < (X / Y - ((⌈X / Y⌉ : Int) : ℚ)) * Y :=
          mul_lt_mul_of_pos_right (by linarith) hpos
  · exact mul_nonpos_of_nonpos_of_nonneg (by linarith) (le_of_lt hpos)

/-- Looping playback with a positive duration always succeeds, and the time it returns
is not negative. -/
theorem looping_playback_succeeds (D Now Start Rate Out : ℚ) (hD : 0 < D) :
    (CalculatePlaybackTime D Now Start Rate true Out).1 = true ∧
    0 ≤ (CalculatePlaybackTime D Now Start Rate true Out).2 := by
  have hnot : ¬ D ≤ 0 := not_le.mpr hD
  unfold CalculatePlaybackTime
  simp only [hnot, if_false, if_true]
  refine ⟨trivial, ?_⟩
  by_cases hneg : Fmod (FloatMul (FloatSub (RoundToFloat Now) Start) Rate) D < 0
  · rw [if_pos hneg]
    by_cases hs : SMALL_NUMBER < D
    · by_cases hX : 0 ≤ FloatMul (FloatSub (RoundToFloat Now) Start) Rate / D
      · exact absurd hneg (not_lt.mpr (fmod_nonneg_range _ D hs hX).1)
      · have h0 := (fmod_neg_range _ D hs hX).1
        unfold FloatAdd
        exact roundToFloat_nonneg _ (by linarith)
    · have hsmall : |D| ≤ SMALL_NUMBER := by
        rw [abs_of_pos hD]
        exact not_lt.mp hs
      rw [fmod_of_small _ _ hsmall] at hneg
      exact absurd hneg (lt_irrefl 0)
  · rw [if_neg hneg]
    exact not_lt.mp hneg

/-- Claim C16 fails: with looping on, duration 300, rate -1, start time 0 and the clock at
2^-17 (7.6e-6) the elapsed time is -2^-17, `FMath::Fmod` leaves it as it is, and the
`float` addition of 300 gives 300, the `float` values next to 300 being 2^-15 apart: the
returned time is the duration itself, which is outside `[0, Duration)`. The same happens
with the start time 10 and the clock at 10 + 2^-17, and with the start time 0 and the
clock at the `float` nearest to 1e-5. -/
theorem C16_looping_time_reaches_duration :
    FloatMul (FloatSub (RoundToFloat (1 / 131072)) 0) (-1) = -(1 / 131072) ∧
    Fmod (-(1 / 131072)) 300 = -(1 / 131072) ∧
    FloatAdd (-(1 / 131072)) 300 = 300 ∧
    CalculatePlaybackTime 300 (1 / 131072) 0 (-1) true 0 = (true, 300) ∧
    CalculatePlaybackTime 300 (10 + 1 / 131072) 10 (-1) true 0 = (true, 300) ∧
    RoundToFloat (1 / 100000) = 2748779 / 274877906944 ∧
    CalculatePlaybackTime 300 (2748779 / 274877906944) 0 (-1) true 0 = (true, 300) := by
  refine ⟨?_, ?_, ?_, ?_, ?_, ?_, ?_⟩ <;> decide!

/-- Looping playback with a duration that is not greater than `SMALL_NUMBER`: duration
2^-30, rate 1, start time 0 and the clock at 2^-31. `FMath::Fmod` returns 0, and the
returned time 0 differs from the elapsed time by half a duration, which is no integer
multiple of it. -/
theorem looping_tiny_duration_not_wrapped :
    CalculatePlaybackTime (1 / 1073741824) (1 / 2147483648) 0 1 true 0 = (true, 0) ∧
    FloatMul (FloatSub (RoundToFloat (1 / 2147483648)) 0) 1 = 1 / 2147483648 ∧
    ¬ ∃ k : Int, (0 : ℚ) = (1 : ℚ) / 2147483648 + (k : ℚ) * ((1 : ℚ) / 1073741824) := by
  refine ⟨by decide!, by decide!, ?_⟩
  rintro ⟨k, hk⟩
  have h2 : (2 * (k : ℚ) + 1) = 0 := by
    field_simp at hk
    linarith
  have h3 : (2 * k + 1 : Int) = 0 := by
    exact_mod_cast h2
  omega

/-! ### Playback component -/

/-- On a range sorted by the projection, `UpperBoundBy` returns an index within the range
such that every element before it is not greater than the value and every element from
it on is greater. -/
theorem upperBoundBy_spec {α κ : Type} [LinearOrder κ] (Range : List α) (Value : κ)
    (Projection : α → κ)
    (hs : Range.Pairwise (fun a b => Projection a ≤ Projection b)) :
    UpperBoundBy Range Value Projection ≤ Range.length ∧
    (∀ i (h : i < Range.length), i < UpperBoundBy Range Value Projection →
      Projection (Range.get ⟨i, h⟩) ≤ Value) ∧
    (∀ i (h : i < Range.length), UpperBoundBy Range Value Projection ≤ i →
      Value < Projection (Range.get ⟨i, h⟩)) :=
  upperBoundLoop_spec Range Value Projection hs Range.length 0 Range.length le_rfl
    (by omega) (fun i _ hi => absurd hi (Nat.not_lt_zero _)) (fun i h hi => absurd h (by omega))

/-- The frame index that `UpdatePlaybackToTime` selects for a time inside a clip of at
least two samples with non-decreasing time stamps: the samples at the index and after it
exist and bracket the time. -/
theorem newFrameIndex_brackets (Frames : List FRecordFrame) (t : ℚ) (First Last : FRecordFrame)
    (hN : 2 ≤ Frames.length)
    (hs : Frames.Pairwise (fun a b => a.TimeStamp ≤ b.TimeStamp))
    (hF : Frames.head? = some First) (hL : Frames.getLast? = some Last)
    (h1 : First.TimeStamp ≤ t) (h2 : t ≤ Last.TimeStamp) :
    ∃ (j : Nat) (hj : j + 1 < Frames.length),
      NewFrameIndex Frames t = (j : Int) ∧
      (Frames.get ⟨j, by omega⟩).TimeStamp ≤ t ∧
      t ≤ (Frames.get ⟨j + 1, hj⟩).TimeStamp := by
  obtain ⟨hle, hlo, hhi⟩ := upperBoundBy_spec Frames t (fun F => F.TimeStamp) hs
  have hFirst : Frames.get ⟨0, by omega⟩ = First := by
    rw [List.head?_eq_getElem?, List.getElem?_eq_getElem (by omega)] at hF
    exact Option.some.inj hF
  have hLast : Frames.get ⟨Frames.length - 1, by omega⟩ = Last := by
    rw [List.getLast?_eq_getElem?, List.getElem?_eq_getElem (by omega)] at hL
    exact Option.some.inj hL
  have hu1 : 1 ≤ UpperBoundBy Frames t (fun F => F.TimeStamp) := by
    by_contra hcon
    have h0 : UpperBoundBy Frames t (fun F => F.TimeStamp) ≤ 0 := by omega
    have := hhi 0 (by omega) h0
    rw [hFirst] at this
    exact absurd h1 (not_le.mpr this)
  by_cases hcase : UpperBoundBy Frames t (fun F => F.TimeStamp) + 1 ≤ Frames.length
  · refine ⟨UpperBoundBy Frames t (fun F => F.TimeStamp) - 1, by omega, ?_, ?_, ?_⟩
    · unfold NewFrameIndex Clamp
      simp only []
      rw [min_eq_left (by omega), max_eq_left (by omega)]
      omega
    · exact hlo _ (by omega) (by omega)
    · have := hhi (UpperBoundBy Frames t (fun F => F.TimeStamp) - 1 + 1) (by omega) (by omega)
      exact le_of_lt this
  · have hu : UpperBoundBy Frames t (fun F => F.TimeStamp) = Frames.length := by omega
    refine ⟨Frames.length - 2, by omega, ?_, ?_, ?_⟩
    · unfold NewFrameIndex Clamp
      simp only []
      rw [hu, min_eq_right (by omega), max_eq_left (by omega)]
      omega
    · exact hlo _ (by omega) (by omega)
    · have he : (⟨Frames.length - 2 + 1, by omega⟩ : Fin Frames.length) =
          ⟨Frames.length - 1, by omega⟩ := by
        apply Fin.ext
        show Frames.length - 2 + 1 = Frames.length - 1
        omega
      rw [he, hLast]
      exact h2

theorem seekFrame_fields (P : UPlayComponent) (FrameIndex : Int) :
    (SeekFrame P FrameIndex).ReplayData = P.ReplayData ∧
    (SeekFrame P FrameIndex).CurrentFrame = P.CurrentFrame ∧
    (SeekFrame P FrameIndex).IntervalRoot = P.IntervalRoot ∧
    (SeekFrame P FrameIndex).PlaybackRate = P.PlaybackRate ∧
    (SeekFrame P FrameIndex).bActorHiddenInGame = P.bActorHiddenInGame ∧
    (SeekFrame P FrameIndex).AppliedPose = P.AppliedPose := by
  unfold SeekFrame
  split_ifs <;> exact ⟨rfl, rfl, rfl, rfl, rfl, rfl⟩

theorem frameAt_natCast (Frames : List FRecordFrame) (j : Nat) (hj : j < Frames.length) :
    FrameAt Frames (j : Int) = some (Frames.get ⟨j, hj⟩) := by
  unfold FrameAt
  rw [if_pos (Int.natCast_nonneg j), Int.toNat_natCast, List.get?_eq_get hj]

theorem ite_seekFrame_fields (c : Prop) [Decidable c] (P : UPlayComponent) (k : Int) :
    (if c then SeekFrame P k else P).CurrentFrame = P.CurrentFrame ∧
    (if c then SeekFrame P k else P).bActorHiddenInGame = P.bActorHiddenInGame := by
  split_ifs
  · exact ⟨(seekFrame_fields P k).2.1, (seekFrame_fields P k).2.2.2.2.1⟩
  · exact ⟨rfl, rfl⟩

/-- Claim C24: for a clip with at least two samples with non-decreasing time stamps and a
time `t` between the first and the last time stamp, `UpdatePlaybackToTime` returns, shows
the actor, and selects a frame index `i` with `0 <= i <= N - 2` whose sample `Prev` and the
sample `Next` after it exist and satisfy `Prev.TimeStamp <= t <= Next.TimeStamp`; these
two samples are the ones it interpolates. -/
theorem C24_update_selects_bracketing_pair (P : UPlayComponent) (t : ℚ)
    (First Last : FRecordFrame)
    (hN : 2 ≤ P.ReplayData.RecordedFrames.length)
    (hs : P.ReplayData.RecordedFrames.Pairwise (fun a b => a.TimeStamp ≤ b.TimeStamp))
    (hF : P.ReplayData.RecordedFrames.head? = some First)
    (hL : P.ReplayData.RecordedFrames.getLast? = some Last)
    (h1 : First.TimeStamp ≤ t) (h2 : t ≤ Last.TimeStamp) :
    ∃ (Q : UPlayComponent) (Prev Next : FRecordFrame),
      UpdatePlaybackToTime P t = some Q ∧
      Q.bActorHiddenInGame = false ∧
      Q.CurrentFrame = NewFrameIndex P.ReplayData.RecordedFrames t ∧
      0 ≤ Q.CurrentFrame ∧
      Q.CurrentFrame ≤ (P.ReplayData.RecordedFrames.length : Int) - 2 ∧
      FrameAt P.ReplayData.RecordedFrames Q.CurrentFrame = some Prev ∧
      FrameAt P.ReplayData.RecordedFrames (Q.CurrentFrame + 1) = some Next ∧
      Prev.TimeStamp ≤ t ∧ t ≤ Next.TimeStamp ∧
      Q.AppliedPose = some (Prev, Next, InterpolationAlpha Prev Next t) := by
  obtain ⟨j, hj, hidx, hprev, hnext⟩ :=
    newFrameIndex_brackets P.ReplayData.RecordedFrames t First Last hN hs hF hL h1 h2
  have hne : P.ReplayData.RecordedFrames.isEmpty = false := by
    cases hfr : P.ReplayData.RecordedFrames with
    | nil => rw [hfr] at hN; simp at hN
    | cons a rest => rfl
  have hhid : (P.ReplayData.RecordedFrames.isEmpty || decide (t < First.TimeStamp) ||
      decide (t > Last.TimeStamp)) = false := by
    rw [hne]
    simp only [Bool.false_or, Bool.or_eq_false_iff, decide_eq_false_iff_not, not_lt]
    exact ⟨h1, h2⟩
  have hprevAt := frameAt_natCast P.ReplayData.RecordedFrames j (by omega)
  have hnextAt := frameAt_natCast P.ReplayData.RecordedFrames (j + 1) hj
  have hcast : ((j + 1 : Nat) : Int) = (j : Int) + 1 := by push_cast; rfl
  rw [hcast] at hnextAt
  have hite := ite_seekFrame_fields (P.CurrentFrame ≠ (j : Int))
    { P with bActorHiddenInGame := false, CurrentFrame := (j : Int) } (j : Int)
  simp only [] at hite
  unfold UpdatePlaybackToTime
  simp only [hF, hL, hhid, if_neg (not_lt.mpr hN), Bool.false_eq_true, if_false]
  rw [hidx, hite.1, hprevAt, hnextAt]
  simp only []
  have hj2 : (j : Int) ≤ (P.ReplayData.RecordedFrames.length : Int) - 2 := by omega
  exact ⟨_, _, _, rfl, hite.2, rfl, Int.natCast_nonneg j, hj2, hprevAt, hnextAt, hprev,
    hnext, rfl⟩

/-- Claim C24 on the example clip at the time 3/2: the frame index 1 is selected. -/
theorem C24_update_selects_bracketing_pair_witness :
    ∃ (Q : UPlayComponent) (Prev Next : FRecordFrame),
      UpdatePlaybackToTime samplePlayer (3 / 2) = some Q ∧
      Q.bActorHiddenInGame = false ∧
      Q.CurrentFrame = NewFrameIndex samplePlayer.ReplayData.RecordedFrames (3 / 2) ∧
      0 ≤ Q.CurrentFrame ∧
      Q.CurrentFrame ≤ (samplePlayer.ReplayData.RecordedFrames.length : Int) - 2 ∧
      FrameAt samplePlayer.ReplayData.RecordedFrames Q.CurrentFrame = some Prev ∧
      FrameAt samplePlayer.ReplayData.RecordedFrames (Q.CurrentFrame + 1) = some Next ∧
      Prev.TimeStamp ≤ 3 / 2 ∧ (3 / 2 : ℚ) ≤ Next.TimeStamp ∧
      Q.AppliedPose = some (Prev, Next, InterpolationAlpha Prev Next (3 / 2)) :=
  C24_update_selects_bracketing_pair samplePlayer (3 / 2) (frameAt 0 0) (frameAt 3 3)
    (by decide) (by decide!) (by decide!) (by decide!) (by decide!) (by decide!)

/-- The names of the intervals that a query on a built tree returns at a frame contain a
name exactly when some interval of the input with that name contains the frame. -/
theorem alive_contains (fuel : Nat) (L : List FComponentActiveInterval)
    (T : FIntervalTreeNode) (hT : BuildIntervalTree fuel L = some T) (f : Int)
    (Name : String) :
    ((QueryIntervalTree T f []).map (fun Interval => Interval.Meta.ComponentName)).contains
      Name = ActiveAt L Name f := by
  have hperm := query_build_perm fuel L T hT f
  rw [Bool.eq_iff_iff, List.contains_iff_exists_mem_beq]
  unfold ActiveAt
  rw [List.any_eq_true]
  constructor
  · rintro ⟨n, hn, hbeq⟩
    obtain ⟨I, hI, rfl⟩ := List.mem_map.1 hn
    have hI2 : I ∈ LinearScan L f := hperm.mem_iff.1 hI
    unfold LinearScan at hI2
    obtain ⟨hIL, hcov⟩ := List.mem_filter.1 hI2
    refine ⟨I, hIL, ?_⟩
    unfold Covers at hcov
    have hname : I.Meta.ComponentName = Name := (beq_iff_eq.1 hbeq).symm
    simp only [Bool.and_eq_true, decide_eq_true_eq] at hcov ⊢
    exact ⟨⟨hname, hcov.1⟩, hcov.2⟩
  · rintro ⟨I, hIL, hI⟩
    simp only [Bool.and_eq_true, decide_eq_true_eq] at hI
    have hI2 : I ∈ LinearScan L f := by
      unfold LinearScan
      refine List.mem_filter.2 ⟨hIL, ?_⟩
      unfold Covers
      simp only [Bool.and_eq_true, decide_eq_true_eq]
      exact ⟨hI.1.2, hI.2⟩
    refine ⟨I.Meta.ComponentName, List.mem_map.2 ⟨I, hperm.mem_iff.2 hI2, rfl⟩, ?_⟩
    exact beq_iff_eq.2 hI.1.1.symm

/-- The loop body of `SeekFrame` toggles a component exactly when its visibility differs
from the membership of its name in the alive names. -/
theorem seekComponent_eq (AliveComponentNames : List String)
    (Pair : String × Option USceneComponent) :
    SeekComponent AliveComponentNames Pair =
      ToggleTo Pair (AliveComponentNames.contains Pair.1) := by
  unfold SeekComponent ToggleTo
  cases Pair.2 with
  | none => rfl
  | some Component =>
    simp only []
    by_cases h : Component.bVisible = AliveComponentNames.contains Pair.1
    · rw [if_pos h, if_neg (fun hne => hne h.symm)]
    · rw [if_neg h, if_pos (fun heq => h heq.symm)]

/-- A component that went through `ToggleTo` is visible exactly when it is active. -/
theorem toggleTo_visible (Pair : String × Option USceneComponent) (bActive : Bool)
    (Name : String) (Component : USceneComponent)
    (h : ToggleTo Pair bActive = (Name, some Component)) :
    Name = Pair.1 ∧ Component.bVisible = bActive := by
  unfold ToggleTo at h
  cases hp : Pair.2 with
  | none =>
    rw [hp] at h
    simp only [] at h
    rw [h] at hp
    simp at hp
  | some C =>
    rw [hp] at h
    simp only [] at h
    by_cases hv : C.bVisible = bActive
    · rw [if_pos hv] at h
      rw [h] at hp
      simp only [Option.some.injEq] at hp
      rw [h]
      exact ⟨rfl, hp ▸ hv⟩
    · rw [if_neg hv] at h
      simp only [Prod.mk.injEq, Option.some.injEq] at h
      exact ⟨h.1.symm, h.2 ▸ rfl⟩

/-- The reconstructed components after a seek to a frame inside the clip, when the tree of
the component is the one built from the intervals of the clip. -/
theorem seekFrame_components (P : UPlayComponent) (fuel : Nat) (f : Int)
    (hroot : BuildIntervalTree fuel P.ReplayData.ComponentIntervals = some P.IntervalRoot)
    (hf0 : 0 ≤ f) (hf1 : f < P.ReplayData.RecordedFrames.length) :
    (SeekFrame P f).ReconstructedComponents =
      P.ReconstructedComponents.map
        (fun Pair => ToggleTo Pair (ActiveAt P.ReplayData.ComponentIntervals Pair.1 f)) := by
  unfold SeekFrame
  rw [if_neg (by push_neg; exact ⟨hf0, hf1⟩)]
  simp only []
  apply List.map_congr_left
  intro Pair _
  rw [seekComponent_eq, alive_contains fuel _ _ hroot]

/-- Claim C26: for a frame index `f` inside the clip, `SeekFrame(f)` toggles exactly the
reconstructed sub-parts whose visibility differs from whether some interval with their
name contains `f` and leaves every other sub-part as it is; afterwards every sub-part is
visible exactly when it is active at `f`. The tree of the component is the one that
`Initialize` builds from the intervals of the clip. -/
theorem C26_seek_toggles_changed_components (P : UPlayComponent) (fuel : Nat) (f : Int)
    (hroot : BuildIntervalTree fuel P.ReplayData.ComponentIntervals = some P.IntervalRoot)
    (hf0 : 0 ≤ f) (hf1 : f < P.ReplayData.RecordedFrames.length) :
    (SeekFrame P f).ReconstructedComponents =
      P.ReconstructedComponents.map
        (fun Pair => ToggleTo Pair (ActiveAt P.ReplayData.ComponentIntervals Pair.1 f)) ∧
    (∀ (Name : String) (Component : USceneComponent),
      (Name, some Component) ∈ (SeekFrame P f).ReconstructedComponents →
        Component.bVisible = ActiveAt P.ReplayData.ComponentIntervals Name f) ∧
    (SeekFrame P f).ReplayData = P.ReplayData ∧
    (SeekFrame P f).CurrentFrame = P.CurrentFrame := by
  have hc := seekFrame_components P fuel f hroot hf0 hf1
  refine ⟨hc, ?_, (seekFrame_fields P f).1, (seekFrame_fields P f).2.1⟩
  intro Name Component hmem
  rw [hc] at hmem
  obtain ⟨Pair, _, hPair⟩ := List.mem_map.1 hmem
  obtain ⟨hn, hv⟩ := toggleTo_visible Pair _ Name Component hPair
  rw [hv, hn]

/-- Claim C26 on the example component, whose two sub-parts are visible, at frame 2:
the sub-part `Sword` is toggled, the sub-part `Body` is left as it is. -/
theorem C26_seek_toggles_changed_components_witness :
    (SeekFrame samplePlayer 2).ReconstructedComponents =
      samplePlayer.ReconstructedComponents.map
        (fun Pair =>
          ToggleTo Pair (ActiveAt samplePlayer.ReplayData.ComponentIntervals Pair.1 2)) ∧
    (∀ (Name : String) (Component : USceneComponent),
      (Name, some Component) ∈ (SeekFrame samplePlayer 2).ReconstructedComponents →
        Component.bVisible = ActiveAt samplePlayer.ReplayData.ComponentIntervals Name 2) ∧
    (SeekFrame samplePlayer 2).ReplayData = samplePlayer.ReplayData ∧
    (SeekFrame samplePlayer 2).CurrentFrame = samplePlayer.CurrentFrame :=
  C26_seek_toggles_changed_components samplePlayer 2 2 (by decide!) (by decide)
    (by decide!)

/-- Claim C27 fails for a playback rate that is not positive: `Initialize` with the rate
-1 on a clip of four samples sets the current frame index to 2 and seeks to frame 0, so
the sub-part `Sword`, active at frame 0 only, is visible at the current frame index 2;
`UpdatePlaybackToTime` at the times 3 and 5/2 selects the frame index 2 again, does not
seek, and leaves `Sword` visible. With the rate 1 the current frame index is 0. -/
theorem C27_reverse_playback_starts_with_visibility_of_frame_zero :
    reversePlayer.map FrameAndVisibility =
      some (2, [("Body", some true), ("Sword", some true)]) ∧
    (reversePlayer.bind fun P => UpdatePlaybackToTime P 3).map FrameAndVisibility =
      some (2, [("Body", some true), ("Sword", some true)]) ∧
    (reversePlayer.bind fun P => UpdatePlaybackToTime P (5 / 2)).map FrameAndVisibility =
      some (2, [("Body", some true), ("Sword", some true)]) ∧
    ActiveAt swordClip.ComponentIntervals "Sword" 2 = false ∧
    forwardPlayer.map FrameAndVisibility =
      some (0, [("Body", some true), ("Sword", some true)]) := by
  refine ⟨?_, ?_, ?_, ?_, ?_⟩ <;> decide!

/-- The tree of a component that `Initialize` returns is the one built from the intervals
of its clip. -/
theorem initialize_root (fuel : Nat)
    (CreateComponentFromRecord : FComponentRecord → Option USceneComponent)
    (InReplayData : FRecordActorSaveData) (PlaybackRate : ℚ) (P : UPlayComponent)
    (h : UPlayComponent.Initialize fuel CreateComponentFromRecord InReplayData PlaybackRate
      = some P) :
    BuildIntervalTree fuel P.ReplayData.ComponentIntervals = some P.IntervalRoot := by
  unfold UPlayComponent.Initialize at h
  cases hT : BuildIntervalTree fuel InReplayData.ComponentIntervals with
  | none => simp [hT] at h
  | some T =>
    simp only [hT, Option.some.injEq] at h
    rw [← h, (seekFrame_fields _ _).1, (seekFrame_fields _ _).2.2.1]
    exact hT

/-- After a seek to a frame inside the clip that is the current frame index, every
sub-part is visible exactly when it is active at the current frame index. -/
theorem seekFrame_visibleIffActive (P : UPlayComponent) (fuel : Nat)
    (hroot : BuildIntervalTree fuel P.ReplayData.ComponentIntervals = some P.IntervalRoot)
    (hf0 : 0 ≤ P.CurrentFrame) (hf1 : P.CurrentFrame < P.ReplayData.RecordedFrames.length) :
    VisibleIffActive (SeekFrame P P.CurrentFrame) := by
  intro Name Component hmem
  rw [seekFrame_components P fuel _ hroot hf0 hf1] at hmem
  obtain ⟨Pair, _, hPair⟩ := List.mem_map.1 hmem
  obtain ⟨hn, hv⟩ := toggleTo_visible Pair _ Name Component hPair
  rw [(seekFrame_fields _ _).1, (seekFrame_fields _ _).2.1, hv, hn]

/-- With a positive playback rate and a clip that is not empty, `Initialize` leaves every
sub-part visible exactly when it is active at the current frame index, which is 0. -/
theorem initialize_forward_visibleIffActive (fuel : Nat)
    (CreateComponentFromRecord : FComponentRecord → Option USceneComponent)
    (InReplayData : FRecordActorSaveData) (PlaybackRate : ℚ) (P : UPlayComponent)
    (hrate : 0 < PlaybackRate) (hN : 1 ≤ InReplayData.RecordedFrames.length)
    (h : UPlayComponent.Initialize fuel CreateComponentFromRecord InReplayData PlaybackRate
      = some P) :
    P.CurrentFrame = 0 ∧ VisibleIffActive P := by
  unfold UPlayComponent.Initialize at h
  cases hT : BuildIntervalTree fuel InReplayData.ComponentIntervals with
  | none => simp [hT] at h
  | some T =>
    simp only [hT, Option.some.injEq, if_pos (show PlaybackRate > 0 from hrate)] at h
    rw [← h]
    refine ⟨(seekFrame_fields _ _).2.1, ?_⟩
    exact seekFrame_visibleIffActive
      { ReplayData := InReplayData, PlaybackRate := PlaybackRate, CurrentFrame := 0,
        ReconstructedComponents :=
          CreateComponents CreateComponentFromRecord InReplayData.ComponentIntervals [],
        IntervalRoot := T, bActorHiddenInGame := false, AppliedPose := none }
      fuel hT (le_refl _)
      (by show (0 : Int) < ((InReplayData.RecordedFrames.length : Nat) : Int); omega)

/-- An update to a time inside the clip keeps the sub-parts visible exactly when they are
active at the current frame index, once they are. -/
theorem update_visibleIffActive (P Q : UPlayComponent) (fuel : Nat) (t : ℚ)
    (First Last : FRecordFrame)
    (hroot : BuildIntervalTree fuel P.ReplayData.ComponentIntervals = some P.IntervalRoot)
    (hinv : VisibleIffActive P)
    (hN : 2 ≤ P.ReplayData.RecordedFrames.length)
    (hs : P.ReplayData.RecordedFrames.Pairwise (fun a b => a.TimeStamp ≤ b.TimeStamp))
    (hF : P.ReplayData.RecordedFrames.head? = some First)
    (hL : P.ReplayData.RecordedFrames.getLast? = some Last)
    (h1 : First.TimeStamp ≤ t) (h2 : t ≤ Last.TimeStamp)
    (hQ : UpdatePlaybackToTime P t = some Q) :
    VisibleIffActive Q ∧
      BuildIntervalTree fuel Q.ReplayData.ComponentIntervals = some Q.IntervalRoot := by
  obtain ⟨j, hj, hidx, -, -⟩ :=
    newFrameIndex_brackets P.ReplayData.RecordedFrames t First Last hN hs hF hL h1 h2
  have hne : P.ReplayData.RecordedFrames.isEmpty = false := by
    cases hfr : P.ReplayData.RecordedFrames with
    | nil => rw [hfr] at hN; simp at hN
    | cons a rest => rfl
  have hhid : (P.ReplayData.RecordedFrames.isEmpty || decide (t < First.TimeStamp) ||
      decide (t > Last.TimeStamp)) = false := by
    rw [hne]
    simp only [Bool.false_or, Bool.or_eq_false_iff, decide_eq_false_iff_not, not_lt]
    exact ⟨h1, h2⟩
  have hprevAt := frameAt_natCast P.ReplayData.RecordedFrames j (by omega)
  have hnextAt := frameAt_natCast P.ReplayData.RecordedFrames (j + 1) hj
  have hcast : ((j + 1 : Nat) : Int) = (j : Int) + 1 := by push_cast; rfl
  rw [hcast] at hnextAt
  have hite := ite_seekFrame_fields (P.CurrentFrame ≠ (j : Int))
    { P with bActorHiddenInGame := false, CurrentFrame := (j : Int) } (j : Int)
  simp only [] at hite
  unfold UpdatePlaybackToTime at hQ
  simp only [hF, hL, hhid, if_neg (not_lt.mpr hN), Bool.false_eq_true, if_false] at hQ
  rw [hidx, hite.1, hprevAt, hnextAt] at hQ
  simp only [Option.some.injEq] at hQ
  rw [← hQ]
  by_cases hchg : P.CurrentFrame ≠ (j : Int)
  · simp only [if_pos hchg]
    have hseek := seekFrame_visibleIffActive
      { P with bActorHiddenInGame := false, CurrentFrame := (j : Int) } fuel hroot
      (Int.natCast_nonneg j)
      (by show (j : Int) < ((P.ReplayData.RecordedFrames.length : Nat) : Int); omega)
    refine ⟨?_, ?_⟩
    · intro Name Component hmem
      have := hseek Name Component hmem
      rw [(seekFrame_fields _ _).1, (seekFrame_fields _ _).2.1] at this
      rw [this]
      show _ = ActiveAt (SeekFrame _ _).ReplayData.ComponentIntervals Name _
      rw [(seekFrame_fields _ _).1]
    · show BuildIntervalTree fuel (SeekFrame _ _).ReplayData.ComponentIntervals =
        some (SeekFrame _ _).IntervalRoot
      rw [(seekFrame_fields _ _).1, (seekFrame_fields _ _).2.2.1]
      exact hroot
  · simp only [if_neg hchg]
    have hcur : P.CurrentFrame = (j : Int) := not_not.1 hchg
    refine ⟨?_, hroot⟩
    intro Name Component hmem
    have := hinv Name Component hmem
    rw [hcur] at this
    exact this
/-! ### Clip cooker -/

theorem keptSamples_cons (ClipStartTime : ℚ) (F : FRecordFrame) (rest : List FRecordFrame) :
    KeptSamples ClipStartTime (F :: rest) =
      if F.TimeStamp - ClipStartTime < 0 then KeptSamples ClipStartTime rest
      else { F with TimeStamp := F.TimeStamp - ClipStartTime } ::
        KeptSamples ClipStartTime rest := by
  simp only [KeptSamples, List.filter_cons, decide_eq_true_eq, ge_iff_le]
  by_cases h : F.TimeStamp - ClipStartTime < 0
  · rw [if_pos h, if_neg (not_le.mpr h)]
  · rw [if_neg h, if_pos (not_lt.mp h), List.map_cons]

theorem drainQueue_fst (ClipStartTime : ℚ) (Queue : List FRecordFrame) :
    ∀ acc : List FRecordFrame × Int,
      (DrainQueue ClipStartTime Queue acc).1 = acc.1 ++ KeptSamples ClipStartTime Queue := by
  induction Queue with
  | nil => intro acc; simp [DrainQueue, KeptSamples]
  | cons F rest ih =>
    intro acc
    simp only [DrainQueue, keptSamples_cons]
    by_cases h : F.TimeStamp - ClipStartTime < 0
    · rw [if_pos h, if_pos h, ih]
    · rw [if_neg h, if_neg h, ih, List.append_assoc]
      rfl

/-- The return value of the cooker in terms of the kept samples. -/
theorem cook_success_iff (SamplingInterval ClipStartTime : ℚ)
    (FrameQueue : TCircularQueue) (OutGhostSaveData : FRecordActorSaveData)
    (OutComponentIntervals : List FComponentActiveInterval) :
    (CookQueuedFrames SamplingInterval ClipStartTime FrameQueue OutGhostSaveData
        OutComponentIntervals).Success = true ↔
      2 ≤ (KeptSamples ClipStartTime FrameQueue.Items).length := by
  unfold CookQueuedFrames
  cases hq : FrameQueue.Items with
  | nil => simp [KeptSamples]
  | cons F rest =>
    simp only []
    have hk := drainQueue_fst ClipStartTime (F :: rest) ([], -1)
    simp only [List.nil_append] at hk
    by_cases h2 : (DrainQueue ClipStartTime (F :: rest) ([], -1)).1.length < 2
    · rw [if_pos h2]
      rw [hk] at h2
      simp only [Bool.false_eq_true, false_iff, not_le]
      exact h2
    · rw [if_neg h2]
      rw [hk] at h2
      simp only [true_iff]
      omega

/-- The samples of the clip after a successful cook. -/
theorem cook_frames (SamplingInterval ClipStartTime : ℚ)
    (FrameQueue : TCircularQueue) (OutGhostSaveData : FRecordActorSaveData)
    (OutComponentIntervals : List FComponentActiveInterval)
    (h : (CookQueuedFrames SamplingInterval ClipStartTime FrameQueue OutGhostSaveData
        OutComponentIntervals).Success = true) :
    (CookQueuedFrames SamplingInterval ClipStartTime FrameQueue OutGhostSaveData
        OutComponentIntervals).OutGhostSaveData.RecordedFrames =
      KeptSamples ClipStartTime FrameQueue.Items := by
  unfold CookQueuedFrames at h ⊢
  cases hq : FrameQueue.Items with
  | nil => simp [hq] at h
  | cons F rest =>
    simp only [hq] at h ⊢
    have hk := drainQueue_fst ClipStartTime (F :: rest) ([], -1)
    simp only [List.nil_append] at hk
    by_cases h2 : (DrainQueue ClipStartTime (F :: rest) ([], -1)).1.length < 2
    · rw [if_pos h2] at h
      simp at h
    · rw [if_neg h2]
      simp only [BuildInitialComponentStructure]
      exact hk

theorem keptSamples_timeStamps (ClipStartTime : ℚ) (Queue : List FRecordFrame) :
    (KeptSamples ClipStartTime Queue).map (fun F => F.TimeStamp) =
      ((Queue.map (fun F => F.TimeStamp)).filter
        (fun t => decide (t - ClipStartTime ≥ 0))).map (fun t => t - ClipStartTime) := by
  induction Queue with
  | nil => rfl
  | cons F rest ih =>
    rw [keptSamples_cons]
    simp only [List.map_cons, List.filter_cons, decide_eq_true_eq, ge_iff_le]
    by_cases h : F.TimeStamp - ClipStartTime < 0
    · rw [if_pos h, if_neg (not_le.mpr h), ih]
    · rw [if_neg h, if_pos (not_lt.mp h), List.map_cons, List.map_cons, ih]

/-- Time stamps 0, 1, ..., n rebased by 1: the first is dropped, the others become
0, 1, ..., n - 1. -/
theorem rebase_range (n : Nat) :
    (((List.range (n + 1)).map (fun k : Nat => (k : ℚ))).filter
        (fun t => decide (t - 1 ≥ 0))).map (fun t => t - 1) =
      (List.range n).map (fun k : Nat => (k : ℚ)) := by
  rw [List.range_succ_eq_map, List.map_cons, List.filter_cons]
  have h0 : decide (((0 : Nat) : ℚ) - 1 ≥ 0) = false := by
    apply decide_eq_false
    norm_num
  rw [h0]
  simp only [Bool.false_eq_true, if_false, List.map_map]
  have hall : ∀ t ∈ (List.range n).map ((fun k : Nat => (k : ℚ)) ∘ Nat.succ),
      (fun t : ℚ => decide (t - 1 ≥ 0)) t = true := by
    intro t ht
    obtain ⟨k, -, rfl⟩ := List.mem_map.mp ht
    simp
  rw [List.filter_eq_self.mpr hall, List.map_map]
  apply List.map_congr_left
  intro k _
  simp

/-- C5 (amended): for every N >= 3, cooking a queue of N samples whose time stamps are
0, 1, ..., N-1 with `ClipStartTime = 1` succeeds and yields exactly N-1 samples whose
time stamps are 0, 1, ..., N-2. -/
theorem C5_cook_rebased_from_one (N : Nat) (hN : 3 ≤ N) (SamplingInterval : ℚ)
    (FrameQueue : TCircularQueue) (OutGhostSaveData : FRecordActorSaveData)
    (OutComponentIntervals : List FComponentActiveInterval)
    (hts : FrameQueue.Items.map (fun F => F.TimeStamp) =
      (List.range N).map (fun k : Nat => (k : ℚ))) :
    (CookQueuedFrames SamplingInterval 1 FrameQueue OutGhostSaveData
        OutComponentIntervals).Success = true ∧
    (CookQueuedFrames SamplingInterval 1 FrameQueue OutGhostSaveData
        OutComponentIntervals).OutGhostSaveData.RecordedFrames.length = N - 1 ∧
    (CookQueuedFrames SamplingInterval 1 FrameQueue OutGhostSaveData
        OutComponentIntervals).OutGhostSaveData.RecordedFrames.map (fun F => F.TimeStamp) =
      (List.range (N - 1)).map (fun k : Nat => (k : ℚ)) := by
  obtain ⟨n, rfl⟩ : ∃ n, N = n + 1 := ⟨N - 1, by omega⟩
  have hk : (KeptSamples 1 FrameQueue.Items).map (fun F => F.TimeStamp) =
      (List.range n).map (fun k : Nat => (k : ℚ)) := by
    rw [keptSamples_timeStamps, hts, rebase_range]
  have hlen : (KeptSamples 1 FrameQueue.Items).length = n := by
    have := congrArg List.length hk
    simpa using this
  have hs : (CookQueuedFrames SamplingInterval 1 FrameQueue OutGhostSaveData
      OutComponentIntervals).Success = true := by
    rw [cook_success_iff, hlen]
    omega
  refine ⟨hs, ?_, ?_⟩
  · rw [cook_frames _ _ _ _ _ hs, hlen]
    rfl
  · rw [cook_frames _ _ _ _ _ hs, hk]
    rfl

/-- Witness of C5 (amended) at N = 3. -/
theorem C5_cook_rebased_from_one_witness :
    (CookQueuedFrames (1 / 10) 1 ⟨framesFrom 0 3, 4⟩ (actorOf "A" [] []) []).Success = true ∧
    (CookQueuedFrames (1 / 10) 1 ⟨framesFrom 0 3, 4⟩ (actorOf "A" [] [])
        []).OutGhostSaveData.RecordedFrames.length = 3 - 1 ∧
    (CookQueuedFrames (1 / 10) 1 ⟨framesFrom 0 3, 4⟩ (actorOf "A" [] [])
        []).OutGhostSaveData.RecordedFrames.map (fun F => F.TimeStamp) =
      (List.range (3 - 1)).map (fun k : Nat => (k : ℚ)) :=
  C5_cook_rebased_from_one 3 (by decide) (1 / 10) ⟨framesFrom 0 3, 4⟩ (actorOf "A" [] []) []
    (by simp [framesFrom, frameAt, List.range_succ])

/-- C5, counterexample: with N = 2 the queue holds the time stamps 0 and 1, only one
sample survives the rebase by 1, and the cook fails. -/
theorem C5_two_samples_fail :
    (framesFrom 0 2).map (fun F => F.TimeStamp) = [0, 1] ∧
    (CookQueuedFrames (1 / 10) 1 ⟨framesFrom 0 2, 4⟩ (actorOf "A" [] []) []).Success = false ∧
    (CookQueuedFrames (1 / 10) 1 ⟨framesFrom 0 2, 4⟩ (actorOf "A" [] [])
        []).OutGhostSaveData.RecordedFrames = [] := by
  decide!

theorem sortByEndFrame_perm (L : List FComponentActiveInterval) :
    (SortByEndFrame L).Perm L :=
  List.perm_insertionSort _ L

theorem sortByEndFrame_sorted (L : List FComponentActiveInterval) :
    (SortByEndFrame L).Pairwise (fun A B => A.EndFrame ≤ B.EndFrame) := by
  haveI : IsTotal FComponentActiveInterval (fun A B => A.EndFrame ≤ B.EndFrame) :=
    ⟨fun A B => le_total A.EndFrame B.EndFrame⟩
  haveI : IsTrans FComponentActiveInterval (fun A B => A.EndFrame ≤ B.EndFrame) :=
    ⟨fun _ _ _ h1 h2 => le_trans h1 h2⟩
  exact List.sorted_insertionSort (fun A B : FComponentActiveInterval => A.EndFrame ≤ B.EndFrame) L

/-- The intervals that `BuildInitialComponentStructure` appends to the clip. -/
theorem buildInitial_added (FirstFrameIndex : Int) (OutGhostSaveData : FRecordActorSaveData)
    (OutComponentIntervals : List FComponentActiveInterval) :
    (BuildInitialComponentStructure FirstFrameIndex OutGhostSaveData
        OutComponentIntervals).1.ComponentIntervals =
      OutGhostSaveData.ComponentIntervals ++
        ((SortByEndFrame OutComponentIntervals).filter
          (fun I => decide (FirstFrameIndex < I.EndFrame))).map
          (RemapInterval FirstFrameIndex OutGhostSaveData.RecordedFrames.length) := by
  simp only [BuildInitialComponentStructure]
  rw [drop_upperBoundBy _ _ _ (sortByEndFrame_sorted OutComponentIntervals)]

/-- Without overflow the remapping is the one of the specification. -/
theorem remapInterval_eq (FirstFrameIndex NumSavedFrames : Int) (I : FComponentActiveInterval)
    (hF : 0 ≤ FirstFrameIndex ∧ FirstFrameIndex ≤ INT32_MAX)
    (hI : 0 ≤ I.StartFrame ∧ I.StartFrame ≤ INT32_MAX ∧ I.EndFrame ≤ INT32_MAX)
    (hE : FirstFrameIndex < I.EndFrame) :
    RemapInterval FirstFrameIndex NumSavedFrames I =
      { I with
        StartFrame := max 0 (I.StartFrame - FirstFrameIndex)
        EndFrame :=
          if I.EndFrame = INT32_MAX then NumSavedFrames
          else min (I.EndFrame - FirstFrameIndex) NumSavedFrames } := by
  unfold INT32_MAX at hF hI
  unfold RemapInterval
  rw [wrap32_eq_self (by omega) (by omega), wrap32_eq_self (by omega) (by omega)]

theorem remapInterval_mono (FirstFrameIndex NumSavedFrames : Int)
    (A B : FComponentActiveInterval)
    (hF : 0 ≤ FirstFrameIndex ∧ FirstFrameIndex ≤ INT32_MAX)
    (hA : A.EndFrame ≤ INT32_MAX ∧ FirstFrameIndex < A.EndFrame)
    (hB : B.EndFrame ≤ INT32_MAX ∧ FirstFrameIndex < B.EndFrame)
    (hAB : A.EndFrame ≤ B.EndFrame) :
    (RemapInterval FirstFrameIndex NumSavedFrames A).EndFrame ≤
      (RemapInterval FirstFrameIndex NumSavedFrames B).EndFrame := by
  unfold INT32_MAX at hF hA hB
  simp only [RemapInterval, INT32_MAX]
  rw [wrap32_eq_self (by omega) (by omega), wrap32_eq_self (by omega) (by omega)]
  split_ifs <;> omega

/-- C6: for every interval table, every first kept frame index F and every number N of
kept samples (frame indices being non-negative `int32` values),
`BuildInitialComponentStructure` appends to the clip exactly the input intervals whose
`EndFrame > F`, each with `StartFrame = max(0, StartFrame - F)` and with
`EndFrame = N` if it was still open (`INT32_MAX`) and `min(EndFrame - F, N)` otherwise,
and the appended intervals are in ascending order of `EndFrame`. -/
theorem C6_initial_structure_keeps_later_intervals (FirstFrameIndex : Int)
    (OutGhostSaveData : FRecordActorSaveData)
    (OutComponentIntervals : List FComponentActiveInterval)
    (hF : 0 ≤ FirstFrameIndex ∧ FirstFrameIndex ≤ INT32_MAX)
    (hI : ∀ I ∈ OutComponentIntervals,
      0 ≤ I.StartFrame ∧ I.StartFrame ≤ INT32_MAX ∧ I.EndFrame ≤ INT32_MAX) :
    ∃ Added : List FComponentActiveInterval,
      (BuildInitialComponentStructure FirstFrameIndex OutGhostSaveData
          OutComponentIntervals).1.ComponentIntervals =
        OutGhostSaveData.ComponentIntervals ++ Added ∧
      Added.Perm
        ((OutComponentIntervals.filter (fun I => decide (I.EndFrame > FirstFrameIndex))).map
          (fun I =>
            { I with
              StartFrame := max 0 (I.StartFrame - FirstFrameIndex)
              EndFrame :=
                if I.EndFrame = INT32_MAX then (OutGhostSaveData.RecordedFrames.length : Int)
                else min (I.EndFrame - FirstFrameIndex)
                  (OutGhostSaveData.RecordedFrames.length : Int) })) ∧
      Added.Pairwise (fun A B => A.EndFrame ≤ B.EndFrame) := by
  refine ⟨_, buildInitial_added _ _ _, ?_, ?_⟩
  · have hperm := ((sortByEndFrame_perm OutComponentIntervals).filter
      (fun I => decide (FirstFrameIndex < I.EndFrame))).map
      (RemapInterval FirstFrameIndex OutGhostSaveData.RecordedFrames.length)
    refine hperm.trans (List.Perm.of_eq ?_)
    apply List.map_congr_left
    intro I hmem
    obtain ⟨hin, hlt⟩ := List.mem_filter.mp hmem
    exact remapInterval_eq _ _ I hF (hI I hin) (of_decide_eq_true hlt)
  · rw [List.pairwise_map]
    have hsorted := (sortByEndFrame_sorted OutComponentIntervals).filter
      (fun I => decide (FirstFrameIndex < I.EndFrame))
    refine hsorted.imp_of_mem ?_
    intro A B hA hB hAB
    obtain ⟨hAin, hAlt⟩ := List.mem_filter.mp hA
    obtain ⟨hBin, hBlt⟩ := List.mem_filter.mp hB
    have hA1 := hI A ((sortByEndFrame_perm OutComponentIntervals).mem_iff.mp hAin)
    have hB1 := hI B ((sortByEndFrame_perm OutComponentIntervals).mem_iff.mp hBin)
    exact remapInterval_mono _ _ A B hF ⟨hA1.2.2, of_decide_eq_true hAlt⟩
      ⟨hB1.2.2, of_decide_eq_true hBlt⟩ hAB

/-- Witness of C6: first kept frame index 1, four kept samples, three intervals. -/
theorem C6_initial_structure_keeps_later_intervals_witness :
    ∃ Added : List FComponentActiveInterval,
      (BuildInitialComponentStructure 1 cookedClip cookIntervals).1.ComponentIntervals =
        cookedClip.ComponentIntervals ++ Added ∧
      Added.Perm
        ((cookIntervals.filter (fun I => decide (I.EndFrame > 1))).map
          (fun I =>
            { I with
              StartFrame := max 0 (I.StartFrame - 1)
              EndFrame :=
                if I.EndFrame = INT32_MAX then (cookedClip.RecordedFrames.length : Int)
                else min (I.EndFrame - 1) (cookedClip.RecordedFrames.length : Int) })) ∧
      Added.Pairwise (fun A B => A.EndFrame ≤ B.EndFrame) :=
  C6_initial_structure_keeps_later_intervals 1 cookedClip cookIntervals (by decide)
    (by decide)

/-- Cooking keeps strictly increasing time stamps strictly increasing. -/
theorem keptSamples_strictly_increasing (ClipStartTime : ℚ) (Queue : List FRecordFrame)
    (h : (Queue.map (fun F => F.TimeStamp)).Pairwise (fun a b => a < b)) :
    ((KeptSamples ClipStartTime Queue).map (fun F => F.TimeStamp)).Pairwise
      (fun a b => a < b) := by
  rw [keptSamples_timeStamps, List.pairwise_map]
  refine (h.filter _).imp ?_
  intro a b hab
  linarith

/-- A successful cook of a queue with strictly increasing time stamps yields a clip with
strictly increasing time stamps. -/
theorem cook_strictly_increasing (SamplingInterval ClipStartTime : ℚ)
    (FrameQueue : TCircularQueue) (OutGhostSaveData : FRecordActorSaveData)
    (OutComponentIntervals : List FComponentActiveInterval)
    (hq : (FrameQueue.Items.map (fun F => F.TimeStamp)).Pairwise (fun a b => a < b))
    (h : (CookQueuedFrames SamplingInterval ClipStartTime FrameQueue OutGhostSaveData
        OutComponentIntervals).Success = true) :
    ((CookQueuedFrames SamplingInterval ClipStartTime FrameQueue OutGhostSaveData
        OutComponentIntervals).OutGhostSaveData.RecordedFrames.map
      (fun F => F.TimeStamp)).Pairwise (fun a b => a < b) := by
  rw [cook_frames _ _ _ _ _ h]
  exact keptSamples_strictly_increasing ClipStartTime FrameQueue.Items hq

/-! ### Group windowing -/

/-- C7, evaluation at the failing input: entity A has samples at the times 0..10, entity
B at the times 5..10 (frame index equal to the time), the maximal group duration is 3.
The group spans [0, 10] and the window starts at 7. Entity A keeps the samples taken at
7..10, but entity B, whose samples inside the window are those taken at 7..10, keeps
only its sample taken at time 5, which lies outside the window. -/
theorem C7_late_entity_keeps_sample_outside_window :
    actorB.RecordedFrames.map (fun F => (F.TimeStamp, F.FrameIndex)) =
      [(5, 5), (6, 6), (7, 7), (8, 8), (9, 9), (10, 10)] ∧
    (GroupTimes [actorA, actorB] (FLT_MAX, -FLT_MAX)).map
      (fun T => (T.1, T.2, WindowStartOf T 3)) = some (0, 10, 7) ∧
    (actorB.RecordedFrames.filter
      (fun F => decide (7 ≤ F.TimeStamp ∧ F.TimeStamp ≤ 10))).map (fun F => F.FrameIndex) =
      [7, 8, 9, 10] ∧
    (ClipActorSaveDataByGroup [actorA, actorB] 3 (1 / 10)).map
      (fun Actors => Actors.map fun Actor => Actor.RecordedFrames.map fun F => F.FrameIndex) =
      some [[7, 8, 9, 10], [5]] := by
  decide!

/-- C8, evaluation at the failing input: entity A with samples at the times 0..10, entity
B with samples at the times 5..10, and a window starting at 7. The samples that A keeps
are those taken at 7, 8, 9, 10; their time stamps after the call are 7, 1, 2, 10 and not
0, 1, 2, 3: the first kept sample does not get the time stamp 0 and the last one is not
rebased. The only sample that B keeps, taken at 5, ends with the time stamp 20. -/
theorem C8_first_and_last_kept_sample_not_rebased :
    (ClipActorSaveDataByGroup [actorA, actorB] 3 (1 / 10)).map
      (fun Actors => Actors.map fun Actor =>
        Actor.RecordedFrames.map fun F => (F.FrameIndex, F.TimeStamp)) =
      some [[(7, 7), (8, 1), (9, 2), (10, 10)], [(5, 20)]] := by
  decide!

/-- C9, evaluation at the failing input: the samples of entity A have strictly increasing
time stamps; after `ClipActorSaveDataByGroup` with a maximal group duration 3 the clip is
not empty and its time stamps 7, 1, 2, 10 are not increasing. -/
theorem C9_windowing_breaks_time_order :
    (actorA.RecordedFrames.map (fun F => F.TimeStamp)).Pairwise (fun a b => a < b) ∧
    ClipActorSaveDataByGroup [actorA] 3 (1 / 10) = some [clippedA] ∧
    clippedA.RecordedFrames.map (fun F => F.TimeStamp) = [7, 1, 2, 10] ∧
    ¬ (clippedA.RecordedFrames.map (fun F => F.TimeStamp)).Pairwise (fun a b => a < b) := by
  decide!


/-- When `CookQueuedFrames` returns false the clip and the interval table are the ones
passed in and nothing is queued any more. -/
theorem cook_failure (SamplingInterval ClipStartTime : ℚ)
    (FrameQueue : TCircularQueue) (OutGhostSaveData : FRecordActorSaveData)
    (OutComponentIntervals : List FComponentActiveInterval)
    (h : (CookQueuedFrames SamplingInterval ClipStartTime FrameQueue OutGhostSaveData
        OutComponentIntervals).Success = false) :
    (CookQueuedFrames SamplingInterval ClipStartTime FrameQueue OutGhostSaveData
        OutComponentIntervals).OutGhostSaveData = OutGhostSaveData ∧
    (CookQueuedFrames SamplingInterval ClipStartTime FrameQueue OutGhostSaveData
        OutComponentIntervals).OutComponentIntervals = OutComponentIntervals ∧
    (CookQueuedFrames SamplingInterval ClipStartTime FrameQueue OutGhostSaveData
        OutComponentIntervals).FrameQueue.Items = [] := by
  unfold CookQueuedFrames at h ⊢
  cases hq : FrameQueue.Items with
  | nil => simp [hq]
  | cons F rest =>
    simp only [hq] at h ⊢
    split_ifs at h ⊢ with hlt
    simp

/-- Claim C17, as the code has it: whenever `CookQueuedFrames` returns false, the output
clip and the interval table are unchanged, and the source frame queue is left empty:
every queued sample has been dequeued. -/
theorem C17_failed_cook_keeps_clip_and_empties_queue (SamplingInterval ClipStartTime : ℚ)
    (FrameQueue : TCircularQueue) (OutGhostSaveData : FRecordActorSaveData)
    (OutComponentIntervals : List FComponentActiveInterval)
    (h : (CookQueuedFrames SamplingInterval ClipStartTime FrameQueue OutGhostSaveData
        OutComponentIntervals).Success = false) :
    (CookQueuedFrames SamplingInterval ClipStartTime FrameQueue OutGhostSaveData
        OutComponentIntervals).OutGhostSaveData = OutGhostSaveData ∧
    (CookQueuedFrames SamplingInterval ClipStartTime FrameQueue OutGhostSaveData
        OutComponentIntervals).OutComponentIntervals = OutComponentIntervals ∧
    (CookQueuedFrames SamplingInterval ClipStartTime FrameQueue OutGhostSaveData
        OutComponentIntervals).FrameQueue.Items = [] ∧
    (CookQueuedFrames SamplingInterval ClipStartTime FrameQueue OutGhostSaveData
        OutComponentIntervals).FrameQueue.Capacity = FrameQueue.Capacity :=
  ⟨(cook_failure SamplingInterval ClipStartTime FrameQueue OutGhostSaveData
      OutComponentIntervals h).1,
   (cook_failure SamplingInterval ClipStartTime FrameQueue OutGhostSaveData
      OutComponentIntervals h).2.1,
   (cook_failure SamplingInterval ClipStartTime FrameQueue OutGhostSaveData
      OutComponentIntervals h).2.2,
   by
    unfold CookQueuedFrames
    cases hq : FrameQueue.Items with
    | nil => rfl
    | cons F rest => simp only []; split_ifs <;> rfl⟩

/-- The amended claim C17 on a queue that holds one sample: the cook fails, the clip and
the interval table are unchanged and the queue is empty. -/
theorem C17_failed_cook_keeps_clip_and_empties_queue_witness :
    (CookQueuedFrames (1 / 10) 0 oneSampleQueue cookedClip cookIntervals).Success = false ∧
    (CookQueuedFrames (1 / 10) 0 oneSampleQueue cookedClip cookIntervals).OutGhostSaveData
      = cookedClip ∧
    (CookQueuedFrames (1 / 10) 0 oneSampleQueue cookedClip cookIntervals).OutComponentIntervals
      = cookIntervals ∧
    (CookQueuedFrames (1 / 10) 0 oneSampleQueue cookedClip cookIntervals).FrameQueue.Items
      = [] ∧
    (CookQueuedFrames (1 / 10) 0 oneSampleQueue cookedClip cookIntervals).FrameQueue.Capacity
      = oneSampleQueue.Capacity :=
  ⟨by decide!,
   C17_failed_cook_keeps_clip_and_empties_queue (1 / 10) 0 oneSampleQueue cookedClip
     cookIntervals (by decide!)⟩

/-- Claim C17 as stated fails: a queue that holds the one sample at time 0 makes
`CookQueuedFrames` return false, and afterwards the queue holds no sample although it
held one before the call. -/
theorem C17_failed_cook_drains_queue :
    (CookQueuedFrames (1 / 10) 0 oneSampleQueue cookedClip cookIntervals).Success = false ∧
    oneSampleQueue.Items = [frameAt 0 0] ∧
    (CookQueuedFrames (1 / 10) 0 oneSampleQueue cookedClip cookIntervals).FrameQueue.Items
      = [] := by
  decide!

/-! ### Group windowing: the remap of the intervals -/

theorem range_cast (n : Nat) :
    (do let a ← List.range n; pure (a : Int) : List Int) =
      (List.range n).map (fun a : Nat => (a : Int)) := by
  simp [List.map_eq_flatMap]

theorem oldToNewTable_eq (Length : Nat) (a b : Int) :
    OldToNewTable Length a b =
      (List.range Length).map
        (fun i : Nat => if a ≤ (i : Int) ∧ (i : Int) ≤ b then (i : Int) - a else -1) := by
  unfold OldToNewTable
  rw [range_cast, List.map_map]
  rfl

theorem tableAt_oldToNew (Length : Nat) (a b o : Int) (h0 : 0 ≤ o) (h1 : o < Length) :
    TableAt (OldToNewTable Length a b) o = some (if a ≤ o ∧ o ≤ b then o - a else -1) := by
  unfold TableAt
  rw [oldToNewTable_eq, if_pos h0, List.get?_eq_getElem?, List.getElem?_map,
    List.getElem?_range (by omega : o.toNat < Length)]
  simp only [Option.map_some', Int.toNat_of_nonneg h0]

/-- The forward scan over the table of a kept range `[a, b]`: the first kept index at or
after the start of the scan, re-based, or `INDEX_NONE`. -/
theorem scanForward_oldToNew (Length : Nat) (a b : Int) :
    ∀ (k : Nat) (o : Int), 0 ≤ o → (0 < k → o + k ≤ Length) →
      ScanForward (OldToNewTable Length a b) k o =
        some (if max o a ≤ b ∧ max o a < o + k then max o a - a else -1) := by
  intro k
  induction k with
  | zero =>
    intro o _ _
    simp only [ScanForward, Nat.cast_zero, add_zero]
    rw [if_neg (fun h => absurd h.2 (not_lt.mpr (le_max_left o a)))]
  | succ n ih =>
    intro o ho hlen
    have hlen1 : o + ((n + 1 : Nat) : Int) ≤ Length := hlen (Nat.succ_pos n)
    have hcast : ((n + 1 : Nat) : Int) = (n : Int) + 1 := by push_cast; rfl
    rw [hcast] at hlen1
    simp only [ScanForward]
    rw [tableAt_oldToNew Length a b o ho (by omega)]
    simp only []
    by_cases hin : a ≤ o ∧ o ≤ b
    · rw [if_pos hin, if_pos (by omega)]
      have hmax : max o a = o := max_eq_left hin.1
      rw [hmax, if_pos ⟨hin.2, by omega⟩]
    · rw [if_neg hin, if_neg (by simp)]
      rw [ih (o + 1) (by omega) (fun _ => by omega)]
      congr 1
      rw [hcast]
      rcases le_or_lt a o with hao | hao
      · have hob : b < o := by
          by_contra hcon
          exact hin ⟨hao, not_lt.mp hcon⟩
        rw [max_eq_left hao, max_eq_left (by omega : a ≤ o + 1),
          if_neg (by omega), if_neg (by omega)]
      · rw [max_eq_right (le_of_lt hao), max_eq_right (by omega : o + 1 ≤ a)]
        by_cases hc : a ≤ b ∧ a < o + 1 + n
        · rw [if_pos hc, if_pos ⟨hc.1, by omega⟩]
        · rw [if_neg hc, if_neg (by omega)]

/-- The backward scan over the table of a kept range `[a, b]`: one more than the last
kept index at or before the start of the scan, re-based, or `INDEX_NONE`. -/
theorem scanBackward_oldToNew (Length : Nat) (a b : Int) :
    ∀ (k : Nat) (o : Int), o < Length → (k : Int) ≤ o + 1 →
      ScanBackward (OldToNewTable Length a b) k o =
        some (if a ≤ min o b ∧ o - k < min o b then min o b - a + 1 else -1) := by
  intro k
  induction k with
  | zero =>
    intro o _ _
    simp only [ScanBackward, Nat.cast_zero, sub_zero]
    rw [if_neg (fun h => absurd h.2 (not_lt.mpr (min_le_left o b)))]
  | succ n ih =>
    intro o ho hk
    have hcast : ((n + 1 : Nat) : Int) = (n : Int) + 1 := by push_cast; rfl
    rw [hcast] at hk
    simp only [ScanBackward]
    rw [tableAt_oldToNew Length a b o (by omega) ho]
    simp only []
    by_cases hin : a ≤ o ∧ o ≤ b
    · rw [if_pos hin, if_pos (by omega)]
      have hmin : min o b = o := min_eq_left hin.2
      rw [hmin, hcast, if_pos ⟨hin.1, by omega⟩]
    · rw [if_neg hin, if_neg (by simp)]
      rw [ih (o - 1) (by omega) (by omega)]
      congr 1
      rw [hcast]
      rcases le_or_lt o b with hob | hob
      · have hoa : o < a := by
          by_contra hcon
          exact hin ⟨not_lt.mp hcon, hob⟩
        rw [min_eq_left hob, min_eq_left (by omega : o - 1 ≤ b),
          if_neg (by omega), if_neg (by omega)]
      · rw [min_eq_right (le_of_lt hob), min_eq_right (by omega : b ≤ o - 1)]
        by_cases hc : a ≤ b ∧ o - 1 - n < b
        · rw [if_pos hc, if_pos ⟨hc.1, by omega⟩]
        · rw [if_neg hc, if_neg (by omega)]

/-- The interval loop of `ClipActorSaveDataByGroup` over the table of a kept range
`[a, b]` returns, and maps every interval with a start frame that is not negative as the
specification words it. -/
theorem remapIntervalsByTable_eq (Length : Nat) (a b : Int) (ha : 0 ≤ a) (hab : a ≤ b)
    (hb : b < Length) :
    ∀ L : List FComponentActiveInterval,
      (∀ I ∈ L, 0 ≤ I.StartFrame ∧ I.EndFrame ≤ INT32_MAX) →
      RemapIntervalsByTable (OldToNewTable Length a b) Length (b - a + 1) L =
        some (L.filterMap (RemapToKeptRange a b)) := by
  intro L
  induction L with
  | nil => intro _; rfl
  | cons I rest ih =>
    intro hI
    have hI0 := hI I (List.mem_cons_self _ _)
    have hs : 0 ≤ I.StartFrame := hI0.1
    have he : I.EndFrame ≤ 2147483647 := hI0.2
    have ihr := ih (fun J hJ => hI J (List.mem_cons_of_mem _ hJ))
    simp only [RemapIntervalsByTable]
    have hk : (0 : Int) < ((min I.EndFrame (Length : Int) - I.StartFrame).toNat : Int) →
        I.StartFrame + ((min I.EndFrame (Length : Int) - I.StartFrame).toNat : Int) ≤ Length := by
      intro hpos
      omega
    rw [scanForward_oldToNew Length a b _ I.StartFrame hs (fun h => hk (by exact_mod_cast h))]
    simp only []
    by_cases hfound : max I.StartFrame a < min I.EndFrame (b + 1)
    · have hcond : max I.StartFrame a ≤ b ∧ max I.StartFrame a <
          I.StartFrame + ((min I.EndFrame (Length : Int) - I.StartFrame).toNat : Int) := by
        constructor
        · omega
        · omega
      rw [if_pos hcond, if_neg (by omega)]
      rw [wrap32_eq_self (by omega) (by omega)]
      have hk2 : ((min (I.EndFrame - 1) ((Length : Int) - 1) - I.StartFrame + 1).toNat : Int)
          ≤ min (I.EndFrame - 1) ((Length : Int) - 1) + 1 := by omega
      rw [scanBackward_oldToNew Length a b _ _ (by omega) hk2]
      simp only []
      have hcond2 : a ≤ min (min (I.EndFrame - 1) ((Length : Int) - 1)) b ∧
          min (I.EndFrame - 1) ((Length : Int) - 1) -
            ((min (I.EndFrame - 1) ((Length : Int) - 1) - I.StartFrame + 1).toNat : Int) <
            min (min (I.EndFrame - 1) ((Length : Int) - 1)) b := by
        constructor
        · omega
        · omega
      rw [if_pos hcond2, if_neg (by omega), ihr]
      simp only [Option.map_some', List.filterMap_cons, RemapToKeptRange, if_pos hfound]
      unfold Clamp
      congr 3
      · omega
      · omega
    · have hcond : ¬ (max I.StartFrame a ≤ b ∧ max I.StartFrame a <
          I.StartFrame + ((min I.EndFrame (Length : Int) - I.StartFrame).toNat : Int)) := by
        intro hc
        apply hfound
        omega
      rw [if_neg hcond, if_pos rfl, ihr]
      simp only [List.filterMap_cons, RemapToKeptRange, if_neg hfound]

theorem setFirstTimeStamp_frameIndex (v : ℚ) (L : List FRecordFrame) :
    (SetFirstTimeStamp v L).map (fun F => F.FrameIndex) = L.map (fun F => F.FrameIndex) := by
  cases L <;> rfl

theorem addToLastTimeStamp_frameIndex (v : ℚ) (L : List FRecordFrame) :
    (AddToLastTimeStamp v L).map (fun F => F.FrameIndex) = L.map (fun F => F.FrameIndex) := by
  induction L with
  | nil => rfl
  | cons F rest ih =>
    cases rest with
    | nil => rfl
    | cons G rest2 =>
      simp only [AddToLastTimeStamp, List.map_cons] at ih ⊢
      rw [ih]

/-- The clip that `ClipActorSaveDataByGroup` leaves for an actor whose samples overlap the
window and of which the index range `[a, b]` is kept. -/
theorem clipOneActor_eq (WindowStart WindowEnd : ℚ) (Actor : FRecordActorSaveData)
    (First Last : FRecordFrame)
    (hin : ¬ (Last.TimeStamp < WindowStart ∨ First.TimeStamp > WindowEnd))
    (hab : ClipStartIdx WindowStart Actor.RecordedFrames First ≤
      ClipEndIdx WindowEnd Actor.RecordedFrames First)
    (hne : Actor.RecordedFrames ≠ [])
    (hI : ∀ I ∈ Actor.ComponentIntervals, 0 ≤ I.StartFrame ∧ I.EndFrame ≤ INT32_MAX) :
    ∃ Clipped : FRecordActorSaveData,
      ClipOneActor WindowStart WindowEnd Actor First Last = some Clipped ∧
      Clipped.RecordedFrames.map (fun F => F.FrameIndex) =
        ((Actor.RecordedFrames.drop
            (ClipStartIdx WindowStart Actor.RecordedFrames First).toNat).take
          (ClipEndIdx WindowEnd Actor.RecordedFrames First -
            ClipStartIdx WindowStart Actor.RecordedFrames First + 1).toNat).map
          (fun F => F.FrameIndex) ∧
      Clipped.ComponentIntervals =
        Actor.ComponentIntervals.filterMap
          (RemapToKeptRange (ClipStartIdx WindowStart Actor.RecordedFrames First)
            (ClipEndIdx WindowEnd Actor.RecordedFrames First)) := by
  have hlen : 1 ≤ Actor.RecordedFrames.length := List.length_pos.2 hne
  have ha0 : 0 ≤ ClipStartIdx WindowStart Actor.RecordedFrames First := by
    unfold ClipStartIdx Clamp
    exact le_max_right _ _
  have hb1 : ClipEndIdx WindowEnd Actor.RecordedFrames First < Actor.RecordedFrames.length := by
    unfold ClipEndIdx Clamp
    omega
  have hremap := remapIntervalsByTable_eq Actor.RecordedFrames.length _ _ ha0 hab hb1
    Actor.ComponentIntervals hI
  unfold OldToNewTable at hremap
  unfold ClipOneActor
  rw [if_neg hin]
  simp only []
  unfold ClipStartIdx ClipEndIdx at hab hremap ⊢
  rw [if_neg (not_lt.mpr hab), hremap]
  refine ⟨_, rfl, ?_, rfl⟩
  simp only [addToLastTimeStamp_frameIndex, setFirstTimeStamp_frameIndex, List.map_map]
  rfl

/-- Claim C23: for an entity whose samples overlap the window, of which
`ClipActorSaveDataByGroup` keeps the sample index range `[a, b]` (its values `StartIdx` and
`EndIdx`), the call returns; the kept samples are the samples `a` to `b`; every interval
`[s, e)` with `s >= 0` is replaced by `[max(s, a) - a, min(e, b + 1) - a)` when that range
is not empty and is dropped otherwise; and an interval that ends at the old sample count
and starts at or before `b` is kept and ends at the new sample count. -/
theorem C23_intervals_remapped_to_kept_range (WindowStart WindowEnd : ℚ)
    (Actor : FRecordActorSaveData) (First Last : FRecordFrame)
    (hF : Actor.RecordedFrames.head? = some First)
    (hin : ¬ (Last.TimeStamp < WindowStart ∨ First.TimeStamp > WindowEnd))
    (hab : ClipStartIdx WindowStart Actor.RecordedFrames First ≤
      ClipEndIdx WindowEnd Actor.RecordedFrames First)
    (hI : ∀ I ∈ Actor.ComponentIntervals, 0 ≤ I.StartFrame ∧ I.EndFrame ≤ INT32_MAX) :
    ∃ Clipped : FRecordActorSaveData,
      ClipOneActor WindowStart WindowEnd Actor First Last = some Clipped ∧
      Clipped.RecordedFrames.map (fun F => F.FrameIndex) =
        ((Actor.RecordedFrames.drop
            (ClipStartIdx WindowStart Actor.RecordedFrames First).toNat).take
          (ClipEndIdx WindowEnd Actor.RecordedFrames First -
            ClipStartIdx WindowStart Actor.RecordedFrames First + 1).toNat).map
          (fun F => F.FrameIndex) ∧
      (Clipped.RecordedFrames.length : Int) =
        ClipEndIdx WindowEnd Actor.RecordedFrames First -
          ClipStartIdx WindowStart Actor.RecordedFrames First + 1 ∧
      Clipped.ComponentIntervals =
        Actor.ComponentIntervals.filterMap
          (RemapToKeptRange (ClipStartIdx WindowStart Actor.RecordedFrames First)
            (ClipEndIdx WindowEnd Actor.RecordedFrames First)) ∧
      ∀ I ∈ Actor.ComponentIntervals,
        I.EndFrame = Actor.RecordedFrames.length →
        I.StartFrame ≤ ClipEndIdx WindowEnd Actor.RecordedFrames First →
          { I with
            StartFrame := max I.StartFrame (ClipStartIdx WindowStart Actor.RecordedFrames First)
              - ClipStartIdx WindowStart Actor.RecordedFrames First,
            EndFrame := (Clipped.RecordedFrames.length : Int) } ∈ Clipped.ComponentIntervals := by
  have hne : Actor.RecordedFrames ≠ [] := by
    intro h
    rw [h] at hF
    simp at hF
  have hlen : 1 ≤ Actor.RecordedFrames.length := List.length_pos.2 hne
  have ha0 : 0 ≤ ClipStartIdx WindowStart Actor.RecordedFrames First := by
    unfold ClipStartIdx Clamp
    exact le_max_right _ _
  have hb1 : ClipEndIdx WindowEnd Actor.RecordedFrames First < Actor.RecordedFrames.length := by
    unfold ClipEndIdx Clamp
    omega
  obtain ⟨Clipped, hC, hframes, hints⟩ :=
    clipOneActor_eq WindowStart WindowEnd Actor First Last hin hab hne hI
  have hcount : (Clipped.RecordedFrames.length : Int) =
      ClipEndIdx WindowEnd Actor.RecordedFrames First -
        ClipStartIdx WindowStart Actor.RecordedFrames First + 1 := by
    have h := congrArg List.length hframes
    simp only [List.length_map, List.length_take, List.length_drop] at h
    omega
  refine ⟨Clipped, hC, hframes, hcount, hints, ?_⟩
  intro I hIm hend hstart
  rw [hints, List.mem_filterMap]
  refine ⟨I, hIm, ?_⟩
  unfold RemapToKeptRange
  rw [if_pos (by omega)]
  congr 2
  omega

/-- Claim C23 on entity A of the windowing example: eleven samples, the window `[7, 10]`,
the kept index range `[7, 10]`, and one interval `[0, 11)`, which becomes `[0, 4)`. -/
theorem C23_intervals_remapped_to_kept_range_witness :
    ∃ Clipped : FRecordActorSaveData,
      ClipOneActor 7 10 actorA (frameAt 0 0) (frameAt 10 10) = some Clipped ∧
      Clipped.RecordedFrames.map (fun F => F.FrameIndex) =
        ((actorA.RecordedFrames.drop
            (ClipStartIdx 7 actorA.RecordedFrames (frameAt 0 0)).toNat).take
          (ClipEndIdx 10 actorA.RecordedFrames (frameAt 0 0) -
            ClipStartIdx 7 actorA.RecordedFrames (frameAt 0 0) + 1).toNat).map
          (fun F => F.FrameIndex) ∧
      (Clipped.RecordedFrames.length : Int) =
        ClipEndIdx 10 actorA.RecordedFrames (frameAt 0 0) -
          ClipStartIdx 7 actorA.RecordedFrames (frameAt 0 0) + 1 ∧
      Clipped.ComponentIntervals =
        actorA.ComponentIntervals.filterMap
          (RemapToKeptRange (ClipStartIdx 7 actorA.RecordedFrames (frameAt 0 0))
            (ClipEndIdx 10 actorA.RecordedFrames (frameAt 0 0))) ∧
      ∀ I ∈ actorA.ComponentIntervals,
        I.EndFrame = actorA.RecordedFrames.length →
        I.StartFrame ≤ ClipEndIdx 10 actorA.RecordedFrames (frameAt 0 0) →
          { I with
            StartFrame := max I.StartFrame (ClipStartIdx 7 actorA.RecordedFrames (frameAt 0 0))
              - ClipStartIdx 7 actorA.RecordedFrames (frameAt 0 0),
            EndFrame := (Clipped.RecordedFrames.length : Int) } ∈ Clipped.ComponentIntervals :=
  C23_intervals_remapped_to_kept_range 7 10 actorA (frameAt 0 0) (frameAt 10 10)
    (by decide!) (by decide!) (by decide!) (by decide!)

/-- The index range and the intervals of entity A of the windowing example. -/
theorem clip_example_range :
    ClipStartIdx 7 actorA.RecordedFrames (frameAt 0 0) = 7 ∧
    ClipEndIdx 10 actorA.RecordedFrames (frameAt 0 0) = 10 ∧
    actorA.ComponentIntervals.filterMap (RemapToKeptRange 7 10) = [intervalOf "A" 0 4] := by
  refine ⟨?_, ?_, ?_⟩ <;> decide!
/-! ### Lifecycle tracker -/

/-- C3, evaluation at the failing input: a sub-part is attached while the frame counter of
the recorder is 5 and detached while it is 12. The tracker stores the interval with
`StartFrame = 5` and `EndFrame = 11` (the frame counter minus one), so a query on the
interval tree reports the sub-part active at frames 5 and 10 and inactive at frame 11. -/
theorem C3_detach_stores_counter_minus_one :
    (sampleTicks 5 (freshRecorder 64)).CurrentFrameIndex = 5 ∧
    swordRun.CurrentFrameIndex = 12 ∧
    swordRun.ComponentActiveIntervals.map
      (fun I => (I.Meta.ComponentName, I.StartFrame, I.EndFrame)) = [("Sword_7", 5, 11)] ∧
    (BuildIntervalTree 1 swordRun.ComponentActiveIntervals).map
      (fun T => ((QueryIntervalTree T 4 []).length, (QueryIntervalTree T 5 []).length,
        (QueryIntervalTree T 10 []).length, (QueryIntervalTree T 11 []).length,
        (QueryIntervalTree T 12 []).length)) = some (0, 1, 1, 0, 0) := by
  decide!


/-- Claim C29 fails when a sub-part is attached and detached with no sampling tick
between: on a fresh recorder the attach notification stores the interval with
`StartFrame = 0`, the detach notification sets `EndFrame = CurrentFrameIndex - 1 = -1`, and
the tracker holds an interval with `StartFrame > EndFrame`, on which `BuildIntervalTree`
does not return within a recursion budget of 64. -/
theorem C29_attach_then_detach_stores_inverted_interval :
    (OnComponentDetached (OnComponentAttached (freshRecorder 64) swordComponent)
        swordComponent).ComponentActiveIntervals.map
      (fun I => (I.Meta.ComponentName, I.StartFrame, I.EndFrame)) = [("Sword_7", 0, -1)] ∧
    BuildIntervalTree 64
      (OnComponentDetached (OnComponentAttached (freshRecorder 64) swordComponent)
        swordComponent).ComponentActiveIntervals = none := by
  refine ⟨?_, ?_⟩ <;> decide!

/-! ### Capture buffer -/

/-- For an argument between 2 and 2^31, `RoundUpToPowerOfTwo` is the least power of two
that is not less than the argument. -/
theorem roundUpToPowerOfTwo_spec (n : Nat) (h1 : 2 ≤ n) (h2 : n ≤ 2147483648) :
    ∃ k : Nat, RoundUpToPowerOfTwo n = 2 ^ k ∧ n ≤ 2 ^ k ∧ 2 ^ k < 2 * n := by
  have hn0 : n ≠ 0 := by omega
  have hn1 : n - 1 ≠ 0 := by omega
  have hlo : 2 ^ (n - 1).log2 ≤ n - 1 := Nat.log2_self_le hn1
  have hhi : n - 1 < 2 ^ ((n - 1).log2 + 1) := Nat.lt_log2_self
  have hpow : 2 ^ ((n - 1).log2 + 1) = 2 * 2 ^ (n - 1).log2 := by
    rw [pow_succ, mul_comm]
  refine ⟨(n - 1).log2 + 1, ?_, by omega, by omega⟩
  unfold RoundUpToPowerOfTwo CeilLogTwo
  simp only [if_neg hn0, if_neg hn1]
  exact Nat.mod_eq_of_lt (by omega)

/-- The value `CapacityPlusOne` of `Initialize` when the `float` quotient is not negative
and its ceiling plus one is an `int32`. -/
theorem capacityPlusOne_eq (MaxRecordTime SamplingInterval : ℚ)
    (h0 : 0 ≤ FloatDiv MaxRecordTime SamplingInterval)
    (h1 : ⌈FloatDiv MaxRecordTime SamplingInterval⌉ < 2147483647) :
    (CapacityPlusOne MaxRecordTime SamplingInterval : Int) =
      max (⌈FloatDiv MaxRecordTime SamplingInterval⌉ + 1) 2 := by
  have hc : 0 ≤ ⌈FloatDiv MaxRecordTime SamplingInterval⌉ := Int.ceil_nonneg h0
  unfold CapacityPlusOne CeilToInt
  simp only []
  rw [wrap32_eq_self (by omega) (by omega),
    Int.emod_eq_of_lt (by omega) (by omega)]
  rw [Nat.cast_max, Int.toNat_of_nonneg (by omega)]
  rfl

/-- The queue that `Initialize` creates is empty and holds at least one sample. -/
theorem initializeFrameQueue_capacity (MaxRecordTime SamplingInterval : ℚ)
    (h0 : 0 ≤ FloatDiv MaxRecordTime SamplingInterval)
    (h1 : ⌈FloatDiv MaxRecordTime SamplingInterval⌉ < 2147483647) :
    (InitializeFrameQueue MaxRecordTime SamplingInterval).Items = [] ∧
    ∃ k : Nat,
      (InitializeFrameQueue MaxRecordTime SamplingInterval).Capacity + 1 = 2 ^ k ∧
      CapacityPlusOne MaxRecordTime SamplingInterval ≤ 2 ^ k ∧
      2 ^ k < 2 * CapacityPlusOne MaxRecordTime SamplingInterval := by
  have hc : 0 ≤ ⌈FloatDiv MaxRecordTime SamplingInterval⌉ := Int.ceil_nonneg h0
  have he := capacityPlusOne_eq MaxRecordTime SamplingInterval h0 h1
  have h2 : 2 ≤ CapacityPlusOne MaxRecordTime SamplingInterval := by
    unfold CapacityPlusOne
    exact le_max_right _ _
  have h3 : CapacityPlusOne MaxRecordTime SamplingInterval ≤ 2147483648 := by
    have : (CapacityPlusOne MaxRecordTime SamplingInterval : Int) ≤ 2147483648 := by
      rw [he]
      exact max_le (by omega) (by omega)
    exact_mod_cast this
  obtain ⟨k, hk, hle, hlt⟩ := roundUpToPowerOfTwo_spec _ h2 h3
  refine ⟨rfl, k, ?_, hle, hlt⟩
  unfold InitializeFrameQueue NewCircularQueue
  simp only [hk]
  have : 1 ≤ 2 ^ k := Nat.one_le_two_pow
  omega

/-- The `float` quotient of a number that is not negative by a positive number is not
negative. -/
theorem floatDiv_nonneg (X Y : ℚ) (hX : 0 ≤ X) (hY : 0 < Y) : 0 ≤ FloatDiv X Y := by
  unfold FloatDiv
  exact roundToFloat_nonneg _ (div_nonneg hX (le_of_lt hY))

/-- Claim C21, as the code has it: for a maximal duration that is not negative and a
positive sampling interval, with q the `float` quotient maxDuration / samplingInterval
(the ceiling of q plus one being an `int32`), `Initialize` passes `max(ceil(q) + 1, 2)` to
the constructor of the queue as `CapacityPlusOne`; the queue is empty, and the number of
samples it holds when full is `P - 1` for the least power of two `P` that is not less
than `CapacityPlusOne`. -/
theorem C21_queue_capacity_is_power_of_two_minus_one (MaxRecordTime SamplingInterval : ℚ)
    (hD : 0 ≤ MaxRecordTime) (hS : 0 < SamplingInterval)
    (hfit : ⌈FloatDiv MaxRecordTime SamplingInterval⌉ < 2147483647) :
    (CapacityPlusOne MaxRecordTime SamplingInterval : Int) =
      max (⌈FloatDiv MaxRecordTime SamplingInterval⌉ + 1) 2 ∧
    InitializeFrameQueue MaxRecordTime SamplingInterval =
      NewCircularQueue (CapacityPlusOne MaxRecordTime SamplingInterval) ∧
    (InitializeFrameQueue MaxRecordTime SamplingInterval).Items = [] ∧
    ∃ k : Nat,
      (InitializeFrameQueue MaxRecordTime SamplingInterval).Capacity + 1 = 2 ^ k ∧
      CapacityPlusOne MaxRecordTime SamplingInterval ≤ 2 ^ k ∧
      2 ^ k < 2 * CapacityPlusOne MaxRecordTime SamplingInterval :=
  ⟨capacityPlusOne_eq MaxRecordTime SamplingInterval
     (floatDiv_nonneg MaxRecordTime SamplingInterval hD hS) hfit,
   rfl,
   initializeFrameQueue_capacity MaxRecordTime SamplingInterval
     (floatDiv_nonneg MaxRecordTime SamplingInterval hD hS) hfit⟩

/-- The amended claim C21 for the default options: a maximal duration of 5 and the
sampling interval `0.1f`. -/
theorem C21_queue_capacity_is_power_of_two_minus_one_witness :
    (CapacityPlusOne 5 float0_1 : Int) = max (⌈FloatDiv 5 float0_1⌉ + 1) 2 ∧
    InitializeFrameQueue 5 float0_1 = NewCircularQueue (CapacityPlusOne 5 float0_1) ∧
    (InitializeFrameQueue 5 float0_1).Items = [] ∧
    ∃ k : Nat,
      (InitializeFrameQueue 5 float0_1).Capacity + 1 = 2 ^ k ∧
      CapacityPlusOne 5 float0_1 ≤ 2 ^ k ∧
      2 ^ k < 2 * CapacityPlusOne 5 float0_1 :=
  C21_queue_capacity_is_power_of_two_minus_one 5 float0_1 (by norm_num)
    (by unfold float0_1; norm_num) (by decide!)

/-- Claim C21 as stated fails: with the default options, a maximal duration of 5 and the
sampling interval `0.1f`, the claimed capacity is 51 (the exact and the `float` quotient
both have the ceiling 50), which is the value passed to the constructor; the queue that
`Initialize` creates holds 63 samples. -/
theorem C21_queue_of_five_seconds_holds_63 :
    max (⌈(5 : ℚ) / float0_1⌉ + 1) 2 = 51 ∧
    max (⌈FloatDiv 5 float0_1⌉ + 1) 2 = 51 ∧
    CapacityPlusOne 5 float0_1 = 51 ∧
    (InitializeFrameQueue 5 float0_1).Capacity = 63 := by
  refine ⟨?_, ?_, ?_, ?_⟩ <;> decide!

/-- The quotient that `Initialize` takes the ceiling of is the `float` one: with the
maximal duration `0.3f` and the sampling interval `0.1f` the `float` quotient is 3, where
the exact quotient of the two values is greater than 3; the value passed to the
constructor is 4 and the queue holds 3 samples. -/
theorem capacity_uses_float_quotient :
    FloatDiv float0_3 float0_1 = 3 ∧
    ⌈float0_3 / float0_1⌉ = 4 ∧
    CapacityPlusOne float0_3 float0_1 = 4 ∧
    (InitializeFrameQueue float0_3 float0_1).Capacity = 3 := by
  refine ⟨?_, ?_, ?_, ?_⟩ <;> decide!

/-- Claim C22: on a queue that holds at least one sample when full and is not over its
capacity, the push of the recorder leaves the previous samples in their order, without
the oldest one when the queue was full, followed by the new sample; the number of queued
samples does not exceed the capacity, which stays as it is. -/
theorem C22_push_drops_oldest_when_full (Q : TCircularQueue) (NewFrame : FRecordFrame)
    (hcap : 1 ≤ Q.Capacity) (hinv : Q.Items.length ≤ Q.Capacity) :
    (PushFrame Q NewFrame).Items =
      (if Q.Items.length = Q.Capacity then Q.Items.tail else Q.Items) ++ [NewFrame] ∧
    (PushFrame Q NewFrame).Items.length ≤ Q.Capacity ∧
    (PushFrame Q NewFrame).Capacity = Q.Capacity := by
  unfold PushFrame
  by_cases hfull : Q.Items.length = Q.Capacity
  · have hge : Q.Items.length ≥ Q.Capacity := by omega
    have hlt : Q.Items.tail.length < Q.Capacity := by
      rw [List.length_tail]
      omega
    rw [if_pos hge, if_pos hfull]
    simp only []
    rw [if_pos hlt]
    refine ⟨rfl, ?_, rfl⟩
    simp only [List.length_append, List.length_singleton]
    omega
  · have hge : ¬ Q.Items.length ≥ Q.Capacity := by omega
    have hlt : Q.Items.length < Q.Capacity := by omega
    rw [if_neg hge, if_neg hfull, if_pos hlt]
    refine ⟨rfl, ?_, rfl⟩
    simp only [List.length_append, List.length_singleton]
    omega

/-- Claim C22 on a queue of capacity 1 that is full: the queued sample is replaced. -/
theorem C22_push_drops_oldest_when_full_witness :
    (PushFrame { Items := [frameAt 0 0], Capacity := 1 } (frameAt 1 1)).Items =
      (if ([frameAt 0 0] : List FRecordFrame).length = 1 then
        ([frameAt 0 0] : List FRecordFrame).tail else [frameAt 0 0]) ++ [frameAt 1 1] ∧
    (PushFrame { Items := [frameAt 0 0], Capacity := 1 } (frameAt 1 1)).Items.length ≤ 1 ∧
    (PushFrame { Items := [frameAt 0 0], Capacity := 1 } (frameAt 1 1)).Capacity = 1 :=
  C22_push_drops_oldest_when_full { Items := [frameAt 0 0], Capacity := 1 } (frameAt 1 1)
    (by decide) (by decide)

/-! ### Validity of clips and the collection in `StopRecording` -/

/-- The clip returned by `URecordComponent::CookQueuedFrames` has no sample or at least
two samples. -/
theorem recorder_cook_frames (R : URecordComponent) (BaseTime : ℚ) :
    (R.CookQueuedFrames BaseTime).1.RecordedFrames = [] ∨
      2 ≤ (R.CookQueuedFrames BaseTime).1.RecordedFrames.length := by
  unfold URecordComponent.CookQueuedFrames
  simp only []
  cases hs : (CookQueuedFrames R.SamplingInterval BaseTime R.FrameQueue
      { NewRecordActorSaveData with PrimaryComponentName := R.PrimaryComponentName }
      R.ComponentActiveIntervals).Success with
  | false =>
    left
    rw [(cook_failure _ _ _ _ _ hs).1]
    rfl
  | true =>
    right
    rw [cook_frames _ _ _ _ _ hs]
    exact (cook_success_iff _ _ _ _ _).1 hs

/-- Every clip that the terminated-entity manager returns has at least two samples. -/
theorem cookTerminated_mem (SamplingInterval BaseTime : ℚ)
    (Terminated : List FRecordComponentData) (A : FRecordActorSaveData)
    (h : A ∈ CookTerminated SamplingInterval BaseTime Terminated) :
    2 ≤ A.RecordedFrames.length := by
  induction Terminated with
  | nil => simp [CookTerminated] at h
  | cons D rest ih =>
    simp only [CookTerminated] at h
    cases hs : (CookQueuedFrames SamplingInterval BaseTime D.FrameQueue D.GhostSaveData
        D.ComponentIntervals).Success with
    | false =>
      rw [hs] at h
      exact ih (by simpa using h)
    | true =>
      rw [hs] at h
      simp only [if_true, List.mem_cons] at h
      rcases h with h | h
      · rw [h, cook_frames _ _ _ _ _ hs]
        exact (cook_success_iff _ _ _ _ _).1 hs
      · exact ih h

/-- Every clip collected from the active recorders has at least two samples. -/
theorem collectActive_mem (BaseTime : ℚ) (ActiveRecorders : List URecordComponent)
    (A : FRecordActorSaveData) (h : A ∈ CollectActive BaseTime ActiveRecorders) :
    2 ≤ A.RecordedFrames.length := by
  induction ActiveRecorders with
  | nil => simp [CollectActive] at h
  | cons R rest ih =>
    simp only [CollectActive] at h
    by_cases h0 : (R.CookQueuedFrames BaseTime).1.RecordedFrames.length = 0
    · rw [if_pos h0] at h
      exact ih h
    · rw [if_neg h0] at h
      rcases List.mem_cons.1 h with h | h
      · rcases recorder_cook_frames R BaseTime with h1 | h1
        · rw [h1] at h0
          exact absurd rfl h0
        · rw [h]
          exact h1
      · exact ih h

/-- The collection of `StopRecording` on one terminated entity with three queued samples
and one active recorder with no sample: the clip of the terminated entity is collected. -/
theorem collect_example :
    CollectRecordActorSaveData (1 / 10) 0
        [{ ActorName := "A", FrameQueue := { Items := framesFrom 0 3, Capacity := 4 },
           GhostSaveData := NewRecordActorSaveData, ComponentIntervals := [] }]
        [freshRecorder 4] =
      [{ NewRecordActorSaveData with RecordedFrames := framesFrom 0 3 }] := by
  decide!

/-- Claim C20, as the code has it: `FRecordActorSaveData::IsValid` returns true exactly
for the clips that have at least one sample, and every clip that `StopRecording`
collects for a group, from the terminated entities and from the active recorders, has
at least two samples, because a cook leaves no sample or at least two. -/
theorem C20_valid_iff_one_sample_and_collected_have_two :
    (∀ A : FRecordActorSaveData, A.IsValid = true ↔ 1 ≤ A.RecordedFrames.length) ∧
    (∀ (SamplingInterval BaseTime : ℚ) (Terminated : List FRecordComponentData)
        (ActiveRecorders : List URecordComponent) (A : FRecordActorSaveData),
        A ∈ CollectRecordActorSaveData SamplingInterval BaseTime Terminated ActiveRecorders →
          2 ≤ A.RecordedFrames.length) := by
  refine ⟨?_, ?_⟩
  · intro A
    simp [FRecordActorSaveData.IsValid, Nat.succ_le_iff, List.length_pos]
  · intro SamplingInterval BaseTime Terminated ActiveRecorders A h
    rcases List.mem_append.1 h with h | h
    · exact cookTerminated_mem SamplingInterval BaseTime Terminated A
        (List.mem_filter.1 h).1
    · exact collectActive_mem BaseTime ActiveRecorders A h

/-- Claim C20 as stated fails: a clip with exactly one sample is valid for
`FRecordActorSaveData::IsValid`. -/
theorem C20_one_sample_clip_is_valid :
    oneSampleClip.RecordedFrames.length = 1 ∧ oneSampleClip.IsValid = true := by
  decide!
/-! ### Range accumulator: what `ComputeRanges` keeps and which keys it fills in -/

theorem RangesExtend.refl (A : FRecordActorSaveData) : RangesExtend A A :=
  ⟨rfl, rfl, rfl, id, id, fun _ h => h, fun _ h => h⟩

theorem RangesExtend.trans {A B C : FRecordActorSaveData} (h1 : RangesExtend A B)
    (h2 : RangesExtend B C) : RangesExtend A C :=
  ⟨h2.1.trans h1.1, h2.2.1.trans h1.2.1, h2.2.2.1.trans h1.2.2.1,
    fun h => h2.2.2.2.1 (h1.2.2.2.1 h), fun h => h2.2.2.2.2.1 (h1.2.2.2.2.1 h),
    fun k h => h2.2.2.2.2.2.1 k (h1.2.2.2.2.2.1 k h),
    fun k h => h2.2.2.2.2.2.2 k (h1.2.2.2.2.2.2 k h)⟩

theorem computeBonePair_extends (A : FRecordActorSaveData) (Pair : String × FBoneComponentSpace) :
    RangesExtend A (ComputeBonePair A Pair) := by
  refine ⟨rfl, rfl, rfl, ?_, ?_, ?_, ?_⟩
  · exact fun h => tmapAdd_nodupKeys _ _ _ h
  · exact fun h => tmapAdd_nodupKeys _ _ _ h
  · exact fun k h => (tmapAdd_keys_mem _ _ _ k).mpr (Or.inr h)
  · exact fun k h => (tmapAdd_keys_mem _ _ _ k).mpr (Or.inr h)

theorem computeBonePair_key (A : FRecordActorSaveData) (Pair : String × FBoneComponentSpace) :
    Pair.1 ∈ (ComputeBonePair A Pair).BoneRanges.map Prod.fst ∧
      Pair.1 ∈ (ComputeBonePair A Pair).BoneScaleRanges.map Prod.fst :=
  ⟨(tmapAdd_keys_mem _ _ _ _).mpr (Or.inl rfl), (tmapAdd_keys_mem _ _ _ _).mpr (Or.inl rfl)⟩

theorem foldl_computeBonePair_extends (Pairs : List (String × FBoneComponentSpace)) :
    ∀ A : FRecordActorSaveData, RangesExtend A (Pairs.foldl ComputeBonePair A) := by
  induction Pairs with
  | nil => exact fun A => RangesExtend.refl A
  | cons p t ih => exact fun A => (computeBonePair_extends A p).trans (ih _)

theorem foldl_computeBonePair_keys (Pairs : List (String × FBoneComponentSpace)) :
    ∀ A : FRecordActorSaveData, ∀ p ∈ Pairs,
      p.1 ∈ (Pairs.foldl ComputeBonePair A).BoneRanges.map Prod.fst ∧
        p.1 ∈ (Pairs.foldl ComputeBonePair A).BoneScaleRanges.map Prod.fst := by
  induction Pairs with
  | nil => intro A p hp; cases hp
  | cons q t ih =>
    intro A p hp
    rcases List.mem_cons.mp hp with rfl | hp
    · have hk := computeBonePair_key A p
      have hext := foldl_computeBonePair_extends t (ComputeBonePair A p)
      exact ⟨hext.2.2.2.2.2.1 _ hk.1, hext.2.2.2.2.2.2 _ hk.2⟩
    · exact ih _ p hp

theorem computeComponentPair_extends (S : RangeState) (Pair : String × FTransform) :
    RangesExtend S.ActorData (ComputeComponentPair S Pair).ActorData :=
  ⟨rfl, rfl, rfl, id, id, fun _ h => h, fun _ h => h⟩

theorem foldl_computeComponentPair_extends (Pairs : List (String × FTransform)) :
    ∀ S : RangeState,
      RangesExtend S.ActorData (Pairs.foldl ComputeComponentPair S).ActorData := by
  induction Pairs with
  | nil => exact fun S => RangesExtend.refl _
  | cons p t ih => exact fun S => (computeComponentPair_extends S p).trans (ih _)

theorem computeFrame_extends (S : RangeState) (Frame : FRecordFrame) :
    RangesExtend S.ActorData (ComputeFrame S Frame).ActorData :=
  (foldl_computeBonePair_extends Frame.SkeletalMeshBoneTransforms S.ActorData).trans
    (foldl_computeComponentPair_extends Frame.ComponentTransforms _)

theorem computeFrame_keys (S : RangeState) (Frame : FRecordFrame) :
    ∀ p ∈ Frame.SkeletalMeshBoneTransforms,
      p.1 ∈ (ComputeFrame S Frame).ActorData.BoneRanges.map Prod.fst ∧
        p.1 ∈ (ComputeFrame S Frame).ActorData.BoneScaleRanges.map Prod.fst := by
  intro p hp
  have hk := foldl_computeBonePair_keys Frame.SkeletalMeshBoneTransforms S.ActorData p hp
  have hext := foldl_computeComponentPair_extends Frame.ComponentTransforms
    { S with ActorData := Frame.SkeletalMeshBoneTransforms.foldl ComputeBonePair S.ActorData }
  exact ⟨hext.2.2.2.2.2.1 _ hk.1, hext.2.2.2.2.2.2 _ hk.2⟩

theorem foldl_computeFrame_extends (Frames : List FRecordFrame) :
    ∀ S : RangeState, RangesExtend S.ActorData (Frames.foldl ComputeFrame S).ActorData := by
  induction Frames with
  | nil => exact fun S => RangesExtend.refl _
  | cons F t ih => exact fun S => (computeFrame_extends S F).trans (ih _)

theorem foldl_computeFrame_keys (Frames : List FRecordFrame) :
    ∀ S : RangeState, ∀ F ∈ Frames, ∀ p ∈ F.SkeletalMeshBoneTransforms,
      p.1 ∈ (Frames.foldl ComputeFrame S).ActorData.BoneRanges.map Prod.fst ∧
        p.1 ∈ (Frames.foldl ComputeFrame S).ActorData.BoneScaleRanges.map Prod.fst := by
  induction Frames with
  | nil => intro S F hF; cases hF
  | cons G t ih =>
    intro S F hF p hp
    rcases List.mem_cons.mp hF with rfl | hF
    · have hk := computeFrame_keys S F p hp
      have hext := foldl_computeFrame_extends t (ComputeFrame S F)
      exact ⟨hext.2.2.2.2.2.1 _ hk.1, hext.2.2.2.2.2.2 _ hk.2⟩
    · exact ih _ F hF p hp

/-- `ComputeRanges` leaves name, intervals and samples of a clip as they are. -/
theorem computeActorRanges_fields (A : FRecordActorSaveData) :
    (ComputeActorRanges A).PrimaryComponentName = A.PrimaryComponentName ∧
      (ComputeActorRanges A).ComponentIntervals = A.ComponentIntervals ∧
      (ComputeActorRanges A).RecordedFrames = A.RecordedFrames := by
  have h := foldl_computeFrame_extends A.RecordedFrames
    { ActorData :=
        { A with BoneRanges := [], BoneScaleRanges := [], ComponentRanges := DefaultLocRange },
      bIsComponentRangeInitialized := false,
      bIsComponentScaleRangeInitialized := false }
  exact ⟨h.1, h.2.1, h.2.2.1⟩

/-- After `ComputeRanges` both bone maps of a clip have pairwise distinct keys. -/
theorem computeActorRanges_nodupKeys (A : FRecordActorSaveData) :
    NodupKeys (ComputeActorRanges A).BoneRanges ∧
      NodupKeys (ComputeActorRanges A).BoneScaleRanges := by
  have h := foldl_computeFrame_extends A.RecordedFrames
    { ActorData :=
        { A with BoneRanges := [], BoneScaleRanges := [], ComponentRanges := DefaultLocRange },
      bIsComponentRangeInitialized := false,
      bIsComponentScaleRangeInitialized := false }
  exact ⟨h.2.2.2.1 List.nodup_nil, h.2.2.2.2.1 List.nodup_nil⟩

/-- After `ComputeRanges` every bone-set name of every sample of a clip has an entry in
both bone maps of the clip. -/
theorem computeActorRanges_keys (A : FRecordActorSaveData) :
    ∀ F ∈ (ComputeActorRanges A).RecordedFrames, ∀ p ∈ F.SkeletalMeshBoneTransforms,
      (TMapFind (ComputeActorRanges A).BoneRanges p.1).isSome = true ∧
        (TMapFind (ComputeActorRanges A).BoneScaleRanges p.1).isSome = true := by
  intro F hF p hp
  rw [(computeActorRanges_fields A).2.2] at hF
  have h := foldl_computeFrame_keys A.RecordedFrames
    { ActorData :=
        { A with BoneRanges := [], BoneScaleRanges := [], ComponentRanges := DefaultLocRange },
      bIsComponentRangeInitialized := false,
      bIsComponentScaleRangeInitialized := false } F hF p hp
  exact ⟨(tmapFind_isSome_iff _ _).mpr h.1, (tmapFind_isSome_iff _ _).mpr h.2⟩

theorem computeActorRanges_wellFormed (A : FRecordActorSaveData) (h : WellFormedActor A) :
    WellFormedActor (ComputeActorRanges A) := by
  obtain ⟨h1, h2, h3⟩ := computeActorRanges_fields A
  unfold WellFormedActor at h ⊢
  rw [h2, h3]
  exact h

/-! ### Round trip of the plugin's structures -/

theorem map_fst_snd_id {κ β : Type} (M : List (κ × β)) :
    M.map (fun p => (p.1, p.2)) = M := by
  induction M with
  | nil => rfl
  | cons p t ih => rw [List.map_cons, ih]

theorem readFMaterialParameters_run (P : FMaterialParameters)
    (h : NodupKeys P.VectorParams ∧ NodupKeys P.ScalarParams) (rest : List Token) :
    ReadFMaterialParameters.run (WriteFMaterialParameters P ++ rest) = Except.ok (P, rest) := by
  unfold ReadFMaterialParameters WriteFMaterialParameters
  rw [List.append_assoc,
    Loader.run_bind_ok (readMap_writeMap (fun k => [Token.name k]) WriteFLinearColor ReadFName
      ReadFLinearColor (fun p => p.2) (fun k rest => readFName_run k rest) P.VectorParams
      (fun p _ rest => readFLinearColor_run p.2 rest) h.1 _),
    Loader.run_bind_ok (readMap_writeMap (fun k => [Token.name k]) (fun v => [Token.float v])
      ReadFName ReadFloat (fun p => p.2) (fun k rest => readFName_run k rest) P.ScalarParams
      (fun p _ rest => readFloat_run p.2 rest) h.2 _),
    map_fst_snd_id, map_fst_snd_id]
  rfl

theorem readFComponentRecord_run (R : FComponentRecord) (h : WellFormedRecord R)
    (rest : List Token) :
    ReadFComponentRecord.run (WriteFComponentRecord R ++ rest) = Except.ok (R, rest) := by
  unfold ReadFComponentRecord WriteFComponentRecord
  simp only [List.append_assoc, List.cons_append, List.nil_append]
  rw [Loader.run_bind_ok (readFString_run _ _), Loader.run_bind_ok (readFString_run _ _),
    Loader.run_bind_ok (readFString_run _ _),
    Loader.run_bind_ok (readArray_writeArray (fun s => [Token.string s]) ReadFString id
      R.MaterialPaths (fun s _ rest => readFString_run s rest) _),
    Loader.run_bind_ok (readMap_writeMap (fun k => [Token.int32 k]) WriteFMaterialParameters
      ReadInt32 ReadFMaterialParameters (fun p => p.2) (fun k rest => readInt32_run k rest)
      R.MaterialParameters (fun p hp rest => readFMaterialParameters_run p.2 (h.2 p hp) rest)
      h.1 _),
    Loader.run_bind_ok (readFString_run _ _), map_fst_snd_id, List.map_id]
  rfl

theorem readFComponentActiveInterval_run (I : FComponentActiveInterval)
    (h : WellFormedRecord I.Meta) (rest : List Token) :
    ReadFComponentActiveInterval.run (WriteFComponentActiveInterval I ++ rest) =
      Except.ok (I, rest) := by
  unfold ReadFComponentActiveInterval WriteFComponentActiveInterval
  simp only [List.append_assoc, List.cons_append, List.nil_append]
  rw [Loader.run_bind_ok (readFComponentRecord_run _ h _),
    Loader.run_bind_ok (readInt32_run _ _), Loader.run_bind_ok (readInt32_run _ _)]
  rfl

theorem readFLocRange_run (R : FLocRange) (rest : List Token) :
    ReadFLocRange.run (WriteFLocRange R ++ rest) = Except.ok (R, rest) := rfl

theorem readFScaleRange_run (R : FScaleRange) (rest : List Token) :
    ReadFScaleRange.run (WriteFScaleRange R ++ rest) = Except.ok (R, rest) := rfl

/-- A load with a tier returns the decoded encoding of the transform that was saved with
the same tier and ranges. -/
theorem deserializeQuantizedTransform_run (E : EngineQuantizers)
    (QuantOpts : ETransformQuantizationMethod) (LocRange : FLocRange) (ScaleRange : FScaleRange)
    (T : FTransform) (rest : List Token) :
    (DeserializeQuantizedTransform E QuantOpts (some LocRange) (some ScaleRange)).run
        (SerializeQuantizedTransform E T QuantOpts LocRange ScaleRange ++ rest) =
      Except.ok (DecodedTransform E QuantOpts LocRange ScaleRange T, rest) := by
  cases QuantOpts
  · exact readFTransform_run T rest
  · rfl
  · rfl
  · rfl

theorem decodedTransform_none (E : EngineQuantizers) (LocRange : FLocRange)
    (ScaleRange : FScaleRange) (T : FTransform) :
    DecodedTransform E ETransformQuantizationMethod.None LocRange ScaleRange T = T := rfl

theorem deserializeComponentTransforms_eq (E : EngineQuantizers)
    (QuantOpts : ETransformQuantizationMethod) (Range : FLocRange) (ScaleRange : FScaleRange)
    (n : Nat) :
    ∀ M, DeserializeComponentTransforms E QuantOpts Range ScaleRange n M =
      ReadMapLoop ReadFString
        (DeserializeQuantizedTransform E QuantOpts (some Range) (some ScaleRange)) n M := by
  induction n with
  | zero => intro M; rfl
  | succ n ih =>
    intro M
    simp only [DeserializeComponentTransforms, ReadMapLoop, ih]

/-- The bone loop of the load, run on what the save wrote for the bone-sets of a sample
whose names all have ranges. -/
theorem deserializeBoneMaps_run (E : EngineQuantizers) (QuantOpts : ETransformQuantizationMethod)
    (A : FRecordActorSaveData) (M : List (String × FBoneComponentSpace)) :
    ∀ (M0 : List (String × FBoneComponentSpace)),
      (∀ p ∈ M, (TMapFind A.BoneRanges p.1).isSome = true ∧
        (TMapFind A.BoneScaleRanges p.1).isSome = true) →
      (M0.map Prod.fst ++ M.map Prod.fst).Nodup → ∀ rest,
      (DeserializeBoneMaps E QuantOpts A.BoneRanges A.BoneScaleRanges M.length M0).run
          (WriteAll (SerializeBonePair E QuantOpts A) M ++ rest) =
        Except.ok
          (M0 ++ M.map (fun Pair =>
            (Pair.1,
              ({ BoneTransforms := Pair.2.BoneTransforms.map
                  (DecodedTransform E QuantOpts
                    ((TMapFind A.BoneRanges Pair.1).getD DefaultLocRange)
                    ((TMapFind A.BoneScaleRanges Pair.1).getD DefaultScaleRange)) } :
                FBoneComponentSpace))), rest) := by
  induction M with
  | nil =>
    intro M0 _ _ rest
    simp only [List.length_nil, DeserializeBoneMaps, WriteAll, List.nil_append, List.map_nil,
      List.append_nil]
    rfl
  | cons p t ih =>
    intro M0 hcov hnd rest
    obtain ⟨hR, hS⟩ := hcov p (List.mem_cons_self _ _)
    obtain ⟨R, hR⟩ := Option.isSome_iff_exists.mp hR
    obtain ⟨S, hS⟩ := Option.isSome_iff_exists.mp hS
    simp only [List.length_cons, DeserializeBoneMaps, WriteAll, SerializeBonePair, hR, hS,
      List.append_assoc, List.cons_append, List.nil_append, Option.getD_some]
    rw [Loader.run_bind_ok (readFString_run _ _), Loader.run_bind_ok (readInt32_run _ _),
      Int.toNat_ofNat, hR, hS,
      Loader.run_bind_ok (readRepeat_writeAll
        (fun BoneT => SerializeQuantizedTransform E BoneT QuantOpts R S)
        (DeserializeQuantizedTransform E QuantOpts (some R) (some S))
        (DecodedTransform E QuantOpts R S) p.2.BoneTransforms
        (fun T _ rest => deserializeQuantizedTransform_run E QuantOpts R S T rest) _)]
    have hnot : p.1 ∉ M0.map Prod.fst := by
      intro hmem
      rw [List.map_cons] at hnd
      exact (List.nodup_append.mp hnd).2.2 hmem (List.mem_cons_self _ _)
    rw [tmapAdd_of_not_mem M0 p.1 _ hnot]
    have hnd2 : ((M0 ++ [(p.1, FBoneComponentSpace.mk (p.2.BoneTransforms.map
        (DecodedTransform E QuantOpts R S)))]).map Prod.fst ++
        t.map Prod.fst).Nodup := by
      simpa [List.map_append, List.append_assoc] using hnd
    rw [ih _ (fun q hq => hcov q (List.mem_cons_of_mem _ hq)) hnd2]
    simp [hR, hS]

/-- Load of a saved sample. -/
theorem deserializeFrame_run (E : EngineQuantizers) (QuantOpts : ETransformQuantizationMethod)
    (A : FRecordActorSaveData) (F : FRecordFrame) (hwf : WellFormedFrame F)
    (hcov : ∀ p ∈ F.SkeletalMeshBoneTransforms,
      (TMapFind A.BoneRanges p.1).isSome = true ∧
        (TMapFind A.BoneScaleRanges p.1).isSome = true)
    (rest : List Token) :
    (DeserializeFrame E QuantOpts A.ComponentRanges A.ComponentScaleRanges A.BoneRanges
        A.BoneScaleRanges).run (SerializeFrame E QuantOpts A F ++ rest) =
      Except.ok (DecodedFrame E QuantOpts A F, rest) := by
  unfold DeserializeFrame SerializeFrame
  simp only [List.append_assoc, List.cons_append, List.nil_append]
  rw [Loader.run_bind_ok (readFloat_run _ _), Loader.run_bind_ok (readInt32_run _ _),
    Loader.run_bind_ok (readInt32_run _ _), Int.toNat_ofNat, deserializeComponentTransforms_eq]
  have hcomp := readMapLoop_writeAll (fun k => [Token.string k])
    (fun T => SerializeQuantizedTransform E T QuantOpts A.ComponentRanges A.ComponentScaleRanges)
    ReadFString
    (DeserializeQuantizedTransform E QuantOpts (some A.ComponentRanges)
      (some A.ComponentScaleRanges))
    (fun p => DecodedTransform E QuantOpts A.ComponentRanges A.ComponentScaleRanges p.2)
    (fun k rest => readFString_run k rest) F.ComponentTransforms []
    (fun p _ rest => deserializeQuantizedTransform_run E QuantOpts _ _ p.2 rest)
    (by simpa using hwf.1)
  simp only [List.cons_append, List.nil_append] at hcomp
  rw [Loader.run_bind_ok (hcomp _), Loader.run_bind_ok (readInt32_run _ _), Int.toNat_ofNat,
    Loader.run_bind_ok (deserializeBoneMaps_run E QuantOpts A F.SkeletalMeshBoneTransforms []
      hcov (by simpa using hwf.2) _)]
  rfl

/-- Load of a saved clip whose bone maps hold every bone-set name of its samples. -/
theorem deserializeActor_run (E : EngineQuantizers) (QuantOpts : ETransformQuantizationMethod)
    (A : FRecordActorSaveData) (hwf : WellFormedActor A)
    (hnd : NodupKeys A.BoneRanges ∧ NodupKeys A.BoneScaleRanges)
    (hcov : ∀ F ∈ A.RecordedFrames, ∀ p ∈ F.SkeletalMeshBoneTransforms,
      (TMapFind A.BoneRanges p.1).isSome = true ∧
        (TMapFind A.BoneScaleRanges p.1).isSome = true)
    (rest : List Token) :
    (DeserializeActor E QuantOpts).run (SerializeActor E QuantOpts A ++ rest) =
      Except.ok (DecodedActor E QuantOpts A, rest) := by
  unfold DeserializeActor SerializeActor
  simp only [List.append_assoc, List.cons_append, List.nil_append]
  rw [Loader.run_bind_ok (readFName_run _ _),
    Loader.run_bind_ok (readArray_writeArray WriteFComponentActiveInterval
      ReadFComponentActiveInterval id A.ComponentIntervals
      (fun I hI rest => readFComponentActiveInterval_run I (hwf.1 I hI) rest) _),
    Loader.run_bind_ok (readFLocRange_run _ _), Loader.run_bind_ok (readFScaleRange_run _ _),
    Loader.run_bind_ok (readMap_writeMap (fun k => [Token.string k]) WriteFLocRange ReadFString
      ReadFLocRange (fun p => p.2) (fun k rest => readFString_run k rest) A.BoneRanges
      (fun p _ rest => readFLocRange_run p.2 rest) hnd.1 _),
    Loader.run_bind_ok (readMap_writeMap (fun k => [Token.string k]) WriteFScaleRange
      ReadFString ReadFScaleRange (fun p => p.2) (fun k rest => readFString_run k rest)
      A.BoneScaleRanges (fun p _ rest => readFScaleRange_run p.2 rest) hnd.2 _),
    Loader.run_bind_ok (readInt32_run _ _), Int.toNat_ofNat, map_fst_snd_id, map_fst_snd_id,
    Loader.run_bind_ok (readRepeat_writeAll (SerializeFrame E QuantOpts A)
      (DeserializeFrame E QuantOpts A.ComponentRanges A.ComponentScaleRanges A.BoneRanges
        A.BoneScaleRanges) (DecodedFrame E QuantOpts A) A.RecordedFrames
      (fun F hF rest => deserializeFrame_run E QuantOpts A F (hwf.2 F hF) (hcov F hF) rest) _),
    List.map_id]
  rfl

/-- Load of a saved body: the computed clips, every transform decoded. -/
theorem deserializeSaveData_run (E : EngineQuantizers) (QuantOpts : ETransformQuantizationMethod)
    (D : List FRecordActorSaveData) (hwf : ∀ A ∈ D, WellFormedActor A) (rest : List Token) :
    (DeserializeSaveData E QuantOpts).run ((SerializeSaveData E D QuantOpts).1 ++ rest) =
      Except.ok ((ComputeRanges D).map (DecodedActor E QuantOpts), rest) := by
  unfold DeserializeSaveData SerializeSaveData
  simp only [List.cons_append]
  rw [Loader.run_bind_ok (readInt32_run _ _), Int.toNat_ofNat]
  apply readRepeat_writeAll
  intro A hA rest
  obtain ⟨A0, hA0, rfl⟩ := List.mem_map.mp hA
  exact deserializeActor_run E QuantOpts _ (computeActorRanges_wellFormed A0 (hwf A0 hA0))
    (computeActorRanges_nodupKeys A0) (computeActorRanges_keys A0) rest

theorem decodedFrame_structure (E : EngineQuantizers) (QuantOpts : ETransformQuantizationMethod)
    (A : FRecordActorSaveData) (F : FRecordFrame) :
    SameFrameStructure (DecodedFrame E QuantOpts A F) F := by
  refine ⟨rfl, rfl, ?_, ?_⟩
  · simp [DecodedFrame, List.map_map, Function.comp_def]
  · simp [DecodedFrame, List.map_map, Function.comp_def]

theorem decodedActor_structure (E : EngineQuantizers) (QuantOpts : ETransformQuantizationMethod)
    (A : FRecordActorSaveData) : SameClipStructure (DecodedActor E QuantOpts A) A := by
  refine ⟨rfl, rfl, rfl, rfl, rfl, rfl, ?_, ?_⟩
  · simp [DecodedActor]
  · simp only [DecodedActor]
    rw [List.forall₂_map_left_iff]
    exact List.forall₂_same.mpr (fun F _ => decodedFrame_structure E QuantOpts A F)

theorem decodedFrame_none (E : EngineQuantizers) (A : FRecordActorSaveData) (F : FRecordFrame) :
    DecodedFrame E ETransformQuantizationMethod.None A F = F := by
  have hc : ∀ M : List (String × FTransform),
      M.map (fun Pair => (Pair.1, DecodedTransform E ETransformQuantizationMethod.None
        A.ComponentRanges A.ComponentScaleRanges Pair.2)) = M := by
    intro M
    induction M with
    | nil => rfl
    | cons p t ih => rw [List.map_cons, ih]; rfl
  have hb : ∀ M : List (String × FBoneComponentSpace),
      M.map (fun Pair => (Pair.1, FBoneComponentSpace.mk (Pair.2.BoneTransforms.map
        (DecodedTransform E ETransformQuantizationMethod.None
          ((TMapFind A.BoneRanges Pair.1).getD DefaultLocRange)
          ((TMapFind A.BoneScaleRanges Pair.1).getD DefaultScaleRange))))) = M := by
    intro M
    induction M with
    | nil => rfl
    | cons p t ih =>
      rw [List.map_cons, ih]
      have hid : DecodedTransform E ETransformQuantizationMethod.None
          ((TMapFind A.BoneRanges p.1).getD DefaultLocRange)
          ((TMapFind A.BoneScaleRanges p.1).getD DefaultScaleRange) = id := by
        funext T
        rfl
      rw [hid, List.map_id]
  unfold DecodedFrame
  rw [hc, hb]

theorem decodedActor_none (E : EngineQuantizers) (A : FRecordActorSaveData) :
    DecodedActor E ETransformQuantizationMethod.None A = A := by
  simp only [DecodedActor]
  have hf : DecodedFrame E ETransformQuantizationMethod.None A = id := by
    funext F
    exact decodedFrame_none E A F
  rw [hf, List.map_id]

/-- C1: for every body (an array of clips whose `TMap`s have pairwise distinct keys) and
every quantization tier, `DeserializeSaveData` applied to what `SerializeSaveData` wrote
consumes the whole archive and yields as many clips as were saved; clip by clip the
result has the primary sub-part name, the interval list, the global and per-bone-set
ranges computed by `ComputeRanges`, the frame count and, frame by frame, the time stamp,
frame index, sub-part names and bone counts of the saved clip (`ComputeRanges` itself
leaves name, intervals and samples of the input untouched); with tier `None` the result
is equal to the saved clips, so every transform is reproduced exactly. -/
theorem C1_deserialize_after_serialize (E : EngineQuantizers)
    (QuantOpts : ETransformQuantizationMethod) (D : List FRecordActorSaveData)
    (hwf : ∀ A ∈ D, WellFormedActor A) :
    ∃ Out : List FRecordActorSaveData,
      (DeserializeSaveData E QuantOpts).run (SerializeSaveData E D QuantOpts).1 =
        Except.ok (Out, []) ∧
      Out.length = D.length ∧
      List.Forall₂ SameClipStructure Out (ComputeRanges D) ∧
      List.Forall₂
        (fun C A => C.PrimaryComponentName = A.PrimaryComponentName ∧
          C.ComponentIntervals = A.ComponentIntervals ∧ C.RecordedFrames = A.RecordedFrames)
        (ComputeRanges D) D ∧
      (QuantOpts = ETransformQuantizationMethod.None → Out = ComputeRanges D) := by
  refine ⟨(ComputeRanges D).map (DecodedActor E QuantOpts), ?_, ?_, ?_, ?_, ?_⟩
  · have h := deserializeSaveData_run E QuantOpts D hwf []
    rwa [List.append_nil] at h
  · simp [ComputeRanges]
  · rw [List.forall₂_map_left_iff]
    exact List.forall₂_same.mpr (fun A _ => decodedActor_structure E QuantOpts A)
  · unfold ComputeRanges
    rw [List.forall₂_map_left_iff]
    exact List.forall₂_same.mpr (fun A _ => computeActorRanges_fields A)
  · intro hq
    subst hq
    have hf : DecodedActor E ETransformQuantizationMethod.None = id := by
      funext A
      exact decodedActor_none E A
    rw [hf, List.map_id]

/-- Witness of C1: one clip with sub-part and bone transforms, tier `Standard_Low`. -/
theorem C1_deserialize_after_serialize_witness :
    (∀ A ∈ [sampleClip], WellFormedActor A) ∧
    ∃ Out : List FRecordActorSaveData,
      (DeserializeSaveData sampleQuantizers ETransformQuantizationMethod.Standard_Low).run
          (SerializeSaveData sampleQuantizers [sampleClip]
            ETransformQuantizationMethod.Standard_Low).1 = Except.ok (Out, []) ∧
      Out.length = [sampleClip].length ∧
      List.Forall₂ SameClipStructure Out (ComputeRanges [sampleClip]) ∧
      List.Forall₂
        (fun C A => C.PrimaryComponentName = A.PrimaryComponentName ∧
          C.ComponentIntervals = A.ComponentIntervals ∧ C.RecordedFrames = A.RecordedFrames)
        (ComputeRanges [sampleClip]) [sampleClip] ∧
      (ETransformQuantizationMethod.Standard_Low = ETransformQuantizationMethod.None →
        Out = ComputeRanges [sampleClip]) :=
  ⟨by decide, C1_deserialize_after_serialize sampleQuantizers
    ETransformQuantizationMethod.Standard_Low [sampleClip] (by decide)⟩

/-! ### Range accumulator: the stored bone ranges -/

/-- C11, evaluation at the failing input: the bone-set `"Body_1"` has one bone, at the
origin in the first sample and at `(5, 5, 5)` in the second. The component-wise minimum
of the recorded positions is the origin, but after `ComputeRanges` the stored position
range is `[(5, 5, 5), (5, 5, 5)]`: at the second sample the running range is nearly
zero, is taken for a fresh one and is seeded again, so the recorded position at the
origin lies outside the stored range. -/
theorem C11_bone_range_reseeded_after_origin :
    (originThenFiveClip.RecordedFrames.map
      (fun F => F.SkeletalMeshBoneTransforms.map
        (fun p => (p.1, p.2.BoneTransforms.map (fun T => T.Translation))))) =
      [[("Body_1", [vec 0 0 0])], [("Body_1", [vec 5 5 5])]] ∧
    (ComputeRanges [originThenFiveClip]).map (fun A => A.BoneRanges) =
      [[("Body_1", { PosMin := vec 5 5 5, PosMax := vec 5 5 5 })]] ∧
    ¬ ((vec 5 5 5).X ≤ (vec 0 0 0).X) := by
  decide!

/-- C12, evaluation at the failing input: the bone-set `"Body_1"` has one bone with the
scale `(2, 2, 2)` in the first sample and `(3, 3, 3)` in the second. The component-wise
minimum and maximum of the observed scales are `(2, 2, 2)` and `(3, 3, 3)`, but after
`ComputeRanges` the stored scale range is `[(1, 1, 1), (3, 3, 3)]`: the range starts
from the default `FScaleRange()`, which is not nearly zero, so it is never seeded from
the first observed scale and the default 1 widens it. -/
theorem C12_bone_scale_range_keeps_default :
    (scaledBoneClip.RecordedFrames.map
      (fun F => F.SkeletalMeshBoneTransforms.map
        (fun p => (p.1, p.2.BoneTransforms.map (fun T => T.Scale3D))))) =
      [[("Body_1", [vec 2 2 2])], [("Body_1", [vec 3 3 3])]] ∧
    (ComputeRanges [scaledBoneClip]).map (fun A => A.BoneScaleRanges) =
      [[("Body_1", { ScaleMin := vec 1 1 1, ScaleMax := vec 3 3 3 })]] := by
  decide!


/-- Claim C19 fails on a body of tier `Standard_Low` whose single sample names the
bone-set `Body_1` while the bone range maps of the clip are empty: the decoder reads the
three packed words of the bone transform and then dereferences the null range pointer;
no failure is reported and no clip is returned. -/
theorem C19_low_tier_decode_dereferences_null_range :
    TMapFind ([] : List (String × FLocRange)) "Body_1" = none ∧
    (DeserializeSaveData sampleQuantizers ETransformQuantizationMethod.Standard_Low).run
      lowBodyWithoutRange = Except.error ArchiveError.nullRange :=
  ⟨rfl, rfl⟩

/-- Claim C30: after `ComputeRanges`, for every clip, every sample of the clip and every
bone-set of the sample, the name of the bone-set has an entry in the bone position ranges
and in the bone scale ranges of the clip, and `SerializeSaveData` writes for the bone-set
its name, the bone count, and then one quantized transform for each of its bone
transforms: as many as the bone count. -/
theorem C30_bone_ranges_cover_every_bone_set (E : EngineQuantizers)
    (QuantOpts : ETransformQuantizationMethod) (D : List FRecordActorSaveData)
    (A : FRecordActorSaveData) (hA : A ∈ ComputeRanges D)
    (F : FRecordFrame) (hF : F ∈ A.RecordedFrames)
    (BonePair : String × FBoneComponentSpace) (hB : BonePair ∈ F.SkeletalMeshBoneTransforms) :
    ∃ (Range : FLocRange) (ScaleRange : FScaleRange),
      TMapFind A.BoneRanges BonePair.1 = some Range ∧
      TMapFind A.BoneScaleRanges BonePair.1 = some ScaleRange ∧
      SerializeBonePair E QuantOpts A BonePair =
        [Token.string BonePair.1, Token.int32 BonePair.2.BoneTransforms.length] ++
          WriteAll (fun BoneT => SerializeQuantizedTransform E BoneT QuantOpts Range ScaleRange)
            BonePair.2.BoneTransforms := by
  unfold ComputeRanges at hA
  obtain ⟨A0, -, rfl⟩ := List.mem_map.1 hA
  obtain ⟨h1, h2⟩ := computeActorRanges_keys A0 F hF BonePair hB
  obtain ⟨Range, hR⟩ := Option.isSome_iff_exists.1 h1
  obtain ⟨ScaleRange, hSR⟩ := Option.isSome_iff_exists.1 h2
  refine ⟨Range, ScaleRange, hR, hSR, ?_⟩
  unfold SerializeBonePair
  rw [hR, hSR]

/-- Claim C30 on the example clip, its first sample and the bone-set `Body_1`. -/
theorem C30_bone_ranges_cover_every_bone_set_witness :
    ∃ (Range : FLocRange) (ScaleRange : FScaleRange),
      TMapFind (ComputeActorRanges sampleClip).BoneRanges "Body_1" = some Range ∧
      TMapFind (ComputeActorRanges sampleClip).BoneScaleRanges "Body_1" = some ScaleRange ∧
      SerializeBonePair sampleQuantizers ETransformQuantizationMethod.Standard_Low
          (ComputeActorRanges sampleClip)
          ("Body_1", { BoneTransforms := [transformAt 0 0 0, transformAt 0 0 5] }) =
        [Token.string "Body_1", Token.int32 2] ++
          WriteAll
            (fun BoneT => SerializeQuantizedTransform sampleQuantizers BoneT
              ETransformQuantizationMethod.Standard_Low Range ScaleRange)
            [transformAt 0 0 0, transformAt 0 0 5] :=
  C30_bone_ranges_cover_every_bone_set sampleQuantizers
    ETransformQuantizationMethod.Standard_Low [sampleClip] (ComputeActorRanges sampleClip)
    (List.mem_singleton.2 rfl)
    { TimeStamp := 0, FrameIndex := 0,
      ComponentTransforms := [("Body_1", transformAt 1 2 3)],
      SkeletalMeshBoneTransforms :=
        [("Body_1", { BoneTransforms := [transformAt 0 0 0, transformAt 0 0 5] })] }
    (by rw [(computeActorRanges_fields sampleClip).2.2]; exact List.mem_cons_self _ _)
    ("Body_1", { BoneTransforms := [transformAt 0 0 0, transformAt 0 0 5] })
    (List.mem_singleton.2 rfl)

/-! ### Recording files -/

theorem fstringByteSize_pos (s : String) : 0 < FStringByteSize s := by
  unfold FStringByteSize
  split_ifs <;> omega

theorem byteSize_pos (t : Token) : 0 < ByteSize t := by
  cases t <;> simp [ByteSize, fstringByteSize_pos]

theorem byteLength_nil : ByteLength [] = 0 := rfl

theorem byteLength_cons (t : Token) (Ar : List Token) :
    ByteLength (t :: Ar) = ByteSize t + ByteLength Ar := by
  simp [ByteLength]

theorem byteLength_append (A B : List Token) :
    ByteLength (A ++ B) = ByteLength A + ByteLength B := by
  simp [ByteLength]

theorem takeBytes_zero (Ar : List Token) : TakeBytes 0 Ar = ([], Ar) := by
  cases Ar with
  | nil => rfl
  | cons t rest =>
    have := byteSize_pos t
    simp only [TakeBytes]
    rw [if_neg (by omega)]

/-- A read of as many bytes as a buffer has, from a file that starts with the buffer,
gives the buffer. -/
theorem takeBytes_append (A B : List Token) : TakeBytes (ByteLength A) (A ++ B) = (A, B) := by
  induction A with
  | nil => exact takeBytes_zero B
  | cons a A ih =>
    have ih1 : TakeBytes (ByteLength A) (A.append B) = (A, B) := ih
    simp only [List.cons_append, TakeBytes, byteLength_cons]
    rw [if_pos (by omega), Nat.add_sub_cancel_left, ih1]

theorem readUInt8_run (v : Nat) (rest : List Token) :
    ReadUInt8.run (Token.uint8 v :: rest) = Except.ok (v, rest) := rfl

theorem readInt64_run (v : Int) (rest : List Token) :
    ReadInt64.run (Token.int64 v :: rest) = Except.ok (v, rest) := rfl

theorem readECompressionMethod_run (M : ECompressionMethod) (rest : List Token) :
    ReadECompressionMethod.run (WriteECompressionMethod M ++ rest) = Except.ok (M, rest) := by
  cases M <;> rfl

theorem readETransformQuantizationMethod_run (M : ETransformQuantizationMethod)
    (rest : List Token) :
    ReadETransformQuantizationMethod.run (WriteETransformQuantizationMethod M ++ rest) =
      Except.ok (M, rest) := by
  cases M <;> rfl

theorem readFBloodStainFileOptions_run (Options : FBloodStainFileOptions) (rest : List Token) :
    ReadFBloodStainFileOptions.run (WriteFBloodStainFileOptions Options ++ rest) =
      Except.ok (Options, rest) := by
  unfold ReadFBloodStainFileOptions WriteFBloodStainFileOptions
  rw [List.append_assoc, Loader.run_bind_ok (readECompressionMethod_run _ _),
    Loader.run_bind_ok (readETransformQuantizationMethod_run _ _)]
  rfl

/-- Load of a saved file header. -/
theorem readFBloodStainFileHeader_run (Header : FBloodStainFileHeader) (rest : List Token) :
    ReadFBloodStainFileHeader.run (WriteFBloodStainFileHeader Header ++ rest) =
      Except.ok (Header, rest) := by
  unfold ReadFBloodStainFileHeader WriteFBloodStainFileHeader
  simp only [List.cons_append, List.nil_append, List.append_assoc]
  rw [Loader.run_bind_ok (readUInt32_run _ _), Loader.run_bind_ok (readUInt32_run _ _),
    Loader.run_bind_ok (readFBloodStainFileOptions_run _ _),
    Loader.run_bind_ok (readInt64_run _ _)]
  rfl

/-- A file header takes 18 bytes. -/
theorem byteLength_fileHeader (Header : FBloodStainFileHeader) :
    ByteLength (WriteFBloodStainFileHeader Header) = 18 := by
  unfold WriteFBloodStainFileHeader WriteFBloodStainFileOptions
  cases Header.Options.CompressionOption <;> cases Header.Options.QuantizationOption <;> rfl

/-- Load of a saved user-data instance that the engine knows, into an instance that is
not valid. -/
theorem loadInstancedStruct_save (Env : EngineObjects) (InstanceData : FInstancedStruct)
    (h : KnownUserData Env InstanceData) (rest : List Token) :
    (LoadInstancedStruct Env none).run (SaveInstancedStruct InstanceData ++ rest) =
      Except.ok (InstanceData, rest) := by
  cases InstanceData with
  | none => rfl
  | some S =>
    obtain ⟨hne, FoundStruct, hfind, hsize, hload⟩ := h
    unfold LoadInstancedStruct SaveInstancedStruct
    simp only [List.cons_append, List.nil_append, if_neg hne]
    rw [Loader.run_bind_ok (readFString_run _ _), Loader.run_bind_ok (readInt32_run _ _)]
    simp only [if_neg hne, hfind]
    rw [Loader.run_bind_ok (hload rest), hsize]
    rfl

/-- Load of saved user-data instances that the engine knows, into a fresh array. -/
theorem loadInstancedStructs_save (Env : EngineObjects) (A : List FInstancedStruct)
    (h : ∀ InstanceData ∈ A, KnownUserData Env InstanceData) (rest : List Token) :
    (LoadInstancedStructs Env (List.replicate A.length none)).run
        (WriteAll SaveInstancedStruct A ++ rest) = Except.ok (A, rest) := by
  induction A with
  | nil => rfl
  | cons a A ih =>
    simp only [List.length_cons, List.replicate_succ, LoadInstancedStructs, WriteAll,
      List.append_assoc]
    rw [Loader.run_bind_ok (loadInstancedStruct_save Env a (h a (List.mem_cons_self _ _)) _),
      Loader.run_bind_ok (ih (fun u hu => h u (List.mem_cons_of_mem _ hu)))]
    rfl

/-- Load of a saved clip-set header whose user data the engine knows, into a fresh
header. -/
theorem readFRecordHeaderData_write (Env : EngineObjects) (Data : FRecordHeaderData)
    (h : KnownHeader Env Data) (rest : List Token) :
    (ReadFRecordHeaderData Env NewRecordHeaderData).run (WriteFRecordHeaderData Data ++ rest) =
      Except.ok (Data, rest) := by
  unfold ReadFRecordHeaderData WriteFRecordHeaderData
  simp only [List.cons_append, List.nil_append, List.append_assoc]
  rw [Loader.run_bind_ok (readFName_run _ _), Loader.run_bind_ok (readFName_run _ _),
    Loader.run_bind_ok (readArray_writeArray (fun Tag => [Token.name Tag]) ReadFName id
      Data.Tags (fun a _ r => readFName_run a r) _),
    Loader.run_bind_ok (readFTransform_run _ _),
    Loader.run_bind_ok (readFloat_run _ _), Loader.run_bind_ok (readFloat_run _ _),
    Loader.run_bind_ok (readFloat_run _ _), Loader.run_bind_ok (readInt32_run _ _)]
  have hnew : NewRecordHeaderData.RecordGroupUserData = none := rfl
  rw [hnew, Loader.run_bind_ok (loadInstancedStruct_save Env _ h.1 _)]
  have hset : SetNumUserData NewRecordHeaderData.RecordActorUserData
      (Int.toNat (Data.RecordActorUserData.length : Int)) =
      List.replicate Data.RecordActorUserData.length none := by
    simp [SetNumUserData, NewRecordHeaderData]
  rw [hset, Loader.run_bind_ok (loadInstancedStructs_save Env _ h.2 _), List.map_id]
  cases Data
  rfl

/-- The body that `SaveToFile` serializes has at least the four bytes of its clip count. -/
theorem body_byteLength (E : EngineQuantizers) (D : List FRecordActorSaveData)
    (QuantOpts : ETransformQuantizationMethod) :
    4 ≤ ByteLength (SerializeSaveData E D QuantOpts).1 := by
  unfold SerializeSaveData
  simp only [byteLength_cons, ByteSize]
  omega

/-- With a compression method other than `None`, the field `UncompressedSize` that
`SaveToFile` writes is the byte length of the serialized body. -/
theorem save_uncompressedSize_compressed (Z : EngineCompression) (E : EngineQuantizers)
    (SaveData : FRecordSaveData) (Options : FBloodStainFileOptions) (File : List Token)
    (hc : Options.CompressionOption ≠ ECompressionMethod.None)
    (hSave : SaveToFile Z E SaveData Options = some File) :
    WrittenUncompressedSize File = some ((ByteLength (SerializeSaveData E
      SaveData.RecordActorDataArray Options.QuantizationOption).1 : Nat) : Int) := by
  unfold SaveToFile SavePayload at hSave
  simp only [if_neg hc] at hSave
  cases hz : CompressBuffer Z (SerializeSaveData E SaveData.RecordActorDataArray
      Options.QuantizationOption).1 Options.CompressionOption with
  | none => simp [hz] at hSave
  | some Payload =>
    simp only [hz, Option.some.injEq] at hSave
    subst hSave
    unfold WrittenUncompressedSize
    simp only [List.cons_append, List.nil_append, List.append_assoc]
    rw [Loader.run_bind_ok (readInt32_run _ _), readFBloodStainFileHeader_run]
    rfl

/-- Without compression, the field `UncompressedSize` that `SaveToFile` writes is 0. -/
theorem save_uncompressedSize_none (Z : EngineCompression) (E : EngineQuantizers)
    (SaveData : FRecordSaveData) (Options : FBloodStainFileOptions)
    (hc : Options.CompressionOption = ECompressionMethod.None) :
    (SaveToFile Z E SaveData Options).map WrittenUncompressedSize = some (some 0) := by
  unfold SaveToFile SavePayload
  simp only [if_pos hc, Option.map_some', Option.some.injEq]
  unfold WrittenUncompressedSize
  simp only [List.cons_append, List.nil_append, List.append_assoc]
  rw [Loader.run_bind_ok (readInt32_run _ _), readFBloodStainFileHeader_run]
  rfl

/-- Claim C13 fails without compression: for the clip set `sampleSaveData` saved with the
method `None`, the field `UncompressedSize` in the written file header is 0, while the
serialized, uncompressed body has 680 bytes; with the method `Zlib` the field is 680. -/
theorem C13_uncompressed_size_zero_without_compression :
    (SaveToFile sampleCompression sampleQuantizers sampleSaveData plainOptions).map
      WrittenUncompressedSize = some (some 0) ∧
    ByteLength (SerializeSaveData sampleQuantizers sampleSaveData.RecordActorDataArray
      plainOptions.QuantizationOption).1 = 680 ∧
    (SaveToFile sampleCompression sampleQuantizers sampleSaveData zlibOptions).map
      WrittenUncompressedSize = some (some 680) := by
  decide!

/-- The header part of a file that `SaveToFile` writes, followed by any bytes, is read
back by `LoadHeaderFromFile`. -/
theorem loadHeader_of_head (Env : EngineObjects) (FileHeader : FBloodStainFileHeader)
    (Data : FRecordHeaderData) (Name : String) (P : List Token)
    (hKnown : KnownHeader Env Data) :
    LoadHeaderFromFile Env
        (some ([Token.int32 ((22 + ByteLength (WriteFRecordHeaderData Data) : Nat) : Int)] ++
          WriteFBloodStainFileHeader FileHeader ++ WriteFRecordHeaderData Data ++ P))
        Name NewRecordHeaderData =
      LoadOutcome.returnedTrue { Data with FileName := Name } := by
  set n := ByteLength (WriteFRecordHeaderData Data) with hn
  have hlen : ByteLength ([Token.int32 ((22 + n : Nat) : Int)] ++
      WriteFBloodStainFileHeader FileHeader ++ WriteFRecordHeaderData Data ++ P) =
      22 + n + ByteLength P := by
    simp only [byteLength_append, byteLength_cons, byteLength_nil, ByteSize,
      byteLength_fileHeader]
  unfold LoadHeaderFromFile
  simp only [hlen]
  rw [if_neg (by push_cast; omega), if_neg (by push_cast; omega)]
  have h4 : TakeBytes (4 : Int).toNat ([Token.int32 ((22 + n : Nat) : Int)] ++
      WriteFBloodStainFileHeader FileHeader ++ WriteFRecordHeaderData Data ++ P) =
      ([Token.int32 ((22 + n : Nat) : Int)],
        WriteFBloodStainFileHeader FileHeader ++ WriteFRecordHeaderData Data ++ P) := by
    have := takeBytes_append [Token.int32 ((22 + n : Nat) : Int)]
      (WriteFBloodStainFileHeader FileHeader ++ WriteFRecordHeaderData Data ++ P)
    simpa [byteLength_cons, byteLength_nil, ByteSize, List.append_assoc] using this
  simp only [h4, readInt32_run]
  rw [if_neg (by push_cast; omega), if_neg (by push_cast; omega)]
  have htake : TakeBytes (((22 + n : Nat) : Int) - 4).toNat
      (WriteFBloodStainFileHeader FileHeader ++ (WriteFRecordHeaderData Data ++ P)) =
      (WriteFBloodStainFileHeader FileHeader ++ WriteFRecordHeaderData Data, P) := by
    have := takeBytes_append
      (WriteFBloodStainFileHeader FileHeader ++ WriteFRecordHeaderData Data) P
    rw [byteLength_append, byteLength_fileHeader] at this
    have he : (((22 + n : Nat) : Int) - 4).toNat = 18 + n := by omega
    rw [he]
    simpa [List.append_assoc] using this
  simp only [List.append_assoc, htake]
  rw [Loader.run_bind_ok (readFBloodStainFileHeader_run _ _),
    readFRecordHeaderData_write Env Data hKnown]

/-- The example header is known to the example object lookup. -/
theorem sampleHeader_known : KnownHeader sampleObjects sampleHeader := by
  have hs : ∀ v : Int, KnownUserData sampleObjects (scoreData v) := fun v =>
    ⟨by simp [scoreData], scoreStruct, by simp [sampleObjects, scoreData], rfl,
      fun _ => rfl⟩
  refine ⟨hs 7, ?_⟩
  intro u hu
  simp only [sampleHeader, List.mem_cons, List.mem_singleton, List.not_mem_nil,
    or_false] at hu
  rcases hu with hu | hu
  · rw [hu]; exact True.intro
  · rw [hu]; exact hs 9

/-- Claim C14: a file written by `SaveToFile` is a head followed by the payload; the
leading `int32` is the byte length of the head, that is the offset at which the payload
starts; and with any bytes `P` in the place of the payload, `LoadHeaderFromFile` into a
fresh header returns true with the saved clip-set header under the file name of the
path. The user data of the header is known to the engine and the head fits an `int32`. -/
theorem C14_header_read_ignores_payload (Env : EngineObjects) (Z : EngineCompression)
    (E : EngineQuantizers) (SaveData : FRecordSaveData) (Options : FBloodStainFileOptions)
    (File : List Token) (Name : String)
    (hSave : SaveToFile Z E SaveData Options = some File)
    (hKnown : KnownHeader Env SaveData.Header)
    (hSize : ((22 + ByteLength (WriteFRecordHeaderData SaveData.Header) : Nat) : Int)
      ≤ INT32_MAX) :
    ∃ Head Payload : List Token,
      File = Head ++ Payload ∧
      (∃ RawBytes, SavePayload Z E SaveData Options = some (RawBytes, Payload)) ∧
      Head.head? = some (Token.int32 (ByteLength Head)) ∧
      ∀ P : List Token,
        LoadHeaderFromFile Env (some (Head ++ P)) Name NewRecordHeaderData =
          LoadOutcome.returnedTrue { SaveData.Header with FileName := Name } := by
  unfold SaveToFile at hSave
  cases hp : SavePayload Z E SaveData Options with
  | none => simp [hp] at hSave
  | some Pair =>
    obtain ⟨RawBytes, Payload⟩ := Pair
    simp only [hp, Option.some.injEq] at hSave
    have hw : wrap32 (((ByteLength ([Token.int32 0] ++
        WriteFBloodStainFileHeader (SaveFileHeader Options RawBytes) ++
        WriteFRecordHeaderData SaveData.Header) : Nat) : Int) - 0) =
        ((22 + ByteLength (WriteFRecordHeaderData SaveData.Header) : Nat) : Int) := by
      simp only [byteLength_append, byteLength_cons, byteLength_nil, ByteSize,
        byteLength_fileHeader]
      have h2 : (2147483647 : Int) = INT32_MAX := rfl
      rw [wrap32_eq_self (by omega) (by omega)]
      omega
    rw [hw] at hSave
    refine ⟨[Token.int32 ((22 + ByteLength (WriteFRecordHeaderData SaveData.Header) : Nat)
        : Int)] ++ WriteFBloodStainFileHeader (SaveFileHeader Options RawBytes) ++
        WriteFRecordHeaderData SaveData.Header, Payload, hSave.symm, ⟨RawBytes, rfl⟩, ?_, ?_⟩
    · have hb : ByteLength ([Token.int32
          ((22 + ByteLength (WriteFRecordHeaderData SaveData.Header) : Nat) : Int)] ++
          WriteFBloodStainFileHeader (SaveFileHeader Options RawBytes) ++
          WriteFRecordHeaderData SaveData.Header) =
          22 + ByteLength (WriteFRecordHeaderData SaveData.Header) := by
        simp only [byteLength_append, byteLength_cons, byteLength_nil, ByteSize,
          byteLength_fileHeader]
      rw [hb]
      rfl
    · intro P
      exact loadHeader_of_head Env _ SaveData.Header Name P hKnown

/-- Claim C14 on the file written for the example clip set with compression, read under
the file name `Run_2`. -/
theorem C14_header_read_ignores_payload_witness :
    ∃ Head Payload : List Token,
      sampleFile = Head ++ Payload ∧
      (∃ RawBytes, SavePayload sampleCompression sampleQuantizers sampleSaveData zlibOptions
        = some (RawBytes, Payload)) ∧
      Head.head? = some (Token.int32 (ByteLength Head)) ∧
      ∀ P : List Token,
        LoadHeaderFromFile sampleObjects (some (Head ++ P)) "Run_2" NewRecordHeaderData =
          LoadOutcome.returnedTrue { sampleSaveData.Header with FileName := "Run_2" } :=
  C14_header_read_ignores_payload sampleObjects sampleCompression sampleQuantizers
    sampleSaveData zlibOptions sampleFile "Run_2" (by decide!) sampleHeader_known
    (by decide!)

/-- The load of a file header does not look at magic and version: they are copied into
the result and nothing else depends on them. -/
theorem readFileHeader_magic (m v a b : Nat) (rest : List Token) :
    ReadFBloodStainFileHeader.run (Token.uint32 m :: Token.uint32 v :: rest) =
      match ReadFBloodStainFileHeader.run (Token.uint32 a :: Token.uint32 b :: rest) with
      | Except.error e => Except.error e
      | Except.ok (Header, Ar1) => Except.ok ({ Header with Magic := m, Version := v }, Ar1) := by
  unfold ReadFBloodStainFileHeader
  simp only [Loader.run_bind, readUInt32_run]
  cases h1 : ReadFBloodStainFileOptions.run rest with
  | error e => rfl
  | ok p1 =>
    obtain ⟨Options, Ar1⟩ := p1
    simp only []
    cases h2 : ReadInt64.run Ar1 with
    | error e => rfl
    | ok p2 => rfl

/-- The result of `LoadFromFile` does not depend on the magic and the version of the file
header. -/
theorem loadFromFile_magic (Env : EngineObjects) (Z : EngineCompression)
    (E : EngineQuantizers) (File : List Token) (Name : String) (OutData : FRecordSaveData)
    (Magic Version : Nat) :
    LoadFromFile Env Z E (some (WithMagicAndVersion Magic Version File)) Name OutData =
      LoadFromFile Env Z E (some File) Name OutData := by
  unfold WithMagicAndVersion
  split
  · rename_i H a b rest
    unfold LoadFromFile
    simp only [Loader.run_bind, readInt32_run]
    rw [readFileHeader_magic Magic Version a b rest]
    cases h1 : ReadFBloodStainFileHeader.run (Token.uint32 a :: Token.uint32 b :: rest) with
    | error e => rfl
    | ok p1 =>
      obtain ⟨Header, Ar1⟩ := p1
      simp only []
      cases h2 : (ReadFRecordHeaderData Env OutData.Header).run Ar1 with
      | error e => rfl
      | ok p2 => rfl
  · rfl

theorem takeBytes_int32 (H : Int) (Ar : List Token) :
    TakeBytes (4 : Int).toNat (Token.int32 H :: Ar) = ([Token.int32 H], Ar) := by
  show TakeBytes 4 (Token.int32 H :: Ar) = ([Token.int32 H], Ar)
  simp only [TakeBytes, ByteSize]
  rw [if_pos (le_refl 4), Nat.sub_self, takeBytes_zero]

theorem takeBytes_uint32 (n x : Nat) (Ar : List Token) :
    TakeBytes n (Token.uint32 x :: Ar) =
      if 4 ≤ n then (Token.uint32 x :: (TakeBytes (n - 4) Ar).1, (TakeBytes (n - 4) Ar).2)
      else ([], Token.uint32 x :: Ar) := by
  simp only [TakeBytes, ByteSize]

/-- A file header cannot be read from zero bytes that follow at most one `uint32`. -/
theorem readFileHeader_zeros (k : Nat) :
    ReadUInt32.run (List.replicate k (Token.uint8 0)) = Except.error ArchiveError.endOfData := by
  cases k <;> rfl

/-- The header block that `LoadHeaderFromFile` reads is parsed to the same result
whatever magic and version it starts with. -/
theorem readHeaderBlock_magic (Env : EngineObjects) (Out : FRecordHeaderData)
    (n k m v a b : Nat) (rest : List Token) :
    (ReadFBloodStainFileHeader >>= fun _ => ReadFRecordHeaderData Env Out).run
        ((TakeBytes n (Token.uint32 m :: Token.uint32 v :: rest)).1 ++
          List.replicate
            (k - ByteLength (TakeBytes n (Token.uint32 m :: Token.uint32 v :: rest)).1)
            (Token.uint8 0)) =
      (ReadFBloodStainFileHeader >>= fun _ => ReadFRecordHeaderData Env Out).run
        ((TakeBytes n (Token.uint32 a :: Token.uint32 b :: rest)).1 ++
          List.replicate
            (k - ByteLength (TakeBytes n (Token.uint32 a :: Token.uint32 b :: rest)).1)
            (Token.uint8 0)) := by
  by_cases h4 : 4 ≤ n
  · by_cases h8 : 4 ≤ n - 4
    · simp only [takeBytes_uint32, if_pos h4, if_pos h8, byteLength_cons, ByteSize,
        List.cons_append]
      rw [Loader.run_bind, Loader.run_bind, readFileHeader_magic m v a b]
      cases h1 : ReadFBloodStainFileHeader.run (Token.uint32 a :: Token.uint32 b ::
          ((TakeBytes (n - 4 - 4) rest).1 ++
            List.replicate (k - (4 + (4 + ByteLength (TakeBytes (n - 4 - 4) rest).1)))
              (Token.uint8 0))) with
      | error e => rfl
      | ok p1 => rfl
    · simp only [takeBytes_uint32, if_pos h4, if_neg h8, byteLength_cons, ByteSize,
        byteLength_nil, List.cons_append, List.nil_append]
      unfold ReadFBloodStainFileHeader
      simp only [Loader.run_bind, readUInt32_run, readFileHeader_zeros]
  · simp only [takeBytes_uint32, if_neg h4]

/-- The result of `LoadHeaderFromFile` does not depend on the magic and the version of
the file header. -/
theorem loadHeaderFromFile_magic (Env : EngineObjects) (File : List Token) (Name : String)
    (Out : FRecordHeaderData) (Magic Version : Nat) :
    LoadHeaderFromFile Env (some (WithMagicAndVersion Magic Version File)) Name Out =
      LoadHeaderFromFile Env (some File) Name Out := by
  unfold WithMagicAndVersion
  split
  · rename_i H a b rest
    unfold LoadHeaderFromFile
    simp only [takeBytes_int32, readInt32_run, byteLength_cons, ByteSize]
    rw [readHeaderBlock_magic Env Out _ _ Magic Version a b rest]
  · rfl

/-- Claim C18, as the code has it: `LoadFromFile` and `LoadHeaderFromFile` read the magic
and the version of the file header and compare them with nothing; what they return for
a file is what they return for the same file with any other magic and version. -/
theorem C18_loads_ignore_magic_and_version (Env : EngineObjects) (Z : EngineCompression)
    (E : EngineQuantizers) (File : List Token) (Name : String) (OutData : FRecordSaveData)
    (Magic Version : Nat) :
    LoadFromFile Env Z E (some (WithMagicAndVersion Magic Version File)) Name OutData =
      LoadFromFile Env Z E (some File) Name OutData ∧
    LoadHeaderFromFile Env (some (WithMagicAndVersion Magic Version File)) Name
        OutData.Header =
      LoadHeaderFromFile Env (some File) Name OutData.Header :=
  ⟨loadFromFile_magic Env Z E File Name OutData Magic Version,
   loadHeaderFromFile_magic Env File Name OutData.Header Magic Version⟩

/-- Claim C18 as stated fails: the example file with the magic 0 and the version 7 in its
file header is loaded with the return value true by `LoadFromFile` and by
`LoadHeaderFromFile`. -/
theorem C18_other_magic_and_version_load :
    (WithMagicAndVersion 0 7 sampleFile).take 3 =
      [Token.int32 227, Token.uint32 0, Token.uint32 7] ∧
    LoadFromFile sampleObjects sampleCompression sampleQuantizers
        (some (WithMagicAndVersion 0 7 sampleFile)) "Run_1"
        { Header := NewRecordHeaderData, RecordActorDataArray := [] } =
      LoadOutcome.returnedTrue
        { Header := sampleHeader,
          RecordActorDataArray := (SerializeSaveData sampleQuantizers [sampleClip]
            ETransformQuantizationMethod.Standard_Medium).2 } ∧
    LoadHeaderFromFile sampleObjects (some (WithMagicAndVersion 0 7 sampleFile)) "Run_1"
        NewRecordHeaderData = LoadOutcome.returnedTrue sampleHeader := by
  decide!
end BloodStain
